import Mathlib

/-!
# Stitch: staleness oracle, commands, process spawn and wait, self-rebuild,
logging, dynamic arrays, temporary allocator, string views

A shallow embedding of the POSIX branch of `stitch.h`.  The operating system is
an explicit `World` value: the answers of `stat`, `fork`, `dup2`, `execvp`,
`waitpid` and `rename` are read from it, and every system call and every line
written to `stderr` is appended to `World.trace`, in program order.
-/

namespace Stitch

/-! ## Data model -/

/-- Severity levels, `Stitch_Log_Level`, in declaration order. -/
inductive Stitch_Log_Level where
  | STITCH_INFO
  | STITCH_WARNING
  | STITCH_ERROR
  | STITCH_NO_LOGS
  deriving DecidableEq, Repr

/-- Numeric value of the C enumerator. -/
def Stitch_Log_Level.toNat : Stitch_Log_Level → Nat
  | .STITCH_INFO => 0
  | .STITCH_WARNING => 1
  | .STITCH_ERROR => 2
  | .STITCH_NO_LOGS => 3

/-- Result of a system call: `fail e` is a return value below zero with
`errno = e`, `ok v` is a successful call that produced `v`. -/
inductive SysResult (α : Type) where
  | fail (errno : Nat)
  | ok (val : α)
  deriving DecidableEq, Repr

/-- Observable actions of the process, in program order. -/
inductive Effect where
  | stat (path : String)
  | fork
  | dup2 (oldfd newfd : Int)
  | execvp (file : Option String) (argv : List (Option String))
  | waitpid (pid : Int)
  | stderr (text : String)
  | close (fd : Int)
  | rename (old_path new_path : String)
  deriving DecidableEq, Repr

/-- The process environment.  `stat p` is what `stat(p, &statbuf)` answers
(`ok t` carries `statbuf.st_mtime`, a `time_t`); `fork_results` are the answers
of the successive `fork()` calls (`ok 0` is the child side); `children pid` are
the answers still to be delivered by `waitpid(pid, &wstatus, 0)`, `ok s` carrying
`wstatus`; once they are used up the process has no such child and `waitpid`
fails with `ECHILD`.  `inode p` names the file found at path `p` (it has a
meaning where `stat p` succeeds) and `rename_errno old new` is the error, if
any, that `rename(old, new)` meets on a source that exists.  The file system
changes through the calls of this process only. -/
structure World where
  stitch_minimal_log_level : Stitch_Log_Level
  stat : String → SysResult Int
  fork_results : List (SysResult Nat)
  dup2 : Int → Int → SysResult Unit
  execvp : Option String → SysResult Unit
  children : Int → List (SysResult Nat)
  strerror : Nat → String
  trace : List Effect
  inode : String → Nat := fun _ => 0
  rename_errno : String → String → Option Nat := fun _ _ => none

/-- Value of `ENOENT`. -/
def ENOENT : Nat := 2

/-- Value of `ECHILD`. -/
def ECHILD : Nat := 10

/-- Value of `EAGAIN`. -/
def EAGAIN : Nat := 11

/-- `STITCH_INVALID_PROC`, POSIX branch. -/
def STITCH_INVALID_PROC : Int := -1

/-- `STITCH_INVALID_FD`, POSIX branch. -/
def STITCH_INVALID_FD : Int := -1

/-- `STDIN_FILENO`. -/
def STDIN_FILENO : Int := 0

/-- `STDOUT_FILENO`. -/
def STDOUT_FILENO : Int := 1

/-- `STDERR_FILENO`. -/
def STDERR_FILENO : Int := 2

/-- Record one action at the end of the trace. -/
def World.emit (w : World) (e : Effect) : World :=
  { w with trace := w.trace ++ [e] }

/-- Conversion of a wider integer to C `int`: reduction modulo `2^32` into
`[-2^31, 2^31)`. -/
def toInt32 (x : Int) : Int :=
  (x + 2147483648) % 4294967296 - 2147483648

/-- Values a 64-bit `time_t` can hold. -/
def inTimeT (t : Int) : Prop :=
  -9223372036854775808 ≤ t ∧ t < 9223372036854775808

/-- Values a C `int` can hold. -/
def inInt32 (t : Int) : Prop :=
  -2147483648 ≤ t ∧ t < 2147483648

instance (t : Int) : Decidable (inTimeT t) := by
  unfold inTimeT; infer_instance

instance (t : Int) : Decidable (inInt32 t) := by
  unfold inInt32; infer_instance

/-! ## Logging -/

/-- `stitch_log`: nothing below the threshold, nothing at `STITCH_NO_LOGS`,
otherwise the tag, the formatted message and a newline on `stderr`.  `msg` is
the message after `printf` formatting. -/
def stitch_log (level : Stitch_Log_Level) (msg : String) (w : World) : World :=
  if level.toNat < w.stitch_minimal_log_level.toNat then w
  else
    match level with
    | .STITCH_INFO => w.emit (.stderr ("[INFO] " ++ msg ++ "\n"))
    | .STITCH_WARNING => w.emit (.stderr ("[WARNING] " ++ msg ++ "\n"))
    | .STITCH_ERROR => w.emit (.stderr ("[ERROR] " ++ msg ++ "\n"))
    | .STITCH_NO_LOGS => w

/-! ## Staleness oracle -/

/-- The `for` loop of `stitch_needs_rebuild` over the remaining input paths;
`output_path_time` is the `int` the output's `st_mtime` was stored in. -/
def stitch_needs_rebuild_loop (output_path_time : Int) : List String → World → Int × World
  | [], w => (0, w)
  | input_path :: rest, w =>
    let w1 := w.emit (.stat input_path)
    match w.stat input_path with
    | .fail e =>
      (-1, stitch_log .STITCH_ERROR
        ("could not stat " ++ input_path ++ ": " ++ w.strerror e) w1)
    | .ok st_mtime =>
      let input_path_time := toInt32 st_mtime
      if input_path_time > output_path_time then (1, w1)
      else stitch_needs_rebuild_loop output_path_time rest w1

/-- `stitch_needs_rebuild(output_path, input_paths, input_paths_count)`, POSIX
branch; the array and its count are the list `input_paths`. -/
def stitch_needs_rebuild (output_path : String) (input_paths : List String)
    (w : World) : Int × World :=
  let w1 := w.emit (.stat output_path)
  match w.stat output_path with
  | .fail e =>
    if e = ENOENT then (1, w1)
    else
      (-1, stitch_log .STITCH_ERROR
        ("could not stat " ++ output_path ++ ": " ++ w.strerror e) w1)
  | .ok st_mtime =>
    let output_path_time := toInt32 st_mtime
    stitch_needs_rebuild_loop output_path_time input_paths w1

/-! ## Commands and processes -/

/-- The struct `Stitch_Cmd`: `items` is the content of the backing array, of
which the first `count` slots are the arguments; `none` is a `NULL` pointer. -/
structure Stitch_Cmd where
  items : List (Option String)
  count : Nat
  capacity : Nat
  deriving DecidableEq, Repr

/-- The struct `Stitch_Procs`: the first `count` slots of `items` are the handles. -/
structure Stitch_Procs where
  items : List Int
  count : Nat
  capacity : Nat
  deriving DecidableEq, Repr

/-- The struct `Stitch_Cmd_Redirect`: each field is the handle behind the
pointer, `none` when the pointer is `NULL`. -/
structure Stitch_Cmd_Redirect where
  fdin : Option Int
  fdout : Option Int
  fderr : Option Int
  deriving DecidableEq, Repr

/-- How a call ends for the running process: it returns a value, the process
calls `exit`, or `execvp` replaced the process image. -/
inductive Outcome (α : Type) where
  | ret (val : α)
  | exit (status : Int)
  | exec
  deriving DecidableEq, Repr

/-- The arguments `cmd.items[0 .. cmd.count)`. -/
def Stitch_Cmd.args (cmd : Stitch_Cmd) : List (Option String) :=
  cmd.items.take cmd.count

/-- The handles `procs.items[0 .. procs.count)`. -/
def Stitch_Procs.handles (procs : Stitch_Procs) : List Int :=
  procs.items.take procs.count

/-- The loop of `stitch_cmd_render` from index `i` on; `render` is the text of
the string builder. -/
def stitch_cmd_render_loop (i : Nat) : List (Option String) → String → String
  | [], render => render
  | none :: _, render => render
  | some arg :: rest, render =>
    let render1 := if i > 0 then render ++ " " else render
    let render2 :=
      if ¬ arg.data.elem ' ' then render1 ++ arg
      else ((render1.push (Char.ofNat 39)) ++ arg).push (Char.ofNat 39)
    stitch_cmd_render_loop (i + 1) rest render2

/-- `stitch_cmd_render(cmd, render)`. -/
def stitch_cmd_render (cmd : Stitch_Cmd) (render : String) : String :=
  stitch_cmd_render_loop 0 cmd.args render

/-- `fork()`: the next answer of the environment; with none left the call
fails with `EAGAIN`. -/
def fork (w : World) : SysResult Nat × World :=
  match w.fork_results with
  | [] => (.fail EAGAIN, w.emit .fork)
  | r :: rs => (r, { w.emit .fork with fork_results := rs })

/-- One `if (redirect.fdX) { if (dup2(*redirect.fdX, target) < 0) {...; exit(1);} }`
block of the child side. -/
def child_dup2 (fd : Option Int) (target : Int) (name : String) (w : World) :
    Outcome Unit × World :=
  match fd with
  | none => (.ret (), w)
  | some fd =>
    let w1 := w.emit (.dup2 fd target)
    match w.dup2 fd target with
    | .fail e =>
      (.exit 1, stitch_log .STITCH_ERROR
        ("Could not setup " ++ name ++ " for child process: " ++ w.strerror e) w1)
    | .ok _ => (.ret (), w1)

/-- The `cpid == 0` branch of `stitch_cmd_run_async_redirect`: the three
redirections, then `execvp(cmd.items[0], cmd_null.items)` where `cmd_null` holds
the arguments of `cmd` followed by `NULL`. -/
def stitch_cmd_run_async_redirect_child (cmd : Stitch_Cmd) (redirect : Stitch_Cmd_Redirect)
    (w : World) : Outcome Int × World :=
  match child_dup2 redirect.fdin STDIN_FILENO "stdin" w with
  | (.exit c, w1) => (.exit c, w1)
  | (.exec, w1) => (.exec, w1)
  | (.ret _, w1) =>
    match child_dup2 redirect.fdout STDOUT_FILENO "stdout" w1 with
    | (.exit c, w2) => (.exit c, w2)
    | (.exec, w2) => (.exec, w2)
    | (.ret _, w2) =>
      match child_dup2 redirect.fderr STDERR_FILENO "stderr" w2 with
      | (.exit c, w3) => (.exit c, w3)
      | (.exec, w3) => (.exec, w3)
      | (.ret _, w3) =>
        let cmd_null := cmd.args ++ [none]
        let file := cmd.items.headD none
        let w4 := w3.emit (.execvp file cmd_null)
        match w3.execvp file with
        | .fail e =>
          (.exit 1, stitch_log .STITCH_ERROR
            ("Could not exec child process: " ++ w3.strerror e) w4)
        | .ok _ => (.exec, w4)

/-- `stitch_cmd_run_async_redirect(cmd, redirect)`, POSIX branch. -/
def stitch_cmd_run_async_redirect (cmd : Stitch_Cmd) (redirect : Stitch_Cmd_Redirect)
    (w : World) : Outcome Int × World :=
  if cmd.count < 1 then
    (.ret STITCH_INVALID_PROC, stitch_log .STITCH_ERROR "Could not run empty command" w)
  else
    let sb := stitch_cmd_render cmd ""
    let w1 := stitch_log .STITCH_INFO ("CMD: " ++ sb) w
    match fork w1 with
    | (.fail e, w2) =>
      (.ret STITCH_INVALID_PROC, stitch_log .STITCH_ERROR
        ("Could not fork child process: " ++ w2.strerror e) w2)
    | (.ok cpid, w2) =>
      if cpid = 0 then stitch_cmd_run_async_redirect_child cmd redirect w2
      else (.ret (Int.ofNat cpid), w2)

/-- The macro `stitch_cmd_run_async(cmd)`: no redirection. -/
def stitch_cmd_run_async (cmd : Stitch_Cmd) (w : World) : Outcome Int × World :=
  stitch_cmd_run_async_redirect cmd ⟨none, none, none⟩ w

/-- `WIFEXITED(wstatus)`: `(wstatus & 0x7f) == 0`. -/
def WIFEXITED (wstatus : Nat) : Bool :=
  wstatus % 128 == 0

/-- `WEXITSTATUS(wstatus)`: `(wstatus & 0xff00) >> 8`. -/
def WEXITSTATUS (wstatus : Nat) : Nat :=
  (wstatus / 256) % 256

/-- `WTERMSIG(wstatus)`: `wstatus & 0x7f`. -/
def WTERMSIG (wstatus : Nat) : Nat :=
  wstatus % 128

/-- `WIFSIGNALED(wstatus)`: `((signed char) ((wstatus & 0x7f) + 1) >> 1) > 0`,
that is, the low seven bits are neither `0` (exited) nor `0x7f` (stopped). -/
def WIFSIGNALED (wstatus : Nat) : Bool :=
  decide (0 < wstatus % 128) && decide (wstatus % 128 < 127)

/-- The `for (;;)` loop of `stitch_proc_wait`.  The list is `w.children proc`,
the answers `waitpid(proc, &wstatus, 0)` has yet to give; each iteration
consumes one, so the loop ends. -/
def stitch_proc_wait_loop (proc : Int) : List (SysResult Nat) → World → Bool × World
  | [], w =>
    let w1 := w.emit (.waitpid proc)
    (false, stitch_log .STITCH_ERROR
      ("could not wait on command (pid " ++ toString proc ++ "): " ++ w.strerror ECHILD) w1)
  | r :: rs, w =>
    let w1 := { w.emit (.waitpid proc) with children := Function.update w.children proc rs }
    match r with
    | .fail e =>
      (false, stitch_log .STITCH_ERROR
        ("could not wait on command (pid " ++ toString proc ++ "): " ++ w.strerror e) w1)
    | .ok wstatus =>
      if WIFEXITED wstatus then
        let exit_status := WEXITSTATUS wstatus
        if exit_status ≠ 0 then
          (false, stitch_log .STITCH_ERROR
            ("command exited with exit code " ++ toString exit_status) w1)
        else (true, w1)
      else if WIFSIGNALED wstatus then
        (false, stitch_log .STITCH_ERROR
          ("command process was terminated by signal " ++ toString (WTERMSIG wstatus)) w1)
      else stitch_proc_wait_loop proc rs w1

/-- `stitch_proc_wait(proc)`, POSIX branch. -/
def stitch_proc_wait (proc : Int) (w : World) : Bool × World :=
  if proc = STITCH_INVALID_PROC then (false, w)
  else stitch_proc_wait_loop proc (w.children proc) w

/-- The loop of `stitch_procs_wait`; `success` is the local variable. -/
def stitch_procs_wait_loop : List Int → Bool → World → Bool × World
  | [], success, w => (success, w)
  | proc :: rest, success, w =>
    let r := stitch_proc_wait proc w
    stitch_procs_wait_loop rest (r.1 && success) r.2

/-- `stitch_procs_wait(procs)`. -/
def stitch_procs_wait (procs : Stitch_Procs) (w : World) : Bool × World :=
  stitch_procs_wait_loop procs.handles true w

/-- `stitch_cmd_run_sync_redirect(cmd, redirect)`. -/
def stitch_cmd_run_sync_redirect (cmd : Stitch_Cmd) (redirect : Stitch_Cmd_Redirect)
    (w : World) : Outcome Bool × World :=
  match stitch_cmd_run_async_redirect cmd redirect w with
  | (.exit c, w1) => (.exit c, w1)
  | (.exec, w1) => (.exec, w1)
  | (.ret p, w1) =>
    if p = STITCH_INVALID_PROC then (.ret false, w1)
    else
      let r := stitch_proc_wait p w1
      (.ret r.1, r.2)

/-- `stitch_cmd_run_sync(cmd)`. -/
def stitch_cmd_run_sync (cmd : Stitch_Cmd) (w : World) : Outcome Bool × World :=
  match stitch_cmd_run_async cmd w with
  | (.exit c, w1) => (.exit c, w1)
  | (.exec, w1) => (.exec, w1)
  | (.ret p, w1) =>
    if p = STITCH_INVALID_PROC then (.ret false, w1)
    else
      let r := stitch_proc_wait p w1
      (.ret r.1, r.2)

/-! ## Dynamic arrays -/

/-- Number of values of a 64-bit `size_t`: arithmetic on `size_t` is modulo this. -/
def SIZE_T_MOD : Nat := 18446744073709551616

/-- `STITCH_DA_INIT_CAP`, the default of the header. -/
def STITCH_DA_INIT_CAP : Nat := 256

/-- The loop `while (expected_capacity > capacity) capacity *= 2` of
`stitch_da_reserve`, run for at most `fuel` tests of the condition; `none` when
the loop is still running after them. -/
def stitch_da_reserve_loop (expected_capacity : Nat) : Nat → Nat → Option Nat
  | 0, _ => none
  | fuel + 1, capacity =>
    if expected_capacity > capacity then
      stitch_da_reserve_loop expected_capacity fuel (capacity * 2 % SIZE_T_MOD)
    else some capacity

/-- The capacity `stitch_da_reserve` leaves in the array.  After 64 doublings
a `size_t` capacity is 0 and stays 0, so 65 tests of the condition decide
whether the loop ends; `none` is a loop that never ends. -/
def stitch_da_reserve_capacity (init_cap expected_capacity capacity : Nat) : Option Nat :=
  if expected_capacity > capacity then
    stitch_da_reserve_loop expected_capacity 65 (if capacity = 0 then init_cap else capacity)
  else some capacity

/-- `stitch_da_reserve(cmd, expected_capacity)` on a command: `realloc` keeps
the content of the array (running out of memory is not modelled). -/
def stitch_da_reserve (cmd : Stitch_Cmd) (expected_capacity : Nat) : Option Stitch_Cmd :=
  match stitch_da_reserve_capacity STITCH_DA_INIT_CAP expected_capacity cmd.capacity with
  | none => none
  | some capacity => some { cmd with capacity := capacity }

/-- `stitch_da_append_many(cmd, new_items, new_items_count)` on a command: the
`memcpy` writes the first `new_items_count` of `new_items` into the slots from
`cmd->count` on. -/
def stitch_da_append_many (cmd : Stitch_Cmd) (new_items : List (Option String))
    (new_items_count : Nat) : Option Stitch_Cmd :=
  match stitch_da_reserve cmd ((cmd.count + new_items_count) % SIZE_T_MOD) with
  | none => none
  | some da =>
    some { da with
      items := da.items.take da.count ++ new_items.take new_items_count
        ++ da.items.drop (da.count + new_items_count)
      count := (da.count + new_items_count) % SIZE_T_MOD }

/-- The macro `stitch_cmd_append(cmd, ...)`: the variadic arguments are the
array, its length the count. -/
def stitch_cmd_append (cmd : Stitch_Cmd) (args : List (Option String)) : Option Stitch_Cmd :=
  stitch_da_append_many cmd args args.length

/-- The macro `stitch_cmd_extend(cmd, other_cmd)`. -/
def stitch_cmd_extend (cmd other_cmd : Stitch_Cmd) : Option Stitch_Cmd :=
  stitch_da_append_many cmd other_cmd.items other_cmd.count

/-! ## Rendering, in the words of the specification -/

/-- The single quote character. -/
def quoteChar : Char := Char.ofNat 39

/-- An argument as the specification renders it: wrapped in single quotes when
it contains a space, verbatim otherwise. -/
def spec_render_arg (arg : String) : String :=
  if arg.data.elem ' ' then (String.singleton quoteChar ++ arg).push quoteChar else arg

/-- A command as the specification renders it: the rendered arguments, in
order, separated by one space. -/
def spec_render (args : List String) : String :=
  " ".intercalate (args.map spec_render_arg)

/-! ## Reset variants -/

/-- The struct `Stitch_Cmd_Redirect` with its pointers kept: each field is the
address of a `Stitch_Fd` variable, `none` when the pointer is `NULL`.  The
variables live in a store `Nat → Int`. -/
structure Stitch_Cmd_Redirect_Ptr where
  fdin : Option Nat
  fdout : Option Nat
  fderr : Option Nat
  deriving DecidableEq, Repr

/-- The handles behind the pointers. -/
def Stitch_Cmd_Redirect_Ptr.deref (redirect : Stitch_Cmd_Redirect_Ptr) (mem : Nat → Int) :
    Stitch_Cmd_Redirect :=
  { fdin := redirect.fdin.map mem
    fdout := redirect.fdout.map mem
    fderr := redirect.fderr.map mem }

/-- `stitch_fd_close(fd)`: `close(fd)`, its result ignored. -/
def stitch_fd_close (fd : Int) (w : World) : World :=
  w.emit (.close fd)

/-- One block `if (redirect.fdX) { stitch_fd_close(*redirect.fdX);
*redirect.fdX = STITCH_INVALID_FD; }`. -/
def close_and_invalidate (fd : Option Nat) (mem : Nat → Int) (w : World) :
    (Nat → Int) × World :=
  match fd with
  | none => (mem, w)
  | some a => (Function.update mem a STITCH_INVALID_FD, stitch_fd_close (mem a) w)

/-- The three blocks that follow the run in the `_redirect_and_reset`
functions, for `fdin`, `fdout`, `fderr` in this order. -/
def reset_redirect (redirect : Stitch_Cmd_Redirect_Ptr) (mem : Nat → Int) (w : World) :
    (Nat → Int) × World :=
  let r1 := close_and_invalidate redirect.fdin mem w
  let r2 := close_and_invalidate redirect.fdout r1.1 r1.2
  close_and_invalidate redirect.fderr r2.1 r2.2

/-- `stitch_cmd_run_async_and_reset(cmd)`: the handle and the command after the call. -/
def stitch_cmd_run_async_and_reset (cmd : Stitch_Cmd) (w : World) :
    Outcome (Int × Stitch_Cmd) × World :=
  match stitch_cmd_run_async cmd w with
  | (.exit c, w1) => (.exit c, w1)
  | (.exec, w1) => (.exec, w1)
  | (.ret proc, w1) => (.ret (proc, { cmd with count := 0 }), w1)

/-- `stitch_cmd_run_async_redirect_and_reset(cmd, redirect)`: the handle, the
command and the store of handle variables after the call. -/
def stitch_cmd_run_async_redirect_and_reset (cmd : Stitch_Cmd)
    (redirect : Stitch_Cmd_Redirect_Ptr) (mem : Nat → Int) (w : World) :
    Outcome (Int × Stitch_Cmd × (Nat → Int)) × World :=
  match stitch_cmd_run_async_redirect cmd (redirect.deref mem) w with
  | (.exit c, w1) => (.exit c, w1)
  | (.exec, w1) => (.exec, w1)
  | (.ret proc, w1) =>
    let r := reset_redirect redirect mem w1
    (.ret (proc, { cmd with count := 0 }, r.1), r.2)

/-- `stitch_cmd_run_sync_and_reset(cmd)`: the result and the command after the call. -/
def stitch_cmd_run_sync_and_reset (cmd : Stitch_Cmd) (w : World) :
    Outcome (Bool × Stitch_Cmd) × World :=
  match stitch_cmd_run_sync cmd w with
  | (.exit c, w1) => (.exit c, w1)
  | (.exec, w1) => (.exec, w1)
  | (.ret p, w1) => (.ret (p, { cmd with count := 0 }), w1)

/-- `stitch_cmd_run_sync_redirect_and_reset(cmd, redirect)`: the result, the
command and the store of handle variables after the call. -/
def stitch_cmd_run_sync_redirect_and_reset (cmd : Stitch_Cmd)
    (redirect : Stitch_Cmd_Redirect_Ptr) (mem : Nat → Int) (w : World) :
    Outcome (Bool × Stitch_Cmd × (Nat → Int)) × World :=
  match stitch_cmd_run_sync_redirect cmd (redirect.deref mem) w with
  | (.exit c, w1) => (.exit c, w1)
  | (.exec, w1) => (.exec, w1)
  | (.ret p, w1) =>
    let r := reset_redirect redirect mem w1
    (.ret (p, { cmd with count := 0 }, r.1), r.2)

/-- The addresses of the handle variables a redirect points to, in the order
`fdin`, `fdout`, `fderr`; an absent stream contributes nothing. -/
def Stitch_Cmd_Redirect_Ptr.present (redirect : Stitch_Cmd_Redirect_Ptr) : List Nat :=
  [redirect.fdin, redirect.fdout, redirect.fderr].filterMap id

/-! ## Self-rebuild bootstrap -/

/-- `rename(old_path, new_path)`: it fails when the source cannot be stat-ed or
when the environment refuses it; otherwise the file moves to `new_path`,
replacing what was there, and `old_path` no longer exists. -/
def rename (old_path new_path : String) (w : World) : SysResult Unit × World :=
  let w1 := w.emit (.rename old_path new_path)
  match w.stat old_path with
  | .fail e => (.fail e, w1)
  | .ok st_mtime =>
    match w.rename_errno old_path new_path with
    | some e => (.fail e, w1)
    | none =>
      if old_path = new_path then (.ok (), w1)
      else
        (.ok (), { w1 with
          stat := fun p =>
            if p = new_path then .ok st_mtime
            else if p = old_path then .fail ENOENT
            else w.stat p
          inode := fun p => if p = new_path then w.inode old_path else w.inode p })

/-- `stitch_rename(old_path, new_path)`, POSIX branch. -/
def stitch_rename (old_path new_path : String) (w : World) : Bool × World :=
  let w1 := stitch_log .STITCH_INFO ("renaming " ++ old_path ++ " -> " ++ new_path) w
  match rename old_path new_path w1 with
  | (.fail e, w2) =>
    (false, stitch_log .STITCH_ERROR
      ("could not rename " ++ old_path ++ " to " ++ new_path ++ ": " ++ w2.strerror e) w2)
  | (.ok _, w2) => (true, w2)

/-- The macro `STITCH_REBUILD_URSELF(binary_path, source_path)`, POSIX default. -/
def STITCH_REBUILD_URSELF (binary_path source_path : String) : List (Option String) :=
  [some "cc", some "-o", some binary_path, some source_path]

/-- The macro `stitch_shift(xs, xs_sz)`: `none` is the failed
`STITCH_ASSERT((xs_sz) > 0)`. -/
def stitch_shift {α : Type} : List α → Option (α × List α)
  | [] => none
  | x :: xs => some (x, xs)

/-- The last step of `stitch__go_rebuild_urself`, from the result `r` of
running the relaunch command: `if (!stitch_cmd_run_sync_and_reset(&cmd)) exit(1);
exit(0);`. -/
def stitch__go_rebuild_urself_relaunched (r : Outcome (Bool × Stitch_Cmd) × World) :
    Outcome Unit × World :=
  match r with
  | (.exit c, w1) => (.exit c, w1)
  | (.exec, w1) => (.exec, w1)
  | (.ret (ok, _), w1) => if !ok then (.exit 1, w1) else (.exit 0, w1)

/-- The steps of `stitch__go_rebuild_urself` after the compile command
succeeded: `cmd` gets `binary_path` and the remaining `argv` and is run
synchronously.  `none` is a call without an outcome (a `stitch_da_reserve` loop
that never ends). -/
def stitch__go_rebuild_urself_relaunch (cmd : Stitch_Cmd) (binary_path : String)
    (argv : List String) (w : World) : Option (Outcome Unit × World) :=
  match stitch_cmd_append cmd [some binary_path] with
  | none => none
  | some cmd1 =>
    match stitch_da_append_many cmd1 (argv.map some) argv.length with
    | none => none
    | some cmd2 =>
      some (stitch__go_rebuild_urself_relaunched (stitch_cmd_run_sync_and_reset cmd2 w))

/-- The steps of `stitch__go_rebuild_urself` from the result `r` of running the
compile command: on failure the backup is renamed back and the process exits
with 1, on success the relaunch follows. -/
def stitch__go_rebuild_urself_compiled (binary_path : String) (argv : List String)
    (r : Outcome (Bool × Stitch_Cmd) × World) : Option (Outcome Unit × World) :=
  match r with
  | (.exit c, w2) => some (.exit c, w2)
  | (.exec, w2) => some (.exec, w2)
  | (.ret (ok, cmd2), w2) =>
    if !ok then some (.exit 1, (stitch_rename (binary_path ++ ".old") binary_path w2).2)
    else stitch__go_rebuild_urself_relaunch cmd2 binary_path argv w2

/-- The part of `stitch__go_rebuild_urself` that runs when a rebuild is needed:
rename to the backup path `binary_path ++ ".old"` (the `stitch_temp_sprintf`
result; the temporary allocator is not modelled), then the compile command. -/
def stitch__go_rebuild_urself_rebuild (binary_path source_path : String)
    (argv : List String) (w : World) : Option (Outcome Unit × World) :=
  let cmd : Stitch_Cmd := { items := [], count := 0, capacity := 0 }
  let old_binary_path := binary_path ++ ".old"
  match stitch_rename binary_path old_binary_path w with
  | (false, w1) => some (.exit 1, w1)
  | (true, w1) =>
    match stitch_cmd_append cmd (STITCH_REBUILD_URSELF binary_path source_path) with
    | none => none
    | some cmd1 =>
      stitch__go_rebuild_urself_compiled binary_path argv
        (stitch_cmd_run_sync_and_reset cmd1 w1)

/-- `stitch__go_rebuild_urself(argc, argv, source_path, ...)`, POSIX branch:
`argv` holds the `argc` arguments and `more_paths` the variadic paths before the
closing `NULL`; `source_paths` is `source_path` followed by them.  `none` is a
call without an outcome (failed assertion, loop that never ends). -/
def stitch__go_rebuild_urself (argv : List String) (source_path : String)
    (more_paths : List String) (w : World) : Option (Outcome Unit × World) :=
  match stitch_shift argv with
  | none => none
  | some (binary_path, argv1) =>
    let source_paths := source_path :: more_paths
    let r := stitch_needs_rebuild binary_path source_paths w
    if r.1 < 0 then some (.exit 1, r.2)
    else if r.1 = 0 then some (.ret (), r.2)
    else stitch__go_rebuild_urself_rebuild binary_path source_path argv1 r.2

/-- The command `stitch__go_rebuild_urself` holds after
`stitch_cmd_append(&cmd, STITCH_REBUILD_URSELF(binary_path, source_path))` on
its zeroed `cmd`. -/
def compileCmd (binary_path source_path : String) : Stitch_Cmd :=
  { items := STITCH_REBUILD_URSELF binary_path source_path, count := 4,
    capacity := STITCH_DA_INIT_CAP }

/-- The file system of `w1` is the file system of `w`: same `stat` answers,
same files, same `rename` answers. -/
def sameFiles (w w1 : World) : Prop :=
  w1.stat = w.stat ∧ w1.inode = w.inode ∧ w1.rename_errno = w.rename_errno

/-! ## Reading a trace -/

/-- The action creates a process or loads a program image. -/
def Effect.isProcessCreation : Effect → Bool
  | .fork => true
  | .execvp _ _ => true
  | _ => false

/-- The action is a `waitpid` call. -/
def Effect.isWait : Effect → Bool
  | .waitpid _ => true
  | _ => false

/-- The action is a line written to `stderr`. -/
def Effect.isStderr : Effect → Bool
  | .stderr _ => true
  | _ => false

/-- The action is a `rename` call. -/
def Effect.isRename : Effect → Bool
  | .rename _ _ => true
  | _ => false

/-- The action is a `stat` call. -/
def Effect.isStat : Effect → Bool
  | .stat _ => true
  | _ => false

/-- An answer of `waitpid` that reports neither an exit nor a signal (a stopped
or continued child): the loop of `stitch_proc_wait` asks again after it. -/
def isStopReport : SysResult Nat → Bool
  | .ok wstatus => !WIFEXITED wstatus && !WIFSIGNALED wstatus
  | .fail _ => false

/-- The batch wait in the words of the specification: wait on each handle in
turn, whatever the earlier waits returned, and keep every outcome. -/
def spec_wait_each : List Int → World → List Bool × World
  | [], w => ([], w)
  | proc :: rest, w =>
    let r := stitch_proc_wait proc w
    let rs := spec_wait_each rest r.2
    (r.1 :: rs.1, rs.2)

/-! ## Log lines -/

/-- The tag `stitch_log` prints before a message of the level; nothing is
printed at `STITCH_NO_LOGS`. -/
def Stitch_Log_Level.tag : Stitch_Log_Level → String
  | .STITCH_INFO => "[INFO] "
  | .STITCH_WARNING => "[WARNING] "
  | .STITCH_ERROR => "[ERROR] "
  | .STITCH_NO_LOGS => ""

/-- The action is a line on `stderr` that starts with the tag of
`STITCH_ERROR`. -/
def Effect.isErrorLine : Effect → Bool
  | .stderr text => "[ERROR] ".data.isPrefixOf text.data
  | _ => false

/-- The child created by the `fork()` of `stitch_cmd_run_sync(cmd)`, followed
from the `fork` to its end.  The child starts as a copy of the caller at the
`fork`, sees `fork()` return 0 and so runs the `cpid == 0` branch; its `stderr`
is the one the caller has.  The result is how the child ends and the actions it
performed after the `fork`; `none` when the call creates no child: an empty
command, a failed `fork`, or a caller that is itself on the child side. -/
def run_sync_forked_child (cmd : Stitch_Cmd) (w : World) :
    Option (Outcome Int × List Effect) :=
  if cmd.count < 1 then none
  else
    match fork (stitch_log .STITCH_INFO ("CMD: " ++ stitch_cmd_render cmd "") w) with
    | (.fail _, _) => none
    | (.ok cpid, w2) =>
      if cpid = 0 then none
      else
        let r := stitch_cmd_run_async_redirect_child cmd ⟨none, none, none⟩ w2
        some (r.1, r.2.trace.drop w2.trace.length)

/-- Number of error lines a call of `stitch_cmd_run_sync(cmd)` puts on `stderr`:
the lines of the caller during the call and the lines of the child it created. -/
def run_sync_error_lines (cmd : Stitch_Cmd) (w : World) : Nat :=
  ((stitch_cmd_run_sync cmd w).2.trace.drop w.trace.length).countP Effect.isErrorLine
    + match run_sync_forked_child cmd w with
      | none => 0
      | some r => r.2.countP Effect.isErrorLine

/-- The function `log_test_messages` of `tests/minimal_log_level.c`. -/
def log_test_messages (w : World) : World :=
  stitch_log .STITCH_NO_LOGS "YOU SHOULD NEVER SEE THIS"
    (stitch_log .STITCH_ERROR "Error Test Message"
      (stitch_log .STITCH_WARNING "Warning Test Message"
        (stitch_log .STITCH_INFO "Info Test Message" w)))

/-! ## Dynamic arrays of any item type -/

/-- A dynamic array as the `stitch_da_*` macros see it: `items` is the content
of the backing array, of which the first `count` slots are in use. -/
structure Stitch_Da (α : Type) where
  items : List α
  count : Nat
  capacity : Nat
  deriving DecidableEq, Repr

/-- The macro `stitch_da_reserve(da, expected_capacity)` with
`STITCH_DA_INIT_CAP = init_cap`: `realloc` keeps the content (running out of
memory is not modelled); `none` is a doubling loop that never ends. -/
def Stitch_Da.stitch_da_reserve {α : Type} (init_cap : Nat) (da : Stitch_Da α)
    (expected_capacity : Nat) : Option (Stitch_Da α) :=
  match stitch_da_reserve_capacity init_cap expected_capacity da.capacity with
  | none => none
  | some capacity => some { da with capacity := capacity }

/-- The macro `stitch_da_append(da, item)`: reserve `count + 1`, then
`items[count++] = item`. -/
def Stitch_Da.stitch_da_append {α : Type} (init_cap : Nat) (da : Stitch_Da α) (item : α) :
    Option (Stitch_Da α) :=
  match da.stitch_da_reserve init_cap ((da.count + 1) % SIZE_T_MOD) with
  | none => none
  | some d =>
    some { d with
      items := d.items.take d.count ++ [item] ++ d.items.drop (d.count + 1)
      count := (d.count + 1) % SIZE_T_MOD }

/-- The macro `stitch_da_resize(da, new_size)`: reserve `new_size`, then
`count = new_size`. -/
def Stitch_Da.stitch_da_resize {α : Type} (init_cap : Nat) (da : Stitch_Da α)
    (new_size : Nat) : Option (Stitch_Da α) :=
  match da.stitch_da_reserve init_cap new_size with
  | none => none
  | some d => some { d with count := new_size }

/-- Successive calls of `stitch_da_append` with the items of the list. -/
def da_append_all {α : Type} (init_cap : Nat) : List α → Stitch_Da α → Option (Stitch_Da α)
  | [], da => some da
  | x :: xs, da =>
    match da.stitch_da_append init_cap x with
    | none => none
    | some d => da_append_all init_cap xs d

/-- The capacities seen after each of the successive calls of
`stitch_da_append`, as the loop of `tests/da_append.c` logs them. -/
def da_append_capacities {α : Type} (init_cap : Nat) : List α → Stitch_Da α → List Nat
  | [], _ => []
  | x :: xs, da =>
    match da.stitch_da_append init_cap x with
    | none => []
    | some d => d.capacity :: da_append_capacities init_cap xs d

/-- In the words of the specification: `capacity` is the least value of the
form `init_cap * 2^k` that is at least `n`. -/
def isLeastCapacity (init_cap n capacity : Nat) : Prop :=
  ∃ k, capacity = init_cap * 2 ^ k ∧ n ≤ capacity ∧ ∀ j, n ≤ init_cap * 2 ^ j → k ≤ j

/-- The doubling loop alone, as a step function on the `size_t` capacity:
`capacity *= 2`. -/
def double_capacity (capacity : Nat) : Nat :=
  capacity * 2 % SIZE_T_MOD

/-! ## Temporary allocator -/

/-- `STITCH_TEMP_CAPACITY`, the default of the header. -/
def STITCH_TEMP_CAPACITY : Nat := 8 * 1024 * 1024

/-- `stitch_temp_alloc(size)` on the global `stitch_temp_size`: the result is
the offset of the returned pointer in `stitch_temp` (`none` for `NULL`) and the
new `stitch_temp_size`; the sum is a `size_t` sum. -/
def stitch_temp_alloc (size : Nat) (stitch_temp_size : Nat) : Option Nat × Nat :=
  if (stitch_temp_size + size) % SIZE_T_MOD > STITCH_TEMP_CAPACITY then
    (none, stitch_temp_size)
  else (some stitch_temp_size, (stitch_temp_size + size) % SIZE_T_MOD)

/-- `stitch_temp_reset()`. -/
def stitch_temp_reset (_stitch_temp_size : Nat) : Nat := 0

/-- `stitch_temp_save()`. -/
def stitch_temp_save (stitch_temp_size : Nat) : Nat := stitch_temp_size

/-- `stitch_temp_rewind(checkpoint)`. -/
def stitch_temp_rewind (checkpoint : Nat) (_stitch_temp_size : Nat) : Nat := checkpoint

/-- Successive calls of `stitch_temp_alloc` with the sizes of the list, without
reset or rewind in between: the regions `(offset, size)` of the calls that did
not return `NULL`, in call order, and the final `stitch_temp_size`. -/
def temp_alloc_all : List Nat → Nat → List (Nat × Nat) × Nat
  | [], stitch_temp_size => ([], stitch_temp_size)
  | size :: sizes, stitch_temp_size =>
    match stitch_temp_alloc size stitch_temp_size with
    | (none, t) => temp_alloc_all sizes t
    | (some offset, t) =>
      let r := temp_alloc_all sizes t
      ((offset, size) :: r.1, r.2)

/-- The region `[offset, offset + size)` lies inside the buffer `stitch_temp`. -/
def regionInside (r : Nat × Nat) : Prop :=
  r.1 + r.2 ≤ STITCH_TEMP_CAPACITY

/-- The regions `[offset, offset + size)` share no byte. -/
def regionsDisjoint (r1 r2 : Nat × Nat) : Prop :=
  r1.1 + r1.2 ≤ r2.1 ∨ r2.1 + r2.2 ≤ r1.1 ∨ r1.2 = 0 ∨ r2.2 = 0

instance (r : Nat × Nat) : Decidable (regionInside r) := by
  unfold regionInside; infer_instance

instance (r1 r2 : Nat × Nat) : Decidable (regionsDisjoint r1 r2) := by
  unfold regionsDisjoint; infer_instance

/-! ## String views and paths -/

/-- The struct `Stitch_String_View`: `data` is the memory from the pointer on,
of which the first `count` bytes are the view. -/
structure Stitch_String_View where
  count : Nat
  data : List Char
  deriving DecidableEq, Repr

/-- The bytes of the view, `data[0 .. count)`. -/
def Stitch_String_View.bytes (sv : Stitch_String_View) : List Char :=
  sv.data.take sv.count

/-- The bytes of a C string: the memory up to the first NUL. -/
def cstr_bytes (cstr : List Char) : List Char :=
  cstr.takeWhile (fun c => c != Char.ofNat 0)

/-- `strlen(cstr)`. -/
def strlen (cstr : List Char) : Nat :=
  (cstr_bytes cstr).length

/-- `memcmp(a, b, n) == 0`. -/
def memcmp_eq (a b : List Char) (n : Nat) : Bool :=
  a.take n == b.take n

/-- `stitch_sv_from_parts(data, count)`. -/
def stitch_sv_from_parts (data : List Char) (count : Nat) : Stitch_String_View :=
  { count := count, data := data }

/-- `stitch_sv_from_cstr(cstr)`. -/
def stitch_sv_from_cstr (cstr : List Char) : Stitch_String_View :=
  stitch_sv_from_parts cstr (strlen cstr)

/-- `stitch_sv_eq(a, b)`. -/
def stitch_sv_eq (a b : Stitch_String_View) : Bool :=
  if a.count ≠ b.count then false
  else memcmp_eq a.data b.data a.count

/-- `stitch_sv_end_with(sv, cstr)`; `sv.data + ending_start` is the memory with
the first `ending_start` bytes dropped. -/
def stitch_sv_end_with (sv : Stitch_String_View) (cstr : List Char) : Bool :=
  let cstr_count := strlen cstr
  if sv.count ≥ cstr_count then
    let ending_start := sv.count - cstr_count
    let sv_ending := stitch_sv_from_parts (sv.data.drop ending_start) cstr_count
    stitch_sv_eq sv_ending (stitch_sv_from_cstr cstr)
  else false

/-- The loop `while (i < sv->count && sv->data[i] != delim) i += 1` of
`stitch_sv_chop_by_delim`, from the position where the memory `data` starts and
`remaining = sv->count - i` bytes of the view are left: the number of steps it
takes. -/
def stitch_sv_chop_by_delim_loop (delim : Char) : List Char → Nat → Nat
  | [], _ => 0
  | _ :: _, 0 => 0
  | c :: data, remaining + 1 =>
    if c ≠ delim then stitch_sv_chop_by_delim_loop delim data remaining + 1 else 0

/-- `stitch_sv_chop_by_delim(sv, delim)`: the view returned and the view left
in `*sv`. -/
def stitch_sv_chop_by_delim (sv : Stitch_String_View) (delim : Char) :
    Stitch_String_View × Stitch_String_View :=
  let i := stitch_sv_chop_by_delim_loop delim sv.data sv.count
  let result := stitch_sv_from_parts sv.data i
  if i < sv.count then
    (result, { count := sv.count - (i + 1), data := sv.data.drop (i + 1) })
  else (result, { count := sv.count - i, data := sv.data.drop i })

/-- `strrchr(s, c)` on the bytes of a C string: the index of the last
occurrence of `c`, `none` for `NULL`. -/
def strrchr (s : List Char) (c : Char) : Option Nat :=
  match s with
  | [] => none
  | x :: xs =>
    match strrchr xs c with
    | some i => some (i + 1)
    | none => if x = c then some 0 else none

/-- `stitch_path_name(path)`, POSIX branch: the bytes of the C string the
returned pointer points to. -/
def stitch_path_name (path : List Char) : List Char :=
  match strrchr (cstr_bytes path) '/' with
  | some p => (cstr_bytes path).drop (p + 1)
  | none => cstr_bytes path

/-! ## The staleness scan, in the words of the specification -/

/-- What one input means for the scan: it cannot be stat-ed, it is strictly
newer than the output, or it is neither. -/
inductive InputKind where
  | unstatable
  | newer
  | older
  deriving DecidableEq, Repr

/-- The left-to-right scan: the first input that cannot be stat-ed decides -1,
the first strictly newer input decides 1, and with no such input the answer is
0. -/
def spec_scan : List InputKind → Int
  | [] => 0
  | .unstatable :: _ => -1
  | .newer :: _ => 1
  | .older :: rest => spec_scan rest

/-- The number of inputs the scan looks at: those up to and including the
deciding one. -/
def spec_scan_examined : List InputKind → Nat
  | [] => 0
  | .unstatable :: _ => 1
  | .newer :: _ => 1
  | .older :: rest => spec_scan_examined rest + 1

/-- The kind of an input as the code sees it: the `int` the input's `st_mtime`
is stored in against the `int` of the output. -/
def kindAsCompared (w : World) (output_path_time : Int) (input_path : String) : InputKind :=
  match w.stat input_path with
  | .fail _ => .unstatable
  | .ok st_mtime => if toInt32 st_mtime > output_path_time then .newer else .older

/-- The kind of an input by its full modification time. -/
def kindByTime (w : World) (output_time : Int) (input_path : String) : InputKind :=
  match w.stat input_path with
  | .fail _ => .unstatable
  | .ok st_mtime => if st_mtime > output_time then .newer else .older

/-! ## Concrete environments -/

/-- An environment whose file system holds exactly the listed paths with the
listed modification times (every other path fails with `ENOENT`), with the
default log threshold, no children and an empty trace. -/
def fsWorld (files : List (String × Int)) : World :=
  { stitch_minimal_log_level := .STITCH_INFO
    stat := fun p =>
      match files.lookup p with
      | some t => .ok t
      | none => .fail ENOENT
    fork_results := []
    dup2 := fun _ _ => .ok ()
    execvp := fun _ => .ok ()
    children := fun _ => []
    strerror := fun _ => "error"
    trace := [] }

/-- Output built in 2023, input touched in 2039. -/
def world2039 : World :=
  fsWorld [("out", 1700000000), ("in", 2200000000)]

/-- Output stamped `2^31` (19 January 2038), input stamped `0`. -/
def worldOldInput : World :=
  fsWorld [("out", 2147483648), ("in", 0)]

/-- Output stamped `2^31`, one input with the same stamp and one stamped `0`. -/
def worldTie : World :=
  fsWorld [("out", 2147483648), ("same", 2147483648), ("old", 0)]

/-- Output stamped `2^31 - 1`, input stamped one second later. -/
def world2038 : World :=
  fsWorld [("out", 2147483647), ("in", 2147483648)]

/-- Output stamped `10`, a newer input `in` stamped `20`; `gone` does not exist. -/
def worldNewerThenMissing : World :=
  fsWorld [("out", 10), ("in", 20)]

/-- Output stamped `20`, an older input `in` stamped `10`; `gone` does not exist. -/
def worldOlderThenMissing : World :=
  fsWorld [("out", 20), ("in", 10)]

/-- Nothing exists. -/
def worldEmpty : World :=
  fsWorld []

/-- An environment with the given children still to be waited on: each pid
with the answers `waitpid` will give for it. -/
def procWorld (kids : List (Int × List (SysResult Nat))) : World :=
  { stitch_minimal_log_level := .STITCH_INFO
    stat := fun _ => .fail ENOENT
    fork_results := []
    dup2 := fun _ _ => .ok ()
    execvp := fun _ => .ok ()
    children := fun pid => (kids.lookup pid).getD []
    strerror := fun _ => "error"
    trace := [] }

/-- Children 101 and 103 exit with status 0, child 102 exits with status 1
(`wstatus = 0x0100`). -/
def worldThreeChildren : World :=
  procWorld [(101, [.ok 0]), (102, [.ok 256]), (103, [.ok 0])]

/-- The handles 101, 102, 103 in a collection of capacity 4. -/
def threeProcs : Stitch_Procs :=
  { items := [101, 102, 103, 0], count := 3, capacity := 4 }

/-- Child 7 exits with 0, child 8 exits with 1, child 9 is killed by signal 9,
child 10 is reported stopped (`0x137f`) and then exits with 0; `waitpid` on 11
fails with `EINTR` (4). -/
def worldWaitCases : World :=
  procWorld [(7, [.ok 0]), (8, [.ok 256]), (9, [.ok 9]), (10, [.ok 4991, .ok 0]),
    (11, [.fail 4])]

/-- A command with no arguments. -/
def emptyCmd : Stitch_Cmd :=
  { items := [], count := 0, capacity := 0 }

/-- A redirect of `stdin` to descriptor 3. -/
def redirectStdin : Stitch_Cmd_Redirect :=
  { fdin := some 3, fdout := none, fderr := none }

/-- An environment in which a `fork()` would succeed with child 55, which would
then exit with status 0. -/
def worldForkReady : World :=
  { procWorld [(55, [.ok 0])] with fork_results := [.ok 55] }

/-- An environment in which `fork()` succeeds with child 70 and no program can
be loaded: `execvp` fails with `ENOENT`, so the child exits with status 1
(`wstatus = 0x0100`). -/
def worldExecFails : World :=
  { procWorld [(70, [.ok 256])] with
    fork_results := [.ok 70]
    execvp := fun _ => .fail ENOENT }

/-- The command `cp "a file.txt" b.txt`. -/
def cpCmd : Stitch_Cmd :=
  { items := [some "cp", some "a file.txt", some "b.txt", none], count := 3, capacity := 4 }

/-- A command whose only argument holds a tab and no space. -/
def tabCmd : Stitch_Cmd :=
  { items := [some "a\tb"], count := 1, capacity := 1 }

/-- The command `cc -o` with room for two more arguments. -/
def ccCmd : Stitch_Cmd :=
  { items := [some "cc", some "-o", none, none], count := 2, capacity := 4 }

/-- The command `main main.c` in a full array. -/
def tailCmd : Stitch_Cmd :=
  { items := [some "main", some "main.c"], count := 2, capacity := 2 }

/-- A redirect of `stdin` to the variable at address 0 and of `stderr` to the
variable at address 1; `stdout` is inherited. -/
def redirectInErr : Stitch_Cmd_Redirect_Ptr :=
  { fdin := some 0, fdout := none, fderr := some 1 }

/-- A store with descriptor 3 at address 0, descriptor 4 at address 1 and
descriptor 5 elsewhere. -/
def fdStore : Nat → Int :=
  fun a => if a = 0 then 3 else if a = 1 then 4 else 5

/-- An environment for the bootstrap: files with their modification time and
identity, the answers of `fork`, and the children with their `waitpid` answers. -/
def bootWorld (files : List (String × Int × Nat)) (forks : List (SysResult Nat))
    (kids : List (Int × List (SysResult Nat))) : World :=
  { stitch_minimal_log_level := .STITCH_INFO
    stat := fun p =>
      match files.lookup p with
      | some f => .ok f.1
      | none => .fail ENOENT
    fork_results := forks
    dup2 := fun _ _ => .ok ()
    execvp := fun _ => .ok ()
    children := fun pid => (kids.lookup pid).getD []
    strerror := fun _ => "error"
    trace := []
    inode := fun p =>
      match files.lookup p with
      | some f => f.2
      | none => 0 }

/-- The binary `./stitch` is older than its source `stitch.c`; `foo.c` is an
older included file. -/
def staleFiles : List (String × Int × Nat) :=
  [("./stitch", 100, 1), ("stitch.c", 200, 2), ("foo.c", 50, 3)]

/-- The binary `./stitch` is newer than `stitch.c` and `foo.c`. -/
def freshFiles : List (String × Int × Nat) :=
  [("./stitch", 300, 1), ("stitch.c", 200, 2), ("foo.c", 50, 3)]

/-- Fresh binary; a `fork` would succeed. -/
def worldFresh : World :=
  bootWorld freshFiles [.ok 70] [(70, [.ok 0])]

/-- Stale binary; the compile child 70 exits with status 1. -/
def worldCompileFails : World :=
  bootWorld staleFiles [.ok 70, .ok 71] [(70, [.ok 256]), (71, [.ok 0])]

/-- Stale binary; the compile child 70 and the relaunched child 71 exit with 0. -/
def worldRebuildOk : World :=
  bootWorld staleFiles [.ok 70, .ok 71] [(70, [.ok 0]), (71, [.ok 0])]

/-- Stale binary; the compile child 70 exits with 0 and the relaunched child 71
exits with status 3 (`wstatus = 0x0300`). -/
def worldRelaunchFails : World :=
  bootWorld staleFiles [.ok 70, .ok 71] [(70, [.ok 0]), (71, [.ok 768])]

/-- Stale binary; every `rename` is refused with `EACCES` (13). -/
def worldRenameRefused : World :=
  { bootWorld staleFiles [.ok 70] [(70, [.ok 0])] with rename_errno := fun _ _ => some 13 }

/-- Stale binary, seen from the child side of the first `fork`. -/
def worldChildSide : World :=
  bootWorld staleFiles [.ok 0] []

/-- The environment after the query and the rename to the backup path, for the
binary `./stitch` with sources `stitch.c` and `foo.c`, started in `w`. -/
def staleAfterRename (w : World) : World :=
  (stitch_rename "./stitch" ("./stitch" ++ ".old")
    (stitch_needs_rebuild "./stitch" ("stitch.c" :: ["foo.c"]) w).2).2

/-- The environment after the compile command that follows `staleAfterRename`. -/
def staleAfterCompile (w : World) : World :=
  (stitch_cmd_run_sync_and_reset (compileCmd "./stitch" "stitch.c") (staleAfterRename w)).2

/-! ## Staleness oracle: lemmas -/

theorem toInt32_of_inInt32 (t : Int) (h : inInt32 t) : toInt32 t = t := by
  unfold inInt32 at h
  unfold toInt32
  omega

theorem inInt32_toInt32 (t : Int) : inInt32 (toInt32 t) := by
  unfold inInt32 toInt32
  omega

theorem emit_stat (w : World) (e : Effect) : (w.emit e).stat = w.stat := rfl

/-- The value of the loop depends on the environment through `stat` only. -/
theorem needs_rebuild_loop_fst_congr (o : Int) (l : List String) :
    ∀ w w1 : World, w.stat = w1.stat →
      (stitch_needs_rebuild_loop o l w).1 = (stitch_needs_rebuild_loop o l w1).1 := by
  induction l with
  | nil => intro w w1 _; rfl
  | cons p ps ih =>
    intro w w1 h
    simp only [stitch_needs_rebuild_loop, ← h]
    cases hp : w.stat p with
    | fail e => rfl
    | ok t =>
      by_cases hn : toInt32 t > o
      · simp [hn]
      · simp only [hn, if_false]
        exact ih _ _ (by simp [emit_stat, h])

/-- Inputs that exist and are not newer, as the code compares them, are passed over. -/
theorem needs_rebuild_loop_skip (o : Int) (pre rest : List String) :
    ∀ w : World, (∀ p ∈ pre, ∃ t, w.stat p = .ok t ∧ toInt32 t ≤ o) →
      (stitch_needs_rebuild_loop o (pre ++ rest) w).1 = (stitch_needs_rebuild_loop o rest w).1 := by
  induction pre with
  | nil => intro w _; rfl
  | cons p ps ih =>
    intro w h
    obtain ⟨t, ht, hle⟩ := h p (List.mem_cons_self _ _)
    have hn : ¬ toInt32 t > o := not_lt.mpr hle
    simp only [List.cons_append, stitch_needs_rebuild_loop, ht, hn, if_false]
    exact (ih (w.emit (.stat p)) (fun q hq => h q (List.mem_cons_of_mem _ hq))).trans
      (needs_rebuild_loop_fst_congr o rest _ _ rfl)

/-- When every input of the first part exists and one of them is newer, as the
code compares them, the loop answers 1. -/
theorem needs_rebuild_loop_newer (o : Int) (pre rest : List String) :
    ∀ w : World, (∀ p ∈ pre, ∃ t, w.stat p = .ok t) →
      (∃ p ∈ pre, ∃ t, w.stat p = .ok t ∧ o < toInt32 t) →
      (stitch_needs_rebuild_loop o (pre ++ rest) w).1 = 1 := by
  induction pre with
  | nil => intro w _ h; obtain ⟨p, hp, _⟩ := h; cases hp
  | cons p ps ih =>
    intro w hex hnew
    obtain ⟨t, ht⟩ := hex p (List.mem_cons_self _ _)
    simp only [List.cons_append, stitch_needs_rebuild_loop, ht]
    by_cases hn : toInt32 t > o
    · simp [hn]
    · simp only [hn, if_false]
      refine ih (w.emit (.stat p)) ?_ ?_
      · intro q hq; exact hex q (List.mem_cons_of_mem _ hq)
      · obtain ⟨q, hq, t1, ht1, hlt⟩ := hnew
        rcases List.mem_cons.mp hq with rfl | hq1
        · rw [ht] at ht1
          cases ht1
          exact absurd hlt hn
        · exact ⟨q, hq1, t1, ht1, hlt⟩

/-- Within the range of `int`: an existing output and existing inputs, one of
them strictly newer, give 1. -/
theorem needs_rebuild_newer_of_inInt32 (output_path : String) (input_paths : List String)
    (w : World) (t_o : Int) (hout : w.stat output_path = .ok t_o) (hto : inInt32 t_o)
    (hex : ∀ p ∈ input_paths, ∃ t, w.stat p = .ok t ∧ inInt32 t)
    (hnew : ∃ p ∈ input_paths, ∃ t, w.stat p = .ok t ∧ t_o < t) :
    (stitch_needs_rebuild output_path input_paths w).1 = 1 := by
  simp only [stitch_needs_rebuild, hout, toInt32_of_inInt32 t_o hto]
  have h := needs_rebuild_loop_newer t_o input_paths [] (w.emit (.stat output_path))
    (fun p hp => by obtain ⟨t, ht, _⟩ := hex p hp; exact ⟨t, ht⟩)
    (by
      obtain ⟨p, hp, t, ht, hlt⟩ := hnew
      obtain ⟨t1, ht1, hr⟩ := hex p hp
      rw [ht] at ht1
      cases ht1
      exact ⟨p, hp, t, ht, by rw [toInt32_of_inInt32 t hr]; exact hlt⟩)
  simpa using h

/-- Within the range of `int`: an existing output and existing inputs, none of
them strictly newer (equal stamps included), give 0. -/
theorem needs_rebuild_up_to_date_of_inInt32 (output_path : String) (input_paths : List String)
    (w : World) (t_o : Int) (hout : w.stat output_path = .ok t_o) (hto : inInt32 t_o)
    (hold : ∀ p ∈ input_paths, ∃ t, w.stat p = .ok t ∧ inInt32 t ∧ t ≤ t_o) :
    (stitch_needs_rebuild output_path input_paths w).1 = 0 := by
  simp only [stitch_needs_rebuild, hout, toInt32_of_inInt32 t_o hto]
  have h := needs_rebuild_loop_skip t_o input_paths [] (w.emit (.stat output_path))
    (fun p hp => by
      obtain ⟨t, ht, hr, hle⟩ := hold p hp
      exact ⟨t, ht, by rw [toInt32_of_inInt32 t hr]; exact hle⟩)
  simpa [stitch_needs_rebuild_loop] using h

/-- Within the range of `int` the comparison is the full-width one: with the
output and every input existing, the answer is 1 exactly when some input is
strictly newer than the output. -/
theorem needs_rebuild_eq_one_iff_of_inInt32 (output_path : String) (input_paths : List String)
    (w : World) (t_o : Int) (hout : w.stat output_path = .ok t_o) (hto : inInt32 t_o)
    (hex : ∀ p ∈ input_paths, ∃ t, w.stat p = .ok t ∧ inInt32 t) :
    (stitch_needs_rebuild output_path input_paths w).1 = 1 ↔
      ∃ p ∈ input_paths, ∃ t, w.stat p = .ok t ∧ t_o < t := by
  constructor
  · intro h1
    by_contra hno
    have h0 := needs_rebuild_up_to_date_of_inInt32 output_path input_paths w t_o hout hto
      (fun p hp => by
        obtain ⟨t, ht, hr⟩ := hex p hp
        exact ⟨t, ht, hr, not_lt.mp (fun hlt => hno ⟨p, hp, t, ht, hlt⟩)⟩)
    rw [h0] at h1
    exact absurd h1 (by decide)
  · exact needs_rebuild_newer_of_inInt32 output_path input_paths w t_o hout hto hex

/-- Inputs that exist and are not newer, as the code compares them, are stat-ed
in order and passed over: the loop goes on with the rest, and all it has done
is those `stat` calls. -/
theorem needs_rebuild_loop_skip_world (o : Int) (pre rest : List String) :
    ∀ w : World, (∀ p ∈ pre, ∃ t, w.stat p = .ok t ∧ toInt32 t ≤ o) →
      stitch_needs_rebuild_loop o (pre ++ rest) w
        = stitch_needs_rebuild_loop o rest { w with trace := w.trace ++ pre.map .stat } := by
  induction pre with
  | nil => intro w _; simp
  | cons p ps ih =>
    intro w h
    obtain ⟨t, ht, hle⟩ := h p (List.mem_cons_self _ _)
    have hn : ¬ toInt32 t > o := not_lt.mpr hle
    simp only [List.cons_append, stitch_needs_rebuild_loop, ht, hn, if_false]
    refine (ih (w.emit (.stat p)) (fun q hq => h q (List.mem_cons_of_mem _ hq))).trans ?_
    simp [World.emit]

/-- A list that holds an input strictly newer than `t_o` splits at the first
such input. -/
theorem first_newer_split (w : World) (t_o : Int) (pre : List String)
    (h : ∃ p ∈ pre, ∃ t, w.stat p = .ok t ∧ t_o < t) :
    ∃ before p after, pre = before ++ p :: after ∧
      (∀ q ∈ before, ∀ t, w.stat q = .ok t → t ≤ t_o) ∧
      ∃ t, w.stat p = .ok t ∧ t_o < t := by
  induction pre with
  | nil => obtain ⟨p, hp, _⟩ := h; cases hp
  | cons q qs ih =>
    by_cases hq : ∃ t, w.stat q = .ok t ∧ t_o < t
    · exact ⟨[], q, qs, rfl, by simp, hq⟩
    · have hrest : ∃ p ∈ qs, ∃ t, w.stat p = .ok t ∧ t_o < t := by
        obtain ⟨p, hp, t, ht, hlt⟩ := h
        rcases List.mem_cons.mp hp with rfl | hp1
        · exact absurd ⟨t, ht, hlt⟩ hq
        · exact ⟨p, hp1, t, ht, hlt⟩
      obtain ⟨before, p, after, hsplit, hbefore, hp⟩ := ih hrest
      refine ⟨q :: before, p, after, by rw [hsplit]; rfl, ?_, hp⟩
      intro r hr t ht
      rcases List.mem_cons.mp hr with rfl | hr1
      · exact not_lt.mp (fun hlt => hq ⟨t, ht, hlt⟩)
      · exact hbefore r hr1 t ht

/-! ## Staleness oracle: claims -/

/-- C1: when `stat` on the output fails with `ENOENT`, `stitch_needs_rebuild`
returns 1 for every list of inputs, and the only thing it did is the `stat` of
the output: no input is examined, nothing is logged. -/
theorem needs_rebuild_output_missing (output_path : String) (input_paths : List String)
    (w : World) (h : w.stat output_path = .fail ENOENT) :
    stitch_needs_rebuild output_path input_paths w = (1, w.emit (.stat output_path)) := by
  simp [stitch_needs_rebuild, h]

theorem needs_rebuild_output_missing_witness :
    worldEmpty.stat "out" = .fail ENOENT ∧
      stitch_needs_rebuild "out" ["a.c", "b.c"] worldEmpty
        = (1, worldEmpty.emit (.stat "out")) :=
  ⟨by decide, needs_rebuild_output_missing "out" ["a.c", "b.c"] worldEmpty (by decide)⟩

/-- C2 (failing input): the output exists with modification time 1700000000,
the only input exists with the strictly greater modification time 2200000000,
and `stitch_needs_rebuild` returns 0, not 1: stored in an `int` the input's time
is negative. -/
theorem needs_rebuild_newer_input_returns_zero :
    world2039.stat "out" = .ok 1700000000 ∧ world2039.stat "in" = .ok 2200000000 ∧
      (1700000000 : Int) < 2200000000 ∧
      (stitch_needs_rebuild "out" ["in"] world2039).1 = 0 := by
  decide

/-- C3 (failing input): the output exists with modification time 2147483648,
the only input exists with the strictly smaller modification time 0, and
`stitch_needs_rebuild` returns 1, not 0: stored in an `int` the output's time is
the least `int`. -/
theorem needs_rebuild_older_input_returns_one :
    worldOldInput.stat "out" = .ok 2147483648 ∧ worldOldInput.stat "in" = .ok 0 ∧
      (0 : Int) < 2147483648 ∧
      (stitch_needs_rebuild "out" ["in"] worldOldInput).1 = 1 := by
  decide

/-- C4 (failing input): the output has modification time 2147483648, input
`same` has the same time and input `old` has time 0, so no input is strictly
newer and one is equal; `stitch_needs_rebuild` returns 1, not 0. -/
theorem needs_rebuild_tie_returns_one :
    worldTie.stat "out" = .ok 2147483648 ∧ worldTie.stat "same" = .ok 2147483648 ∧
      worldTie.stat "old" = .ok 0 ∧
      (stitch_needs_rebuild "out" ["same", "old"] worldTie).1 = 1 := by
  decide

/-- C5 (counterexample): the output exists, the list holds the input `gone`
that cannot be stat-ed, and `stitch_needs_rebuild` returns 1, not -1: the
strictly newer input `in` stands before the missing one. -/
theorem needs_rebuild_missing_input_returns_one :
    worldNewerThenMissing.stat "out" = .ok 10 ∧
      worldNewerThenMissing.stat "in" = .ok 20 ∧
      worldNewerThenMissing.stat "gone" = .fail ENOENT ∧
      (stitch_needs_rebuild "out" ["in", "gone"] worldNewerThenMissing).1 = 1 := by
  decide

/-- C5 (amended): for an existing output and a list whose inputs before the
first one that cannot be stat-ed all exist, all times within `int`, the result
is -1 exactly when none of those earlier inputs is strictly newer than the
output, and it is 1 when one of them is.  In the first case the call has
stat-ed the output, the earlier inputs and the un-stat-able input, in this
order, and logged the error; the inputs after it are not stat-ed.  In the
second case the call has stat-ed the output and the inputs up to the first
strictly newer one and done nothing else: the un-stat-able input is not
reached and nothing is logged. -/
theorem needs_rebuild_unstatable_input (output_path : String) (pre : List String)
    (bad : String) (post : List String) (w : World) (t_o : Int) (e : Nat)
    (hout : w.stat output_path = .ok t_o) (hto : inInt32 t_o)
    (hpre : ∀ p ∈ pre, ∃ t, w.stat p = .ok t ∧ inInt32 t)
    (hbad : w.stat bad = .fail e) :
    ((stitch_needs_rebuild output_path (pre ++ bad :: post) w).1 = -1 ↔
        ∀ p ∈ pre, ∀ t, w.stat p = .ok t → t ≤ t_o) ∧
      ((∃ p ∈ pre, ∃ t, w.stat p = .ok t ∧ t_o < t) →
        (stitch_needs_rebuild output_path (pre ++ bad :: post) w).1 = 1) ∧
      ((∀ p ∈ pre, ∀ t, w.stat p = .ok t → t ≤ t_o) →
        stitch_needs_rebuild output_path (pre ++ bad :: post) w
          = (-1, stitch_log .STITCH_ERROR ("could not stat " ++ bad ++ ": " ++ w.strerror e)
              { w with
                trace := w.trace ++ .stat output_path :: (pre.map .stat ++ [.stat bad]) })) ∧
      ((∃ p ∈ pre, ∃ t, w.stat p = .ok t ∧ t_o < t) →
        ∃ before newer after, pre = before ++ newer :: after ∧
          (∀ q ∈ before, ∀ t, w.stat q = .ok t → t ≤ t_o) ∧
          (∃ t, w.stat newer = .ok t ∧ t_o < t) ∧
          stitch_needs_rebuild output_path (pre ++ bad :: post) w
            = (1, { w with
                trace := w.trace
                  ++ .stat output_path :: (before.map .stat ++ [.stat newer]) }) ∧
          ∀ x ∈ Effect.stat output_path :: (before.map .stat ++ [.stat newer]),
            x ≠ .stat bad ∧ x.isStat = true) := by
  have hone : (∃ p ∈ pre, ∃ t, w.stat p = .ok t ∧ t_o < t) →
      (stitch_needs_rebuild output_path (pre ++ bad :: post) w).1 = 1 := by
    intro hnew
    simp only [stitch_needs_rebuild, hout, toInt32_of_inInt32 t_o hto]
    refine needs_rebuild_loop_newer t_o pre (bad :: post) (w.emit (.stat output_path))
      (fun p hp => ?_) ?_
    · obtain ⟨t, ht, _⟩ := hpre p hp
      exact ⟨t, ht⟩
    · obtain ⟨p, hp, t, ht, hlt⟩ := hnew
      obtain ⟨t1, ht1, hr⟩ := hpre p hp
      rw [ht] at ht1
      cases ht1
      exact ⟨p, hp, t, ht, by rw [toInt32_of_inInt32 t hr]; exact hlt⟩
  have hbadpre : bad ∉ pre := by
    intro hmem
    obtain ⟨t, ht, _⟩ := hpre bad hmem
    rw [hbad] at ht
    cases ht
  have hbadout : bad ≠ output_path := by
    intro heq
    rw [heq, hout] at hbad
    cases hbad
  refine ⟨⟨fun hres p hp t ht => ?_, fun hall => ?_⟩, hone, fun hall => ?_, fun hnew => ?_⟩
  · by_contra hlt
    have h1 := hone ⟨p, hp, t, ht, not_le.mp hlt⟩
    rw [h1] at hres
    exact absurd hres (by decide)
  · simp only [stitch_needs_rebuild, hout, toInt32_of_inInt32 t_o hto]
    have hskip := needs_rebuild_loop_skip t_o pre (bad :: post) (w.emit (.stat output_path))
      (fun p hp => by
        obtain ⟨t, ht, hr⟩ := hpre p hp
        exact ⟨t, ht, by rw [toInt32_of_inInt32 t hr]; exact hall p hp t ht⟩)
    rw [hskip]
    simp [stitch_needs_rebuild_loop, emit_stat, hbad]
  · simp only [stitch_needs_rebuild, hout, toInt32_of_inInt32 t_o hto]
    rw [needs_rebuild_loop_skip_world t_o pre (bad :: post) (w.emit (.stat output_path))
      (fun p hp => by
        obtain ⟨t, ht, hr⟩ := hpre p hp
        exact ⟨t, ht, by rw [toInt32_of_inInt32 t hr]; exact hall p hp t ht⟩)]
    simp [stitch_needs_rebuild_loop, World.emit, hbad]
  · obtain ⟨before, newer, after, hsplit, hbefore, t, ht, hlt⟩ := first_newer_split w t_o pre hnew
    have hmem : ∀ q ∈ before, q ∈ pre := fun q hq => by
      rw [hsplit]; exact List.mem_append_left _ hq
    have hnewmem : newer ∈ pre := by
      rw [hsplit]; exact List.mem_append_right _ (List.mem_cons_self _ _)
    refine ⟨before, newer, after, hsplit, hbefore, ⟨t, ht, hlt⟩, ?_, ?_⟩
    · obtain ⟨t1, ht1, hr⟩ := hpre newer hnewmem
      rw [ht] at ht1
      cases ht1
      have hgt : toInt32 t > t_o := by rw [toInt32_of_inInt32 t hr]; exact hlt
      simp only [stitch_needs_rebuild, hout, toInt32_of_inInt32 t_o hto, hsplit,
        List.append_assoc]
      rw [needs_rebuild_loop_skip_world t_o before ((newer :: after) ++ bad :: post)
        (w.emit (.stat output_path))
        (fun q hq => by
          obtain ⟨tq, htq, hrq⟩ := hpre q (hmem q hq)
          exact ⟨tq, htq, by rw [toInt32_of_inInt32 tq hrq]; exact hbefore q hq tq htq⟩)]
      simp [stitch_needs_rebuild_loop, World.emit, ht, hgt]
    · intro x hx
      rcases List.mem_cons.mp hx with rfl | hx
      · exact ⟨fun h => hbadout (by injection h with h; exact h.symm), rfl⟩
      · rcases List.mem_append.mp hx with hx | hx
        · obtain ⟨q, hq, rfl⟩ := List.mem_map.mp hx
          exact ⟨fun h => hbadpre (by injection h with h; rw [← h]; exact hmem q hq), rfl⟩
        · rw [List.mem_singleton] at hx
          subst hx
          exact ⟨fun h => hbadpre (by injection h with h; rw [← h]; exact hnewmem), rfl⟩

theorem needs_rebuild_unstatable_input_witness :
    worldOlderThenMissing.stat "out" = .ok 20 ∧
      worldOlderThenMissing.stat "in" = .ok 10 ∧
      worldOlderThenMissing.stat "gone" = .fail ENOENT ∧
      stitch_needs_rebuild "out" (["in"] ++ "gone" :: ["later"]) worldOlderThenMissing
        = (-1, stitch_log .STITCH_ERROR
            ("could not stat " ++ "gone" ++ ": " ++ worldOlderThenMissing.strerror ENOENT)
            { worldOlderThenMissing with
              trace := worldOlderThenMissing.trace
                ++ .stat "out" :: (["in"].map .stat ++ [.stat "gone"]) }) :=
  ⟨by decide, by decide, by decide,
    (needs_rebuild_unstatable_input "out" ["in"] "gone" ["later"] worldOlderThenMissing 20 ENOENT
      (by decide) (by decide)
      (fun p hp => by
        rw [List.mem_singleton] at hp
        subst hp
        exact ⟨10, by decide, by decide⟩)
      (by decide)).2.2.1
      (fun p hp t ht => by
        rw [List.mem_singleton] at hp
        subst hp
        have h10 : worldOlderThenMissing.stat "in" = .ok 10 := by decide
        rw [h10] at ht
        cases ht
        decide)⟩

/-- C6 (counterexample): the output does not exist, the only input does not
exist either, and `stitch_needs_rebuild` returns 1, not -1. -/
theorem needs_rebuild_both_missing_returns_one :
    worldEmpty.stat "out" = .fail ENOENT ∧ worldEmpty.stat "gone" = .fail ENOENT ∧
      (stitch_needs_rebuild "out" ["gone"] worldEmpty).1 = 1 := by
  decide

/-- C6 (amended): with an input that does not exist in the list, the result is
1 when the output does not exist either (the inputs are not looked at), and it
is -1 when the output exists and the inputs before the missing one exist and
are not strictly newer than the output (times within `int`). -/
theorem needs_rebuild_missing_input_by_output (output_path : String) (pre : List String)
    (missing : String) (post : List String) (w : World)
    (hmiss : w.stat missing = .fail ENOENT) :
    (w.stat output_path = .fail ENOENT →
        stitch_needs_rebuild output_path (pre ++ missing :: post) w
          = (1, w.emit (.stat output_path))) ∧
      (∀ t_o, w.stat output_path = .ok t_o → inInt32 t_o →
        (∀ p ∈ pre, ∃ t, w.stat p = .ok t ∧ inInt32 t ∧ t ≤ t_o) →
        (stitch_needs_rebuild output_path (pre ++ missing :: post) w).1 = -1) := by
  refine ⟨fun h => by simp [stitch_needs_rebuild, h], fun t_o hout hto hpre => ?_⟩
  simp only [stitch_needs_rebuild, hout, toInt32_of_inInt32 t_o hto]
  have hskip := needs_rebuild_loop_skip t_o pre (missing :: post) (w.emit (.stat output_path))
    (fun p hp => by
      obtain ⟨t, ht, hr, hle⟩ := hpre p hp
      exact ⟨t, ht, by rw [toInt32_of_inInt32 t hr]; exact hle⟩)
  rw [hskip]
  simp [stitch_needs_rebuild_loop, emit_stat, hmiss]

theorem needs_rebuild_missing_input_by_output_witness :
    worldOlderThenMissing.stat "gone" = .fail ENOENT ∧
      (stitch_needs_rebuild "out" (["in"] ++ "gone" :: []) worldOlderThenMissing).1 = -1 :=
  ⟨by decide,
    (needs_rebuild_missing_input_by_output "out" ["in"] "gone" [] worldOlderThenMissing
      (by decide)).2 20 (by decide) (by decide)
      (fun p hp => by
        rw [List.mem_singleton] at hp
        subst hp
        exact ⟨10, by decide, by decide, by decide⟩)⟩

/-- C7 (failing input): output and input exist, both times fit a 64-bit
`time_t`, the input's `st_mtime` 2147483648 is strictly greater than the
output's 2147483647, and `stitch_needs_rebuild` returns 0: the conversion to
`int` turns the input's time into -2147483648 and changes the answer. -/
theorem needs_rebuild_int_conversion_changes_answer :
    world2038.stat "out" = .ok 2147483647 ∧ world2038.stat "in" = .ok 2147483648 ∧
      inTimeT 2147483647 ∧ inTimeT 2147483648 ∧ (2147483647 : Int) < 2147483648 ∧
      toInt32 2147483648 = -2147483648 ∧
      (stitch_needs_rebuild "out" ["in"] world2038).1 = 0 := by
  decide

/-! ## Processes: lemmas -/

/-- A call of `stitch_log` leaves the environment alone or appends one line to
`stderr`; it performs no other action. -/
theorem stitch_log_cases (level : Stitch_Log_Level) (msg : String) (w : World) :
    stitch_log level msg w = w ∨ ∃ text, stitch_log level msg w = w.emit (.stderr text) := by
  unfold stitch_log
  split
  · exact Or.inl rfl
  · cases level
    · exact Or.inr ⟨_, rfl⟩
    · exact Or.inr ⟨_, rfl⟩
    · exact Or.inr ⟨_, rfl⟩
    · exact Or.inl rfl

theorem stitch_log_trace (level : Stitch_Log_Level) (msg : String) (w : World) :
    ∃ lines, (stitch_log level msg w).trace = w.trace ++ lines ∧
      ∀ e ∈ lines, e.isStderr = true := by
  rcases stitch_log_cases level msg w with h | ⟨text, h⟩
  · exact ⟨[], by rw [h]; simp, by simp⟩
  · exact ⟨[.stderr text], by rw [h]; rfl, by simp [Effect.isStderr]⟩

theorem WIFSIGNALED_of_WIFEXITED (s : Nat) (h : WIFEXITED s = true) : WIFSIGNALED s = false := by
  unfold WIFEXITED at h
  unfold WIFSIGNALED
  have h0 : s % 128 = 0 := by simpa using h
  simp [h0]

/-- The loop of `stitch_proc_wait` answers true exactly when the first answer of
`waitpid` that is not a stop report is a successful wait whose status says
"exited" with exit status 0. -/
theorem proc_wait_loop_true_iff (proc : Int) (l : List (SysResult Nat)) :
    ∀ w : World, (stitch_proc_wait_loop proc l w).1 = true ↔
      ∃ s, (l.dropWhile isStopReport).head? = some (.ok s) ∧
        WIFEXITED s = true ∧ WEXITSTATUS s = 0 := by
  induction l with
  | nil => intro w; simp [stitch_proc_wait_loop]
  | cons r rs ih =>
    intro w
    cases r with
    | fail e => simp [stitch_proc_wait_loop, isStopReport, List.dropWhile]
    | ok s =>
      by_cases hx : WIFEXITED s = true
      · by_cases h0 : WEXITSTATUS s = 0
        · simp [stitch_proc_wait_loop, isStopReport, List.dropWhile, hx, h0]
        · simp [stitch_proc_wait_loop, isStopReport, List.dropWhile, hx, h0]
      · by_cases hs : WIFSIGNALED s = true
        · simp [stitch_proc_wait_loop, isStopReport, List.dropWhile, hx, hs]
        · simp only [stitch_proc_wait_loop, isStopReport, List.dropWhile, hx, hs]
          simpa using ih _

/-- Every action of the loop of `stitch_proc_wait` is appended to the trace,
and the first of them is the `waitpid` on the handle. -/
theorem proc_wait_loop_trace (proc : Int) (l : List (SysResult Nat)) :
    ∀ w : World, ∃ added, (stitch_proc_wait_loop proc l w).2.trace
      = w.trace ++ Effect.waitpid proc :: added := by
  induction l with
  | nil =>
    intro w
    obtain ⟨lines, hl, _⟩ := stitch_log_trace .STITCH_ERROR
      ("could not wait on command (pid " ++ toString proc ++ "): " ++ w.strerror ECHILD)
      (w.emit (.waitpid proc))
    refine ⟨lines, ?_⟩
    show (stitch_log .STITCH_ERROR _ (w.emit (.waitpid proc))).trace = _
    rw [hl]
    simp [World.emit]
  | cons r rs ih =>
    intro w
    have hlog : ∀ msg, ∃ added,
        (stitch_log .STITCH_ERROR msg
          { w.emit (.waitpid proc) with children := Function.update w.children proc rs }).trace
          = w.trace ++ Effect.waitpid proc :: added := by
      intro msg
      obtain ⟨lines, hl, _⟩ := stitch_log_trace .STITCH_ERROR msg
        { w.emit (.waitpid proc) with children := Function.update w.children proc rs }
      exact ⟨lines, by rw [hl]; simp [World.emit]⟩
    cases r with
    | fail e => simpa [stitch_proc_wait_loop] using hlog _
    | ok s =>
      simp only [stitch_proc_wait_loop]
      split
      · split
        · exact hlog _
        · exact ⟨[], by simp [World.emit]⟩
      · split
        · exact hlog _
        · obtain ⟨added, ha⟩ := ih
            { w.emit (.waitpid proc) with children := Function.update w.children proc rs }
          exact ⟨Effect.waitpid proc :: added, by rw [ha]; simp [World.emit]⟩

/-- A call of `stitch_proc_wait` only appends to the trace, and for a valid
handle what it appends contains the `waitpid` on that handle. -/
theorem proc_wait_trace (proc : Int) (w : World) :
    ∃ added, (stitch_proc_wait proc w).2.trace = w.trace ++ added ∧
      (proc ≠ STITCH_INVALID_PROC → Effect.waitpid proc ∈ added) := by
  unfold stitch_proc_wait
  split
  · rename_i h
    exact ⟨[], by simp, fun hne => absurd h hne⟩
  · obtain ⟨added, ha⟩ := proc_wait_loop_trace proc (w.children proc) w
    exact ⟨Effect.waitpid proc :: added, ha, fun _ => List.mem_cons_self _ _⟩

/-- The loop of `stitch_procs_wait` is the batch wait of the specification with
the conjunction of the outcomes folded into `success`. -/
theorem procs_wait_loop_eq_spec (l : List Int) :
    ∀ (success : Bool) (w : World), stitch_procs_wait_loop l success w
      = ((spec_wait_each l w).1.all id && success, (spec_wait_each l w).2) := by
  induction l with
  | nil => intro success w; simp [stitch_procs_wait_loop, spec_wait_each]
  | cons p ps ih =>
    intro success w
    simp only [stitch_procs_wait_loop, spec_wait_each, ih, List.all_cons, id]
    cases (stitch_proc_wait p w).1 <;> cases success <;> simp

theorem spec_wait_each_length (l : List Int) :
    ∀ w : World, (spec_wait_each l w).1.length = l.length := by
  induction l with
  | nil => intro w; rfl
  | cons p ps ih => intro w; simp [spec_wait_each, ih]

/-- The batch wait only appends to the trace, and what it appends contains a
`waitpid` on every valid handle of the collection. -/
theorem spec_wait_each_trace (l : List Int) :
    ∀ w : World, ∃ added, (spec_wait_each l w).2.trace = w.trace ++ added ∧
      ∀ p ∈ l, p ≠ STITCH_INVALID_PROC → Effect.waitpid p ∈ added := by
  induction l with
  | nil => intro w; exact ⟨[], by simp [spec_wait_each], by simp⟩
  | cons p ps ih =>
    intro w
    obtain ⟨a1, h1, hp⟩ := proc_wait_trace p w
    obtain ⟨a2, h2, hps⟩ := ih (stitch_proc_wait p w).2
    refine ⟨a1 ++ a2, by simp only [spec_wait_each, h2, h1, List.append_assoc], ?_⟩
    intro q hq hne
    rcases List.mem_cons.mp hq with rfl | hq1
    · exact List.mem_append_left _ (hp hne)
    · exact List.mem_append_right _ (hps q hq1 hne)

/-! ## Processes: claims -/

/-- C8: for a command with zero arguments and any redirect,
`stitch_cmd_run_async_redirect` returns `STITCH_INVALID_PROC` and
`stitch_cmd_run_sync_redirect` and `stitch_cmd_run_sync` return false; in all
three the environment afterwards is the one left by the single call
`stitch_log(STITCH_ERROR, "Could not run empty command")`, whose trace is the
old trace followed by `stderr` lines only (no `fork`, no `execvp`, no
`waitpid`), with the pending `fork` answers and the children untouched. -/
theorem run_empty_command (cmd : Stitch_Cmd) (redirect : Stitch_Cmd_Redirect) (w : World)
    (h : cmd.count = 0) :
    stitch_cmd_run_async_redirect cmd redirect w
        = (.ret STITCH_INVALID_PROC,
            stitch_log .STITCH_ERROR "Could not run empty command" w) ∧
      stitch_cmd_run_sync_redirect cmd redirect w
        = (.ret false, stitch_log .STITCH_ERROR "Could not run empty command" w) ∧
      stitch_cmd_run_sync cmd w
        = (.ret false, stitch_log .STITCH_ERROR "Could not run empty command" w) ∧
      (∃ lines, (stitch_log .STITCH_ERROR "Could not run empty command" w).trace
          = w.trace ++ lines ∧
        ∀ e ∈ lines, e.isStderr = true ∧ e.isProcessCreation = false ∧ e.isWait = false) ∧
      (stitch_log .STITCH_ERROR "Could not run empty command" w).fork_results
        = w.fork_results ∧
      (stitch_log .STITCH_ERROR "Could not run empty command" w).children = w.children := by
  have hasync : ∀ r, stitch_cmd_run_async_redirect cmd r w
      = (.ret STITCH_INVALID_PROC,
          stitch_log .STITCH_ERROR "Could not run empty command" w) := by
    intro r
    simp [stitch_cmd_run_async_redirect, h]
  refine ⟨hasync redirect, ?_, ?_, ?_, ?_, ?_⟩
  · simp [stitch_cmd_run_sync_redirect, hasync]
  · simp [stitch_cmd_run_sync, stitch_cmd_run_async, hasync]
  · obtain ⟨lines, hl, hs⟩ := stitch_log_trace .STITCH_ERROR "Could not run empty command" w
    refine ⟨lines, hl, fun e he => ?_⟩
    have hse := hs e he
    cases e <;> simp_all [Effect.isStderr, Effect.isProcessCreation, Effect.isWait]
  · rcases stitch_log_cases .STITCH_ERROR "Could not run empty command" w with h1 | ⟨t, h1⟩
    · rw [h1]
    · rw [h1]; rfl
  · rcases stitch_log_cases .STITCH_ERROR "Could not run empty command" w with h1 | ⟨t, h1⟩
    · rw [h1]
    · rw [h1]; rfl

theorem run_empty_command_witness :
    emptyCmd.count = 0 ∧
      stitch_cmd_run_async_redirect emptyCmd redirectStdin worldForkReady
        = (.ret STITCH_INVALID_PROC,
            stitch_log .STITCH_ERROR "Could not run empty command" worldForkReady) ∧
      stitch_cmd_run_sync emptyCmd worldForkReady
        = (.ret false, stitch_log .STITCH_ERROR "Could not run empty command" worldForkReady) ∧
      (stitch_log .STITCH_ERROR "Could not run empty command" worldForkReady).trace
        = [.stderr "[ERROR] Could not run empty command\n"] :=
  ⟨rfl, (run_empty_command emptyCmd redirectStdin worldForkReady rfl).1,
    (run_empty_command emptyCmd redirectStdin worldForkReady rfl).2.2.1, by decide⟩

/-- C9: `stitch_proc_wait` returns true exactly when the handle is not
`STITCH_INVALID_PROC` and the `waitpid` answer that ends the loop (the first one
that is not a stop report) is a successful wait with `WIFEXITED` and exit
status 0.  It returns false, without any action, for the invalid handle; false
when `waitpid` fails; false for every non-zero exit status; false when the
process was terminated by a signal; true for a valid handle whose first answer
is an exit with status 0. -/
theorem proc_wait_true_iff (proc : Int) (w : World) :
    ((stitch_proc_wait proc w).1 = true ↔
        proc ≠ STITCH_INVALID_PROC ∧
          ∃ s, ((w.children proc).dropWhile isStopReport).head? = some (.ok s) ∧
            WIFEXITED s = true ∧ WEXITSTATUS s = 0) ∧
      (proc = STITCH_INVALID_PROC → stitch_proc_wait proc w = (false, w)) ∧
      (∀ e rest, w.children proc = .fail e :: rest → (stitch_proc_wait proc w).1 = false) ∧
      (∀ s rest, w.children proc = .ok s :: rest → WIFEXITED s = true → WEXITSTATUS s ≠ 0 →
        (stitch_proc_wait proc w).1 = false) ∧
      (∀ s rest, w.children proc = .ok s :: rest → WIFSIGNALED s = true →
        (stitch_proc_wait proc w).1 = false) ∧
      (∀ s rest, proc ≠ STITCH_INVALID_PROC → w.children proc = .ok s :: rest →
        WIFEXITED s = true → WEXITSTATUS s = 0 → (stitch_proc_wait proc w).1 = true) := by
  have hiff : (stitch_proc_wait proc w).1 = true ↔
      proc ≠ STITCH_INVALID_PROC ∧
        ∃ s, ((w.children proc).dropWhile isStopReport).head? = some (.ok s) ∧
          WIFEXITED s = true ∧ WEXITSTATUS s = 0 := by
    unfold stitch_proc_wait
    by_cases hp : proc = STITCH_INVALID_PROC
    · simp [hp]
    · simp only [hp, if_false, ne_eq, not_false_eq_true, true_and]
      exact proc_wait_loop_true_iff proc (w.children proc) w
  have hfalse : ∀ {P : Prop}, ((stitch_proc_wait proc w).1 = true → P) → ¬ P →
      (stitch_proc_wait proc w).1 = false := by
    intro P himp hn
    cases hb : (stitch_proc_wait proc w).1
    · rfl
    · exact absurd (himp hb) hn
  refine ⟨hiff, fun hp => by simp [stitch_proc_wait, hp], ?_, ?_, ?_, ?_⟩
  · intro e rest hc
    refine hfalse hiff.mp ?_
    rintro ⟨_, s, hs, _⟩
    simp [hc, List.dropWhile, isStopReport] at hs
  · intro s rest hc hx h0
    refine hfalse hiff.mp ?_
    rintro ⟨_, s1, hs, _, h1⟩
    simp [hc, List.dropWhile, isStopReport, hx] at hs
    subst hs
    exact h0 h1
  · intro s rest hc hsig
    refine hfalse hiff.mp ?_
    rintro ⟨_, s1, hs, hx1, _⟩
    simp [hc, List.dropWhile, isStopReport, hsig] at hs
    subst hs
    rw [WIFSIGNALED_of_WIFEXITED s hx1] at hsig
    cases hsig
  · intro s rest hp hc hx h0
    exact hiff.mpr ⟨hp, s, by simp [hc, List.dropWhile, isStopReport, hx], hx, h0⟩

theorem proc_wait_true_iff_witness :
    (stitch_proc_wait 7 worldWaitCases).1 = true ∧
      (stitch_proc_wait 8 worldWaitCases).1 = false ∧
      (stitch_proc_wait 9 worldWaitCases).1 = false ∧
      (stitch_proc_wait 11 worldWaitCases).1 = false ∧
      stitch_proc_wait STITCH_INVALID_PROC worldWaitCases = (false, worldWaitCases) :=
  ⟨(proc_wait_true_iff 7 worldWaitCases).2.2.2.2.2 0 [] (by decide) (by decide)
      (by decide) (by decide),
    (proc_wait_true_iff 8 worldWaitCases).2.2.2.1 256 [] (by decide) (by decide) (by decide),
    (proc_wait_true_iff 9 worldWaitCases).2.2.2.2.1 9 [] (by decide) (by decide),
    (proc_wait_true_iff 11 worldWaitCases).2.2.1 4 [] (by decide),
    (proc_wait_true_iff STITCH_INVALID_PROC worldWaitCases).2.1 rfl⟩

/-- C10: `stitch_procs_wait` is the batch wait of the specification: it calls
`stitch_proc_wait` once on each handle, in order, whatever the earlier calls
returned, and returns the conjunction of the outcomes; so it returns true
exactly when every wait returned true, there is one outcome per handle, and the
trace grows by actions that include a `waitpid` on every valid handle.  With
outcomes success, failure, success the result is false and all three children
are waited on. -/
theorem procs_wait_all (procs : Stitch_Procs) (w : World) :
    stitch_procs_wait procs w
        = ((spec_wait_each procs.handles w).1.all id, (spec_wait_each procs.handles w).2) ∧
      (spec_wait_each procs.handles w).1.length = procs.handles.length ∧
      ((stitch_procs_wait procs w).1 = true ↔
        ∀ b ∈ (spec_wait_each procs.handles w).1, b = true) ∧
      (∃ added, (stitch_procs_wait procs w).2.trace = w.trace ++ added ∧
        ∀ p ∈ procs.handles, p ≠ STITCH_INVALID_PROC → Effect.waitpid p ∈ added) ∧
      (spec_wait_each threeProcs.handles worldThreeChildren).1 = [true, false, true] ∧
      (stitch_procs_wait threeProcs worldThreeChildren).1 = false ∧
      (stitch_procs_wait threeProcs worldThreeChildren).2.trace
        = [.waitpid 101, .waitpid 102,
            .stderr "[ERROR] command exited with exit code 1\n", .waitpid 103] := by
  have heq : stitch_procs_wait procs w
      = ((spec_wait_each procs.handles w).1.all id, (spec_wait_each procs.handles w).2) := by
    unfold stitch_procs_wait
    rw [procs_wait_loop_eq_spec]
    simp
  refine ⟨heq, spec_wait_each_length _ w, ?_, ?_, by decide, by decide, by decide⟩
  · rw [heq]
    simp [List.all_eq_true]
  · rw [heq]
    exact spec_wait_each_trace procs.handles w

/-! ## Rendering: lemmas and claims -/

theorem render_piece (r arg : String) :
    (if ¬ arg.data.elem ' ' then r ++ arg
      else ((r.push (Char.ofNat 39)) ++ arg).push (Char.ofNat 39))
      = r ++ spec_render_arg arg := by
  unfold spec_render_arg quoteChar
  by_cases h : ' ' ∈ arg.data
  · simp [h, String.ext_iff]
  · simp [h]

theorem intercalate_go_append (sep : String) (l : List String) :
    ∀ r x : String, String.intercalate.go (r ++ x) sep l = r ++ String.intercalate.go x sep l := by
  induction l with
  | nil => intro r x; rfl
  | cons a as ih =>
    intro r x
    simp only [String.intercalate.go]
    rw [← ih r (x ++ sep ++ a)]
    simp [String.append_assoc]

/-- After the first argument the loop of `stitch_cmd_render` puts a space and
the rendered argument behind the text, for each argument in turn. -/
theorem render_loop_pos (l : List String) :
    ∀ (i : Nat) (r : String), 0 < i →
      stitch_cmd_render_loop i (l.map some) r
        = String.intercalate.go r " " (l.map spec_render_arg) := by
  induction l with
  | nil => intro i r _; rfl
  | cons a as ih =>
    intro i r hi
    simp only [List.map_cons, stitch_cmd_render_loop, hi, if_true, String.intercalate.go]
    rw [render_piece, ih (i + 1) _ (Nat.succ_pos i)]

/-- The text `stitch_cmd_render` leaves in the builder, for a command without
`NULL` arguments. -/
theorem render_eq_spec (cmd : Stitch_Cmd) (args : List String) (render : String)
    (h : cmd.args = args.map some) :
    stitch_cmd_render cmd render = render ++ spec_render args := by
  unfold stitch_cmd_render spec_render
  rw [h]
  cases args with
  | nil => simp [stitch_cmd_render_loop, String.intercalate]
  | cons a as =>
    simp only [List.map_cons, stitch_cmd_render_loop, String.intercalate]
    rw [show (if (0 : Nat) > 0 then render ++ " " else render) = render from rfl, render_piece,
      render_loop_pos as 1 _ Nat.one_pos, intercalate_go_append]

/-- C11: for a command whose arguments are the non-`NULL` strings `args`,
`stitch_cmd_render` appends to the builder the arguments in order, separated by
one space, an argument with a space character between single quotes and every
other argument verbatim. -/
theorem render_args_in_order (cmd : Stitch_Cmd) (args : List String) (render : String)
    (h : cmd.args = args.map some) :
    stitch_cmd_render cmd render
        = render ++ " ".intercalate (args.map fun arg =>
            if arg.data.elem ' ' then (String.singleton quoteChar ++ arg).push quoteChar
            else arg) := by
  exact render_eq_spec cmd args render h

theorem render_args_in_order_witness :
    cpCmd.args = ["cp", "a file.txt", "b.txt"].map some ∧
      stitch_cmd_render cpCmd "" = "cp \x27a file.txt\x27 b.txt" :=
  ⟨by decide,
    (render_args_in_order cpCmd ["cp", "a file.txt", "b.txt"] "" (by decide)).trans
      (by decide)⟩

/-- C12 (counterexample): the only argument of the command holds a tab, a
whitespace character, and `stitch_cmd_render` emits it without quotes. -/
theorem render_tab_not_quoted :
    tabCmd.args = [some "a\tb"] ∧ "a\tb".data.elem '\t' = true ∧
      Char.isWhitespace '\t' = true ∧
      stitch_cmd_render tabCmd "" = "a\tb" ∧
      stitch_cmd_render tabCmd "" ≠ "\x27a\tb\x27" := by
  decide

/-- C12 (amended): for a command without `NULL` arguments the output of
`stitch_cmd_render` is made of one piece per argument, separated by spaces; the
piece of an argument that contains a space character is the argument between
single quotes, and the piece of an argument without a space character is the
argument itself, whatever other whitespace it holds. -/
theorem render_quotes_iff_space (cmd : Stitch_Cmd) (args : List String) (render : String)
    (h : cmd.args = args.map some) :
    ∃ pieces, stitch_cmd_render cmd render = render ++ " ".intercalate pieces ∧
      List.Forall₂
        (fun arg piece =>
          (arg.data.elem ' ' = true →
            piece = (String.singleton quoteChar ++ arg).push quoteChar) ∧
          (arg.data.elem ' ' = false → piece = arg))
        args pieces := by
  refine ⟨args.map spec_render_arg, render_eq_spec cmd args render h, ?_⟩
  rw [List.forall₂_map_right_iff]
  refine List.forall₂_same.mpr (fun arg _ => ?_)
  unfold spec_render_arg
  constructor
  · intro hs
    rw [if_pos hs]
  · intro hs
    rw [if_neg (by rw [hs]; exact Bool.false_ne_true)]

theorem render_quotes_iff_space_witness :
    cpCmd.args = ["cp", "a file.txt", "b.txt"].map some ∧
      ∃ pieces, stitch_cmd_render cpCmd "" = "" ++ " ".intercalate pieces ∧
        List.Forall₂
          (fun arg piece =>
            (arg.data.elem ' ' = true →
              piece = (String.singleton quoteChar ++ arg).push quoteChar) ∧
            (arg.data.elem ' ' = false → piece = arg))
          ["cp", "a file.txt", "b.txt"] pieces :=
  ⟨by decide, render_quotes_iff_space cpCmd ["cp", "a file.txt", "b.txt"] "" (by decide)⟩

/-! ## Reset variants: lemmas and claims -/

/-- What the three closing blocks do to the store: a variable some present
stream points to holds `STITCH_INVALID_FD`, every other variable is unchanged. -/
theorem reset_redirect_mem (redirect : Stitch_Cmd_Redirect_Ptr) (mem : Nat → Int) (w : World)
    (a : Nat) :
    (reset_redirect redirect mem w).1 a
      = if a ∈ redirect.present then STITCH_INVALID_FD else mem a := by
  rcases redirect with ⟨_ | x, _ | y, _ | z⟩ <;>
    simp only [reset_redirect, close_and_invalidate, Stitch_Cmd_Redirect_Ptr.present,
      List.filterMap, id, Function.update_apply] <;>
    simp only [List.mem_cons, List.mem_nil_iff, or_false, if_false] <;>
    split_ifs <;> simp_all

/-- What the three closing blocks do to the environment: one `close` per
present stream is appended to the trace and nothing else changes; when no two
present streams share a variable, the descriptors closed are the ones the
variables held, in the order `fdin`, `fdout`, `fderr`. -/
theorem reset_redirect_world (redirect : Stitch_Cmd_Redirect_Ptr) (mem : Nat → Int) (w : World) :
    ∃ closes, (reset_redirect redirect mem w).2 = { w with trace := w.trace ++ closes } ∧
      closes.length = redirect.present.length ∧
      (∀ e ∈ closes, ∃ fd, e = Effect.close fd) ∧
      (redirect.present.Nodup → closes = redirect.present.map fun a => Effect.close (mem a)) := by
  rcases redirect with ⟨_ | x, _ | y, _ | z⟩
  · exact ⟨[], by simp [reset_redirect, close_and_invalidate], rfl, by simp, fun _ => rfl⟩
  · exact ⟨[.close (mem z)],
      by simp [reset_redirect, close_and_invalidate, stitch_fd_close, World.emit], rfl,
      by simp, fun _ => rfl⟩
  · exact ⟨[.close (mem y)],
      by simp [reset_redirect, close_and_invalidate, stitch_fd_close, World.emit], rfl,
      by simp, fun _ => rfl⟩
  · refine ⟨[.close (mem y), .close (Function.update mem y STITCH_INVALID_FD z)],
      by simp [reset_redirect, close_and_invalidate, stitch_fd_close, World.emit], rfl,
      by simp, fun hnd => ?_⟩
    have hne : z ≠ y := by
      intro h
      simp [Stitch_Cmd_Redirect_Ptr.present, List.filterMap, h] at hnd
    simp [Stitch_Cmd_Redirect_Ptr.present, List.filterMap, Function.update_apply, hne]
  · exact ⟨[.close (mem x)],
      by simp [reset_redirect, close_and_invalidate, stitch_fd_close, World.emit], rfl,
      by simp, fun _ => rfl⟩
  · refine ⟨[.close (mem x), .close (Function.update mem x STITCH_INVALID_FD z)],
      by simp [reset_redirect, close_and_invalidate, stitch_fd_close, World.emit], rfl,
      by simp, fun hnd => ?_⟩
    have hne : z ≠ x := by
      intro h
      simp [Stitch_Cmd_Redirect_Ptr.present, List.filterMap, h] at hnd
    simp [Stitch_Cmd_Redirect_Ptr.present, List.filterMap, Function.update_apply, hne]
  · refine ⟨[.close (mem x), .close (Function.update mem x STITCH_INVALID_FD y)],
      by simp [reset_redirect, close_and_invalidate, stitch_fd_close, World.emit], rfl,
      by simp, fun hnd => ?_⟩
    have hne : y ≠ x := by
      intro h
      simp [Stitch_Cmd_Redirect_Ptr.present, List.filterMap, h] at hnd
    simp [Stitch_Cmd_Redirect_Ptr.present, List.filterMap, Function.update_apply, hne]
  · refine ⟨[.close (mem x), .close (Function.update mem x STITCH_INVALID_FD y),
        .close (Function.update (Function.update mem x STITCH_INVALID_FD) y STITCH_INVALID_FD z)],
      by simp [reset_redirect, close_and_invalidate, stitch_fd_close, World.emit], rfl,
      by simp, fun hnd => ?_⟩
    have hd : (x ≠ y ∧ x ≠ z) ∧ y ≠ z := by
      simpa [Stitch_Cmd_Redirect_Ptr.present, List.filterMap, not_or] using hnd
    obtain ⟨⟨hxy, hxz⟩, hyz⟩ := hd
    simp [Stitch_Cmd_Redirect_Ptr.present, List.filterMap, Function.update_apply,
      Ne.symm hxy, Ne.symm hxz, Ne.symm hyz]

/-- C13: whatever the run does, the `_redirect_and_reset` variants end like the
plain variants on the same command and handles.  When the plain variant returns
a value they return the same value, the command with `count` 0 and `items` and
`capacity` unchanged, and a store in which every variable a present stream
points to holds `STITCH_INVALID_FD` and every other variable is untouched; the
environment is the one the plain variant left, with one `close` per present
stream added to the trace (none for an absent stream), on the descriptors the
variables held when no two streams share a variable. -/
theorem run_redirect_and_reset (cmd : Stitch_Cmd) (redirect : Stitch_Cmd_Redirect_Ptr)
    (mem : Nat → Int) (w : World) :
    (∀ proc w1, stitch_cmd_run_async_redirect cmd (redirect.deref mem) w = (.ret proc, w1) →
        ∃ mem1 w2 closes,
          stitch_cmd_run_async_redirect_and_reset cmd redirect mem w
            = (.ret (proc, { items := cmd.items, count := 0, capacity := cmd.capacity }, mem1),
                w2) ∧
          (∀ a, mem1 a = if a ∈ redirect.present then STITCH_INVALID_FD else mem a) ∧
          w2 = { w1 with trace := w1.trace ++ closes } ∧
          closes.length = redirect.present.length ∧
          (∀ e ∈ closes, ∃ fd, e = Effect.close fd) ∧
          (redirect.present.Nodup →
            closes = redirect.present.map fun a => Effect.close (mem a))) ∧
      (∀ ok w1, stitch_cmd_run_sync_redirect cmd (redirect.deref mem) w = (.ret ok, w1) →
        ∃ mem1 w2 closes,
          stitch_cmd_run_sync_redirect_and_reset cmd redirect mem w
            = (.ret (ok, { items := cmd.items, count := 0, capacity := cmd.capacity }, mem1),
                w2) ∧
          (∀ a, mem1 a = if a ∈ redirect.present then STITCH_INVALID_FD else mem a) ∧
          w2 = { w1 with trace := w1.trace ++ closes } ∧
          closes.length = redirect.present.length ∧
          (∀ e ∈ closes, ∃ fd, e = Effect.close fd) ∧
          (redirect.present.Nodup →
            closes = redirect.present.map fun a => Effect.close (mem a))) ∧
      (∀ c w1, stitch_cmd_run_async_redirect cmd (redirect.deref mem) w = (.exit c, w1) →
        stitch_cmd_run_async_redirect_and_reset cmd redirect mem w = (.exit c, w1)) ∧
      (∀ w1, stitch_cmd_run_async_redirect cmd (redirect.deref mem) w = (.exec, w1) →
        stitch_cmd_run_async_redirect_and_reset cmd redirect mem w = (.exec, w1)) ∧
      (∀ c w1, stitch_cmd_run_sync_redirect cmd (redirect.deref mem) w = (.exit c, w1) →
        stitch_cmd_run_sync_redirect_and_reset cmd redirect mem w = (.exit c, w1)) ∧
      (∀ w1, stitch_cmd_run_sync_redirect cmd (redirect.deref mem) w = (.exec, w1) →
        stitch_cmd_run_sync_redirect_and_reset cmd redirect mem w = (.exec, w1)) := by
  refine ⟨fun proc w1 h => ?_, fun ok w1 h => ?_, fun c w1 h => ?_, fun w1 h => ?_,
    fun c w1 h => ?_, fun w1 h => ?_⟩
  · obtain ⟨closes, hw, hlen, hcl, hnd⟩ := reset_redirect_world redirect mem w1
    exact ⟨(reset_redirect redirect mem w1).1, (reset_redirect redirect mem w1).2, closes,
      by simp [stitch_cmd_run_async_redirect_and_reset, h],
      fun a => reset_redirect_mem redirect mem w1 a, hw, hlen, hcl, hnd⟩
  · obtain ⟨closes, hw, hlen, hcl, hnd⟩ := reset_redirect_world redirect mem w1
    exact ⟨(reset_redirect redirect mem w1).1, (reset_redirect redirect mem w1).2, closes,
      by simp [stitch_cmd_run_sync_redirect_and_reset, h],
      fun a => reset_redirect_mem redirect mem w1 a, hw, hlen, hcl, hnd⟩
  · simp [stitch_cmd_run_async_redirect_and_reset, h]
  · simp [stitch_cmd_run_async_redirect_and_reset, h]
  · simp [stitch_cmd_run_sync_redirect_and_reset, h]
  · simp [stitch_cmd_run_sync_redirect_and_reset, h]

theorem run_redirect_and_reset_witness :
    ∃ mem1 w2 closes,
      stitch_cmd_run_async_redirect_and_reset cpCmd redirectInErr fdStore worldForkReady
        = (.ret (55, { items := cpCmd.items, count := 0, capacity := cpCmd.capacity }, mem1),
            w2) ∧
      (∀ a, mem1 a = if a ∈ redirectInErr.present then STITCH_INVALID_FD else fdStore a) ∧
      w2 = { (stitch_cmd_run_async_redirect cpCmd (redirectInErr.deref fdStore)
                worldForkReady).2 with
              trace := (stitch_cmd_run_async_redirect cpCmd (redirectInErr.deref fdStore)
                worldForkReady).2.trace ++ closes } ∧
      closes.length = redirectInErr.present.length ∧
      (∀ e ∈ closes, ∃ fd, e = Effect.close fd) ∧
      (redirectInErr.present.Nodup →
        closes = redirectInErr.present.map fun a => Effect.close (fdStore a)) :=
  (run_redirect_and_reset cpCmd redirectInErr fdStore worldForkReady).1 55
    (stitch_cmd_run_async_redirect cpCmd (redirectInErr.deref fdStore) worldForkReady).2
    (Prod.ext (by decide) rfl)

/-! ## Dynamic arrays: lemmas and claims -/

/-- Without overflow the doubling loop ends: from a capacity above 0, with the
expected capacity at most `2^63` and reachable in `n` doublings, `n + 1` tests
of the condition give a capacity that covers it. -/
theorem reserve_loop_ok (expected : Nat) (hexp : expected ≤ 9223372036854775808) (n : Nat) :
    ∀ c : Nat, 0 < c → expected ≤ c * 2 ^ n →
      ∃ c1, stitch_da_reserve_loop expected (n + 1) c = some c1 ∧ expected ≤ c1 ∧ c ≤ c1 := by
  induction n with
  | zero =>
    intro c _ h
    refine ⟨c, ?_, by simpa using h, le_refl c⟩
    have hn : ¬ expected > c := by simpa using h
    simp [stitch_da_reserve_loop, hn]
  | succ n ih =>
    intro c hc h
    by_cases hgt : expected > c
    · have hlt : c * 2 < SIZE_T_MOD := by unfold SIZE_T_MOD; omega
      have hmod : c * 2 % SIZE_T_MOD = c * 2 := Nat.mod_eq_of_lt hlt
      obtain ⟨c1, h1, h2, h3⟩ := ih (c * 2) (by omega) (by
        rw [pow_succ] at h
        calc expected ≤ c * (2 ^ n * 2) := h
          _ = c * 2 * 2 ^ n := by ring)
      refine ⟨c1, ?_, h2, by omega⟩
      rw [stitch_da_reserve_loop]
      simp only [hgt, if_true, hmod]
      exact h1
    · refine ⟨c, ?_, by omega, le_refl c⟩
      rw [stitch_da_reserve_loop]
      simp [hgt]

/-- With the expected capacity at most `2^63` and an initial capacity above 0,
`stitch_da_reserve` ends with a capacity that covers it and is not smaller than
the old one. -/
theorem reserve_capacity_ok (init_cap expected capacity : Nat) (hinit : 0 < init_cap)
    (hexp : expected ≤ 9223372036854775808) :
    ∃ c1, stitch_da_reserve_capacity init_cap expected capacity = some c1 ∧
      expected ≤ c1 ∧ capacity ≤ c1 := by
  unfold stitch_da_reserve_capacity
  by_cases hgt : expected > capacity
  · simp only [hgt, if_true]
    by_cases h0 : capacity = 0
    · simp only [h0, if_true]
      obtain ⟨c1, h1, h2, _⟩ := reserve_loop_ok expected hexp 64 init_cap hinit (by
        calc expected ≤ 9223372036854775808 := hexp
          _ ≤ 1 * 2 ^ 64 := by norm_num
          _ ≤ init_cap * 2 ^ 64 := Nat.mul_le_mul_right _ hinit)
      exact ⟨c1, h1, h2, Nat.zero_le _⟩
    · simp only [h0, if_false]
      obtain ⟨c1, h1, h2, h3⟩ := reserve_loop_ok expected hexp 64 capacity
        (Nat.pos_of_ne_zero h0) (by
        calc expected ≤ 9223372036854775808 := hexp
          _ ≤ 1 * 2 ^ 64 := by norm_num
          _ ≤ capacity * 2 ^ 64 := Nat.mul_le_mul_right _ (Nat.pos_of_ne_zero h0))
      exact ⟨c1, h1, h2, h3⟩
  · exact ⟨capacity, by simp [hgt], by omega, le_refl _⟩

/-- The loop gives up exactly when each capacity it tests is too small. -/
theorem reserve_loop_none_iff (expected : Nat) (fuel : Nat) :
    ∀ c : Nat, stitch_da_reserve_loop expected fuel c = none ↔
      ∀ k < fuel, expected > (fun x => x * 2 % SIZE_T_MOD)^[k] c := by
  induction fuel with
  | zero => intro c; simp [stitch_da_reserve_loop]
  | succ n ih =>
    intro c
    rw [stitch_da_reserve_loop]
    by_cases hgt : expected > c
    · simp only [hgt, if_true, ih]
      constructor
      · intro h k hk
        cases k with
        | zero => simpa using hgt
        | succ j =>
          rw [Function.iterate_succ_apply]
          exact h j (by omega)
      · intro h k hk
        have := h (k + 1) (by omega)
        rwa [Function.iterate_succ_apply] at this
    · simp only [hgt, if_false]
      constructor
      · intro h; cases h
      · intro h
        exact absurd (by simpa using h 0 (Nat.succ_pos n)) hgt

theorem iterate_double_mod (c : Nat) (k : Nat) :
    (fun x => x * 2 % SIZE_T_MOD)^[k] c % SIZE_T_MOD = c * 2 ^ k % SIZE_T_MOD := by
  induction k with
  | zero => simp
  | succ n ih =>
    rw [Function.iterate_succ_apply', Nat.mod_mod, pow_succ, ← Nat.mul_assoc, Nat.mul_mod, ih,
      ← Nat.mul_mod]

theorem iterate_double_zero (c : Nat) (k : Nat) (hk : 64 ≤ k) :
    (fun x => x * 2 % SIZE_T_MOD)^[k] c = 0 := by
  obtain ⟨j, rfl⟩ : ∃ j, k = j + 1 := ⟨k - 1, by omega⟩
  have h1 : (fun x => x * 2 % SIZE_T_MOD)^[j + 1] c
      = (fun x => x * 2 % SIZE_T_MOD)^[j + 1] c % SIZE_T_MOD := by
    rw [Function.iterate_succ_apply', Nat.mod_mod]
  rw [h1, iterate_double_mod]
  obtain ⟨i, hi⟩ : ∃ i, j + 1 = 64 + i := ⟨j + 1 - 64, by omega⟩
  rw [hi, pow_add]
  have : c * (2 ^ 64 * 2 ^ i) = SIZE_T_MOD * (c * 2 ^ i) := by
    unfold SIZE_T_MOD; ring
  rw [this, Nat.mul_mod_right]

/-- A loop still running after 65 tests of the condition never ends. -/
theorem reserve_loop_never_ends (expected c : Nat)
    (h : stitch_da_reserve_loop expected 65 c = none) :
    ∀ fuel, stitch_da_reserve_loop expected fuel c = none := by
  intro fuel
  rw [reserve_loop_none_iff] at h ⊢
  intro k _
  by_cases hk : k < 65
  · exact h k hk
  · have h64 := h 64 (by decide)
    rw [iterate_double_zero c 64 (le_refl _)] at h64
    rw [iterate_double_zero c k (by omega)]
    exact h64
/-- The slots written by the `memcpy` of `stitch_da_append_many` follow the old
arguments. -/
theorem take_written (items new_items : List (Option String)) (count : Nat) :
    (items.take count ++ new_items ++ items.drop (count + new_items.length)).take
        (count + new_items.length)
      = items.take count ++ new_items := by
  by_cases h : count ≤ items.length
  · have hl : (items.take count ++ new_items).length = count + new_items.length := by
      simp [List.length_take, h]
    rw [List.take_append_of_le_length (by omega), List.take_of_length_le (by omega)]
  · have hd : items.drop (count + new_items.length) = [] :=
      List.drop_of_length_le (by omega)
    rw [hd, List.append_nil, List.take_of_length_le]
    simp only [List.length_append, List.length_take]
    omega

/-- `stitch_da_append_many` on a command, when the new count is at most `2^63`
and the source array holds the items counted: the arguments are the old ones
followed by the new ones, the count grows by their number, the capacity does
not shrink and covers the count. -/
theorem da_append_many_spec (cmd : Stitch_Cmd) (new_items : List (Option String)) (n : Nat)
    (hn : n ≤ new_items.length) (hsz : cmd.count + n ≤ 9223372036854775808) :
    ∃ cmd1, stitch_da_append_many cmd new_items n = some cmd1 ∧
      cmd1.args = cmd.args ++ new_items.take n ∧ cmd1.count = cmd.count + n ∧
      cmd.capacity ≤ cmd1.capacity ∧ cmd1.count ≤ cmd1.capacity := by
  have hlt : cmd.count + n < SIZE_T_MOD := by unfold SIZE_T_MOD; omega
  have hmod : (cmd.count + n) % SIZE_T_MOD = cmd.count + n := Nat.mod_eq_of_lt hlt
  obtain ⟨c1, h1, h2, h3⟩ := reserve_capacity_ok STITCH_DA_INIT_CAP (cmd.count + n)
    cmd.capacity (by decide) hsz
  refine ⟨{ items := cmd.items.take cmd.count ++ new_items.take n
              ++ cmd.items.drop (cmd.count + n),
            count := cmd.count + n, capacity := c1 }, ?_, ?_, rfl, h3, h2⟩
  · simp [stitch_da_append_many, stitch_da_reserve, hmod, h1]
  · have hlen : (new_items.take n).length = n := by simp [List.length_take, hn]
    have := take_written cmd.items (new_items.take n) cmd.count
    rw [hlen] at this
    simpa [Stitch_Cmd.args] using this

/-- C14: for a command with arguments `xs`, `stitch_cmd_append` with the list
`ys` gives a command whose arguments are `xs` followed by `ys`, and
`stitch_cmd_extend` with another command gives a command whose arguments are
`xs` followed by the arguments of the other command; in both the count grows by
the number of arguments added.  The sizes are those of arrays that fit in
memory: the new count is at most `2^63`, and the other command holds the
arguments it counts. -/
theorem cmd_append_extend_args (cmd other_cmd : Stitch_Cmd) (ys : List (Option String))
    (hys : cmd.count + ys.length ≤ 9223372036854775808)
    (hother : other_cmd.count ≤ other_cmd.items.length)
    (hsz : cmd.count + other_cmd.count ≤ 9223372036854775808) :
    (∃ cmd1, stitch_cmd_append cmd ys = some cmd1 ∧
        cmd1.args = cmd.args ++ ys ∧ cmd1.count = cmd.count + ys.length) ∧
      (∃ cmd2, stitch_cmd_extend cmd other_cmd = some cmd2 ∧
        cmd2.args = cmd.args ++ other_cmd.args ∧
        cmd2.count = cmd.count + other_cmd.args.length) := by
  constructor
  · obtain ⟨cmd1, h1, h2, h3, _⟩ := da_append_many_spec cmd ys ys.length (le_refl _) hys
    exact ⟨cmd1, h1, by simpa using h2, h3⟩
  · obtain ⟨cmd2, h1, h2, h3, _⟩ :=
      da_append_many_spec cmd other_cmd.items other_cmd.count hother hsz
    refine ⟨cmd2, h1, h2, ?_⟩
    rw [h3]
    simp [Stitch_Cmd.args, List.length_take, hother]

theorem cmd_append_extend_args_witness :
    (∃ cmd1, stitch_cmd_append ccCmd [some "main", some "main.c"] = some cmd1 ∧
        cmd1.args = ccCmd.args ++ [some "main", some "main.c"] ∧
        cmd1.count = ccCmd.count + [some "main", some "main.c"].length) ∧
      (∃ cmd2, stitch_cmd_extend ccCmd tailCmd = some cmd2 ∧
        cmd2.args = ccCmd.args ++ tailCmd.args ∧
        cmd2.count = ccCmd.count + tailCmd.args.length) :=
  cmd_append_extend_args ccCmd tailCmd [some "main", some "main.c"]
    (by decide) (by decide) (by decide)

/-! ## Bootstrap: lemmas -/

theorem sameFiles_refl (w : World) : sameFiles w w := ⟨rfl, rfl, rfl⟩

theorem sameFiles_trans {w w1 w2 : World} (h1 : sameFiles w w1) (h2 : sameFiles w1 w2) :
    sameFiles w w2 :=
  ⟨h2.1.trans h1.1, h2.2.1.trans h1.2.1, h2.2.2.trans h1.2.2⟩

theorem sameFiles_log (level : Stitch_Log_Level) (msg : String) (w : World) :
    sameFiles w (stitch_log level msg w) := by
  rcases stitch_log_cases level msg w with h | ⟨t, h⟩
  · rw [h]; exact sameFiles_refl w
  · rw [h]; exact ⟨rfl, rfl, rfl⟩

/-- A call of `stitch_needs_rebuild` that returns 0 has stat-ed the output and
every input, in order, and done nothing else. -/
theorem needs_rebuild_loop_zero_world (o : Int) (l : List String) :
    ∀ w : World, (stitch_needs_rebuild_loop o l w).1 = 0 →
      (stitch_needs_rebuild_loop o l w).2 = { w with trace := w.trace ++ l.map .stat } := by
  induction l with
  | nil => intro w _; simp [stitch_needs_rebuild_loop]
  | cons p ps ih =>
    intro w h
    simp only [stitch_needs_rebuild_loop] at h ⊢
    cases hp : w.stat p with
    | fail e => simp [hp] at h
    | ok t =>
      simp only [hp] at h ⊢
      by_cases hn : toInt32 t > o
      · simp [hn] at h
      · simp only [hn, if_false] at h ⊢
        rw [ih _ h]
        simp [World.emit]

theorem needs_rebuild_zero_world (output_path : String) (input_paths : List String) (w : World)
    (h : (stitch_needs_rebuild output_path input_paths w).1 = 0) :
    (stitch_needs_rebuild output_path input_paths w).2
      = { w with trace := w.trace ++ (.stat output_path :: input_paths.map .stat) } := by
  simp only [stitch_needs_rebuild] at h ⊢
  cases ho : w.stat output_path with
  | fail e =>
    simp only [ho] at h
    by_cases he : e = ENOENT
    · simp [he] at h
    · simp [he] at h
  | ok t =>
    simp only [ho] at h ⊢
    rw [needs_rebuild_loop_zero_world _ _ _ h]
    simp [World.emit]

theorem sameFiles_needs_rebuild_loop (o : Int) (l : List String) :
    ∀ w : World, sameFiles w (stitch_needs_rebuild_loop o l w).2 := by
  induction l with
  | nil => intro w; exact sameFiles_refl w
  | cons p ps ih =>
    intro w
    simp only [stitch_needs_rebuild_loop]
    cases w.stat p with
    | fail e => exact sameFiles_trans ⟨rfl, rfl, rfl⟩ (sameFiles_log _ _ _)
    | ok t =>
      simp only
      split
      · exact ⟨rfl, rfl, rfl⟩
      · exact sameFiles_trans ⟨rfl, rfl, rfl⟩ (ih _)

theorem sameFiles_needs_rebuild (output_path : String) (input_paths : List String) (w : World) :
    sameFiles w (stitch_needs_rebuild output_path input_paths w).2 := by
  simp only [stitch_needs_rebuild]
  cases w.stat output_path with
  | fail e =>
    simp only
    split
    · exact ⟨rfl, rfl, rfl⟩
    · exact sameFiles_trans ⟨rfl, rfl, rfl⟩ (sameFiles_log _ _ _)
  | ok t => exact sameFiles_trans ⟨rfl, rfl, rfl⟩ (sameFiles_needs_rebuild_loop _ _ _)

theorem sameFiles_fork (w : World) : sameFiles w (fork w).2 := by
  unfold fork
  cases w.fork_results <;> exact ⟨rfl, rfl, rfl⟩

theorem sameFiles_child_dup2 (fd : Option Int) (target : Int) (name : String) (w : World) :
    sameFiles w (child_dup2 fd target name w).2 := by
  unfold child_dup2
  cases fd with
  | none => exact sameFiles_refl w
  | some fd =>
    simp only
    cases w.dup2 fd target with
    | fail e => exact sameFiles_trans ⟨rfl, rfl, rfl⟩ (sameFiles_log _ _ _)
    | ok v => exact ⟨rfl, rfl, rfl⟩

/-- The child side ends in `exit(1)` or in `execvp`; it does not return. -/
theorem child_dup2_outcome (fd : Option Int) (target : Int) (name : String) (w : World) :
    (child_dup2 fd target name w).1 = .ret () ∨ (child_dup2 fd target name w).1 = .exit 1 := by
  unfold child_dup2
  cases fd with
  | none => exact Or.inl rfl
  | some fd =>
    simp only
    cases w.dup2 fd target with
    | fail e => exact Or.inr rfl
    | ok v => exact Or.inl rfl

theorem async_child_spec (cmd : Stitch_Cmd) (redirect : Stitch_Cmd_Redirect) (w : World) :
    sameFiles w (stitch_cmd_run_async_redirect_child cmd redirect w).2 ∧
      ((stitch_cmd_run_async_redirect_child cmd redirect w).1 = .exit 1 ∨
        (stitch_cmd_run_async_redirect_child cmd redirect w).1 = .exec) := by
  unfold stitch_cmd_run_async_redirect_child
  have s1 := sameFiles_child_dup2 redirect.fdin STDIN_FILENO "stdin" w
  have o1 := child_dup2_outcome redirect.fdin STDIN_FILENO "stdin" w
  rcases h1 : child_dup2 redirect.fdin STDIN_FILENO "stdin" w with ⟨r1, w1⟩
  rw [h1] at s1 o1
  rcases o1 with o1 | o1 <;> simp only at o1 <;> subst o1
  · simp only
    have s2 := sameFiles_child_dup2 redirect.fdout STDOUT_FILENO "stdout" w1
    have o2 := child_dup2_outcome redirect.fdout STDOUT_FILENO "stdout" w1
    rcases h2 : child_dup2 redirect.fdout STDOUT_FILENO "stdout" w1 with ⟨r2, w2⟩
    rw [h2] at s2 o2
    rcases o2 with o2 | o2 <;> simp only at o2 <;> subst o2
    · simp only
      have s3 := sameFiles_child_dup2 redirect.fderr STDERR_FILENO "stderr" w2
      have o3 := child_dup2_outcome redirect.fderr STDERR_FILENO "stderr" w2
      rcases h3 : child_dup2 redirect.fderr STDERR_FILENO "stderr" w2 with ⟨r3, w3⟩
      rw [h3] at s3 o3
      rcases o3 with o3 | o3 <;> simp only at o3 <;> subst o3
      · simp only
        cases w3.execvp (cmd.items.headD none) with
        | fail e =>
          exact ⟨sameFiles_trans (sameFiles_trans (sameFiles_trans s1 s2) s3)
            (sameFiles_trans ⟨rfl, rfl, rfl⟩ (sameFiles_log _ _ _)), Or.inl rfl⟩
        | ok v =>
          exact ⟨sameFiles_trans (sameFiles_trans (sameFiles_trans s1 s2) s3) ⟨rfl, rfl, rfl⟩,
            Or.inr rfl⟩
      · exact ⟨sameFiles_trans (sameFiles_trans s1 s2) s3, Or.inl rfl⟩
    · exact ⟨sameFiles_trans s1 s2, Or.inl rfl⟩
  · exact ⟨s1, Or.inl rfl⟩

/-- `stitch_cmd_run_async_redirect` leaves the file system alone and ends by
returning a handle, by `exit(1)` or by `execvp`. -/
theorem async_spec (cmd : Stitch_Cmd) (redirect : Stitch_Cmd_Redirect) (w : World) :
    sameFiles w (stitch_cmd_run_async_redirect cmd redirect w).2 ∧
      ((∃ p, (stitch_cmd_run_async_redirect cmd redirect w).1 = .ret p) ∨
        (stitch_cmd_run_async_redirect cmd redirect w).1 = .exit 1 ∨
        (stitch_cmd_run_async_redirect cmd redirect w).1 = .exec) := by
  unfold stitch_cmd_run_async_redirect
  split
  · exact ⟨sameFiles_log _ _ _, Or.inl ⟨_, rfl⟩⟩
  · simp only
    have sl := sameFiles_log .STITCH_INFO ("CMD: " ++ stitch_cmd_render cmd "") w
    have sf := sameFiles_fork (stitch_log .STITCH_INFO ("CMD: " ++ stitch_cmd_render cmd "") w)
    rcases hf : fork (stitch_log .STITCH_INFO ("CMD: " ++ stitch_cmd_render cmd "") w)
      with ⟨r, w2⟩
    rw [hf] at sf
    cases r with
    | fail e =>
      exact ⟨sameFiles_trans (sameFiles_trans sl sf) (sameFiles_log _ _ _), Or.inl ⟨_, rfl⟩⟩
    | ok cpid =>
      simp only
      split
      · obtain ⟨sc, oc⟩ := async_child_spec cmd redirect w2
        exact ⟨sameFiles_trans (sameFiles_trans sl sf) sc, Or.inr oc⟩
      · exact ⟨sameFiles_trans sl sf, Or.inl ⟨_, rfl⟩⟩

theorem sameFiles_proc_wait_loop (proc : Int) (l : List (SysResult Nat)) :
    ∀ w : World, sameFiles w (stitch_proc_wait_loop proc l w).2 := by
  induction l with
  | nil => intro w; exact sameFiles_trans ⟨rfl, rfl, rfl⟩ (sameFiles_log _ _ _)
  | cons r rs ih =>
    intro w
    simp only [stitch_proc_wait_loop]
    cases r with
    | fail e => exact sameFiles_trans ⟨rfl, rfl, rfl⟩ (sameFiles_log _ _ _)
    | ok s =>
      simp only
      split
      · split
        · exact sameFiles_trans ⟨rfl, rfl, rfl⟩ (sameFiles_log _ _ _)
        · exact ⟨rfl, rfl, rfl⟩
      · split
        · exact sameFiles_trans ⟨rfl, rfl, rfl⟩ (sameFiles_log _ _ _)
        · exact sameFiles_trans ⟨rfl, rfl, rfl⟩ (ih _)

theorem sameFiles_proc_wait (proc : Int) (w : World) :
    sameFiles w (stitch_proc_wait proc w).2 := by
  unfold stitch_proc_wait
  split
  · exact sameFiles_refl w
  · exact sameFiles_proc_wait_loop _ _ _

/-- `stitch_cmd_run_sync` leaves the file system alone and ends by returning a
boolean, by `exit(1)` or by `execvp`. -/
theorem run_sync_spec (cmd : Stitch_Cmd) (w : World) :
    sameFiles w (stitch_cmd_run_sync cmd w).2 ∧
      ((∃ ok, (stitch_cmd_run_sync cmd w).1 = .ret ok) ∨
        (stitch_cmd_run_sync cmd w).1 = .exit 1 ∨ (stitch_cmd_run_sync cmd w).1 = .exec) := by
  unfold stitch_cmd_run_sync stitch_cmd_run_async
  obtain ⟨sa, oa⟩ := async_spec cmd ⟨none, none, none⟩ w
  rcases ha : stitch_cmd_run_async_redirect cmd ⟨none, none, none⟩ w with ⟨r, w1⟩
  rw [ha] at sa oa
  rcases oa with ⟨p, hp⟩ | hp | hp <;> simp only at hp <;> subst hp
  · simp only
    split
    · exact ⟨sa, Or.inl ⟨_, rfl⟩⟩
    · exact ⟨sameFiles_trans sa (sameFiles_proc_wait _ _), Or.inl ⟨_, rfl⟩⟩
  · exact ⟨sa, Or.inr (Or.inl rfl)⟩
  · exact ⟨sa, Or.inr (Or.inr rfl)⟩

/-- `stitch_cmd_run_sync_and_reset` ends like `stitch_cmd_run_sync`; when it
returns, the command it hands back is the old one with `count` 0. -/
theorem run_sync_and_reset_spec (cmd : Stitch_Cmd) (w : World) :
    sameFiles w (stitch_cmd_run_sync_and_reset cmd w).2 ∧
      ((∃ ok, stitch_cmd_run_sync cmd w = (.ret ok, (stitch_cmd_run_sync cmd w).2) ∧
          stitch_cmd_run_sync_and_reset cmd w
            = (.ret (ok, { cmd with count := 0 }), (stitch_cmd_run_sync cmd w).2)) ∨
        (stitch_cmd_run_sync_and_reset cmd w).1 = .exit 1 ∨
        (stitch_cmd_run_sync_and_reset cmd w).1 = .exec) := by
  unfold stitch_cmd_run_sync_and_reset
  obtain ⟨sa, oa⟩ := run_sync_spec cmd w
  rcases ha : stitch_cmd_run_sync cmd w with ⟨r, w1⟩
  rw [ha] at sa oa
  rcases oa with ⟨p, hp⟩ | hp | hp <;> simp only at hp <;> subst hp
  · exact ⟨sa, Or.inl ⟨p, rfl, rfl⟩⟩
  · exact ⟨sa, Or.inr (Or.inl rfl)⟩
  · exact ⟨sa, Or.inr (Or.inr rfl)⟩

theorem ne_append_old (b : String) : b ≠ b ++ ".old" := by
  intro h
  have hl := congrArg String.length h
  rw [String.length_append] at hl
  have h4 : ".old".length = 4 := by decide
  omega

theorem stitch_log_world (level : Stitch_Log_Level) (msg : String) (w : World) :
    ∃ lines, stitch_log level msg w = { w with trace := w.trace ++ lines } ∧
      ∀ e ∈ lines, e.isStderr = true := by
  rcases stitch_log_cases level msg w with h | ⟨t, h⟩
  · exact ⟨[], by rw [h]; simp, by simp⟩
  · exact ⟨[.stderr t], by rw [h]; rfl, by simp [Effect.isStderr]⟩

/-- What `rename` does: the call is recorded; on failure nothing else changes,
on success the file is found at the new path and no longer at the old one. -/
theorem rename_spec (o n : String) (w : World) :
    (rename o n w).2.trace = w.trace ++ [.rename o n] ∧
      (rename o n w).2.fork_results = w.fork_results ∧
      (rename o n w).2.children = w.children ∧
      (rename o n w).2.rename_errno = w.rename_errno ∧
      (rename o n w).2.strerror = w.strerror ∧
      (rename o n w).2.stitch_minimal_log_level = w.stitch_minimal_log_level ∧
      (∀ e, (rename o n w).1 = .fail e → sameFiles w (rename o n w).2) ∧
      ((rename o n w).1 = .ok () → o ≠ n → ∃ t, w.stat o = .ok t ∧
        (rename o n w).2.stat
          = (fun p => if p = n then .ok t else if p = o then .fail ENOENT else w.stat p) ∧
        (rename o n w).2.inode = fun p => if p = n then w.inode o else w.inode p) := by
  unfold rename
  cases hs : w.stat o with
  | fail e => simp [World.emit, sameFiles]
  | ok t =>
    cases hr : w.rename_errno o n with
    | some e => simp [World.emit, sameFiles]
    | none =>
      by_cases hon : o = n
      · simp [World.emit, sameFiles, hon]
      · simp [World.emit, sameFiles, hon]


/-- What `stitch_rename` does: it appends log lines and the `rename` call to
the trace and touches neither the pending `fork` answers nor the children; when
it returns false the file system is unchanged, when it returns true the file is
found at the new path and no longer at the old one. -/
theorem stitch_rename_spec (o n : String) (w : World) :
    (∃ added, (stitch_rename o n w).2.trace = w.trace ++ added ∧
        Effect.rename o n ∈ added ∧ ∀ e ∈ added, e.isStderr = true ∨ e = .rename o n) ∧
      (stitch_rename o n w).2.fork_results = w.fork_results ∧
      (stitch_rename o n w).2.children = w.children ∧
      (stitch_rename o n w).2.rename_errno = w.rename_errno ∧
      ((stitch_rename o n w).1 = false → sameFiles w (stitch_rename o n w).2) ∧
      ((stitch_rename o n w).1 = true → o ≠ n → ∃ t, w.stat o = .ok t ∧
        (stitch_rename o n w).2.stat
          = (fun p => if p = n then .ok t else if p = o then .fail ENOENT else w.stat p) ∧
        (stitch_rename o n w).2.inode = fun p => if p = n then w.inode o else w.inode p) := by
  unfold stitch_rename
  obtain ⟨l1, h1, hs1⟩ := stitch_log_world .STITCH_INFO ("renaming " ++ o ++ " -> " ++ n) w
  simp only [h1]
  obtain ⟨rt, rf, rc, rr, _, _, rfail, rok⟩ :=
    rename_spec o n { w with trace := w.trace ++ l1 }
  rcases hres : rename o n { w with trace := w.trace ++ l1 } with ⟨r, w2⟩
  rw [hres] at rt rf rc rr rfail rok
  simp only at rt rf rc rr rfail rok
  cases r with
  | fail e =>
    obtain ⟨l2, h2, hs2⟩ := stitch_log_world .STITCH_ERROR
      ("could not rename " ++ o ++ " to " ++ n ++ ": " ++ w2.strerror e) w2
    simp only [h2]
    refine ⟨⟨l1 ++ [.rename o n] ++ l2, by simp [rt], by simp, ?_⟩, rf, rc, rr, ?_, ?_⟩
    · intro x hx
      simp only [List.mem_append, List.mem_singleton] at hx
      rcases hx with (hx | hx) | hx
      · exact Or.inl (hs1 x hx)
      · exact Or.inr hx
      · exact Or.inl (hs2 x hx)
    · intro _
      have hsf := rfail e rfl
      exact ⟨hsf.1, hsf.2.1, hsf.2.2⟩
    · intro h; cases h
  | ok v =>
    refine ⟨⟨l1 ++ [.rename o n], by simp [rt], by simp, ?_⟩, rf, rc, rr, ?_, ?_⟩
    · intro x hx
      simp only [List.mem_append, List.mem_singleton] at hx
      rcases hx with hx | hx
      · exact Or.inl (hs1 x hx)
      · exact Or.inr hx
    · intro h; cases h
    · intro _ hne
      exact rok rfl hne

/-- A call of `stitch_needs_rebuild` changes the trace only, by `stat` calls
and `stderr` lines. -/
theorem needs_rebuild_loop_world (o : Int) (l : List String) :
    ∀ w : World, ∃ added,
      (stitch_needs_rebuild_loop o l w).2 = { w with trace := w.trace ++ added } ∧
      ∀ e ∈ added, e.isStat = true ∨ e.isStderr = true := by
  induction l with
  | nil => intro w; exact ⟨[], by simp [stitch_needs_rebuild_loop], by simp⟩
  | cons p ps ih =>
    intro w
    simp only [stitch_needs_rebuild_loop]
    cases w.stat p with
    | fail e =>
      obtain ⟨l2, h2, hs2⟩ := stitch_log_world .STITCH_ERROR
        ("could not stat " ++ p ++ ": " ++ w.strerror e) (w.emit (.stat p))
      refine ⟨.stat p :: l2, by simp only; rw [h2]; simp [World.emit], ?_⟩
      intro x hx
      rcases List.mem_cons.mp hx with rfl | hx
      · exact Or.inl rfl
      · exact Or.inr (hs2 x hx)
    | ok t =>
      simp only
      split
      · exact ⟨[.stat p], rfl, by simp [Effect.isStat]⟩
      · obtain ⟨l2, h2, hs2⟩ := ih (w.emit (.stat p))
        refine ⟨.stat p :: l2, by rw [h2]; simp [World.emit], ?_⟩
        intro x hx
        rcases List.mem_cons.mp hx with rfl | hx
        · exact Or.inl rfl
        · exact hs2 x hx

theorem needs_rebuild_world (output_path : String) (input_paths : List String) (w : World) :
    ∃ added,
      (stitch_needs_rebuild output_path input_paths w).2
        = { w with trace := w.trace ++ added } ∧
      ∀ e ∈ added, e.isStat = true ∨ e.isStderr = true := by
  simp only [stitch_needs_rebuild]
  cases w.stat output_path with
  | fail e =>
    simp only
    split
    · exact ⟨[.stat output_path], rfl, by simp [Effect.isStat]⟩
    · obtain ⟨l2, h2, hs2⟩ := stitch_log_world .STITCH_ERROR
        ("could not stat " ++ output_path ++ ": " ++ w.strerror e) (w.emit (.stat output_path))
      refine ⟨.stat output_path :: l2, by rw [h2]; simp [World.emit], ?_⟩
      intro x hx
      rcases List.mem_cons.mp hx with rfl | hx
      · exact Or.inl rfl
      · exact Or.inr (hs2 x hx)
  | ok t =>
    obtain ⟨l2, h2, hs2⟩ := needs_rebuild_loop_world (toInt32 t) input_paths
      (w.emit (.stat output_path))
    refine ⟨.stat output_path :: l2, by rw [h2]; simp [World.emit], ?_⟩
    intro x hx
    rcases List.mem_cons.mp hx with rfl | hx
    · exact Or.inl rfl
    · exact hs2 x hx

/-- The compile command is the zeroed command after `stitch_cmd_append`. -/
theorem cmd_append_rebuild (binary_path source_path : String) :
    stitch_cmd_append { items := [], count := 0, capacity := 0 }
        (STITCH_REBUILD_URSELF binary_path source_path)
      = some (compileCmd binary_path source_path) := rfl

/-- The relaunch: from a command with `count` 0 and an `argv` that an `int`
counts, the command that is run holds `binary_path` followed by the remaining
`argv`. -/
theorem relaunch_spec (cmd : Stitch_Cmd) (binary_path : String) (rest : List String) (w : World)
    (hc : cmd.count = 0) (hargc : (binary_path :: rest).length < 2147483648) :
    ∃ cmd2, cmd2.args = some binary_path :: rest.map some ∧
      stitch__go_rebuild_urself_relaunch cmd binary_path rest w
        = some (stitch__go_rebuild_urself_relaunched (stitch_cmd_run_sync_and_reset cmd2 w)) := by
  simp only [List.length_cons] at hargc
  obtain ⟨cmd1, h1, ha1, hc1, _⟩ := da_append_many_spec cmd [some binary_path] 1
    (by simp) (by rw [hc]; norm_num)
  obtain ⟨cmd2, h2, ha2, _, _⟩ := da_append_many_spec cmd1 (rest.map some) rest.length
    (by simp) (by rw [hc1, hc]; omega)
  refine ⟨cmd2, ?_, ?_⟩
  · rw [ha2, ha1]
    simp [Stitch_Cmd.args, hc]
  · unfold stitch__go_rebuild_urself_relaunch stitch_cmd_append
    simp only [List.length_singleton, h1, h2]

theorem relaunched_outcome (cmd : Stitch_Cmd) (w : World) :
    (stitch__go_rebuild_urself_relaunched (stitch_cmd_run_sync_and_reset cmd w)).1 = .exit 0 ∨
      (stitch__go_rebuild_urself_relaunched (stitch_cmd_run_sync_and_reset cmd w)).1 = .exit 1 ∨
      (stitch__go_rebuild_urself_relaunched (stitch_cmd_run_sync_and_reset cmd w)).1 = .exec := by
  obtain ⟨_, h⟩ := run_sync_and_reset_spec cmd w
  rcases hr : stitch_cmd_run_sync_and_reset cmd w with ⟨r, w1⟩
  rw [hr] at h
  unfold stitch__go_rebuild_urself_relaunched
  rcases h with ⟨ok, _, h⟩ | h | h
  · cases h
    cases ok
    · exact Or.inr (Or.inl rfl)
    · exact Or.inl rfl
  · simp only at h
    subst h
    exact Or.inr (Or.inl rfl)
  · simp only at h
    subst h
    exact Or.inr (Or.inr rfl)

/-- The rebuild part always has an outcome, and the outcome is never a return:
the process exits with 0 or 1, or, on the child side of a `fork`, loads another
program. -/
theorem rebuild_never_returns (binary_path source_path : String) (rest : List String)
    (w : World) (hargc : (binary_path :: rest).length < 2147483648) :
    ∃ o w1, stitch__go_rebuild_urself_rebuild binary_path source_path rest w = some (o, w1) ∧
      (o = .exit 0 ∨ o = .exit 1 ∨ o = .exec) := by
  unfold stitch__go_rebuild_urself_rebuild
  simp only [cmd_append_rebuild]
  rcases hren : stitch_rename binary_path (binary_path ++ ".old") w with ⟨ok, w1⟩
  cases ok
  · exact ⟨_, _, rfl, Or.inr (Or.inl rfl)⟩
  · simp only
    obtain ⟨_, h⟩ := run_sync_and_reset_spec (compileCmd binary_path source_path) w1
    rcases hr : stitch_cmd_run_sync_and_reset (compileCmd binary_path source_path) w1
      with ⟨r, w2⟩
    rw [hr] at h
    unfold stitch__go_rebuild_urself_compiled
    rcases h with ⟨ok2, _, h⟩ | h | h
    · cases h
      cases ok2
      · exact ⟨_, _, rfl, Or.inr (Or.inl rfl)⟩
      · simp only [Bool.not_true, Bool.false_eq_true, if_false]
        obtain ⟨cmd2, _, h2⟩ := relaunch_spec
          { compileCmd binary_path source_path with count := 0 } binary_path rest
          (stitch_cmd_run_sync (compileCmd binary_path source_path) w1).2 rfl hargc
        rw [h2]
        exact ⟨_, _, rfl, relaunched_outcome cmd2 _⟩
    · simp only at h
      subst h
      exact ⟨_, _, rfl, Or.inr (Or.inl rfl)⟩
    · simp only at h
      subst h
      exact ⟨_, _, rfl, Or.inr (Or.inr rfl)⟩

/-! ## Bootstrap: claims -/

/-- C15: for an `argv` with at least the program name and any source list, when
`stitch_needs_rebuild` on the executable path and the source paths returns 0,
`stitch__go_rebuild_urself` returns to its caller; the environment it leaves is
the old one with the `stat` calls of the query added to the trace, so there is
no rename, no process creation and no wait, and the file system, the pending
`fork` answers and the children are unchanged. -/
theorem bootstrap_fresh_returns (binary_path : String) (rest : List String)
    (source_path : String) (more_paths : List String) (w : World)
    (h : (stitch_needs_rebuild binary_path (source_path :: more_paths) w).1 = 0) :
    stitch__go_rebuild_urself (binary_path :: rest) source_path more_paths w
        = some (.ret (), { w with
            trace := w.trace
              ++ (.stat binary_path :: (source_path :: more_paths).map .stat) }) ∧
      ∀ e ∈ (Effect.stat binary_path :: (source_path :: more_paths).map .stat),
        e.isRename = false ∧ e.isProcessCreation = false ∧ e.isWait = false := by
  constructor
  · have hw := needs_rebuild_zero_world _ _ _ h
    simp only [stitch__go_rebuild_urself, stitch_shift, h, hw]
    simp
  · intro e he
    rcases List.mem_cons.mp he with rfl | he
    · exact ⟨rfl, rfl, rfl⟩
    · obtain ⟨p, _, rfl⟩ := List.mem_map.mp he
      exact ⟨rfl, rfl, rfl⟩

theorem bootstrap_fresh_returns_witness :
    (stitch_needs_rebuild "./stitch" ("stitch.c" :: ["foo.c"]) worldFresh).1 = 0 ∧
      stitch__go_rebuild_urself ("./stitch" :: ["-v"]) "stitch.c" ["foo.c"] worldFresh
        = some (.ret (), { worldFresh with
            trace := worldFresh.trace
              ++ (.stat "./stitch" :: ("stitch.c" :: ["foo.c"]).map .stat) }) :=
  ⟨by decide,
    (bootstrap_fresh_returns "./stitch" ["-v"] "stitch.c" ["foo.c"] worldFresh (by decide)).1⟩

/-- C16: when the query says stale, the rename to the backup path succeeds and
the compile command returns failure, `stitch__go_rebuild_urself` renames the
backup back to the original path and the process exits with status 1; after the
compile command the trace gains only log lines and that `rename` (no `fork`,
no `execvp`, no `waitpid`), and the pending `fork` answers and the children are
as the compile command left them.  The binary existed at the start; while the
compile command ran it was at the backup path and nothing was at the original
path.  When the restoring rename succeeds, the original path again answers
`stat` as it did at the start and holds the same file, nothing is left at the
backup path, and every other path is as it was at the start.  When the
restoring rename fails, the file system stays as the first rename left it. -/
theorem bootstrap_compile_fails (binary_path : String) (rest : List String)
    (source_path : String) (more_paths : List String) (w w2 w3 : World) (cmd2 : Stitch_Cmd)
    (hstale : (stitch_needs_rebuild binary_path (source_path :: more_paths) w).1 = 1)
    (hren : stitch_rename binary_path (binary_path ++ ".old")
        (stitch_needs_rebuild binary_path (source_path :: more_paths) w).2 = (true, w2))
    (hcomp : stitch_cmd_run_sync_and_reset (compileCmd binary_path source_path) w2
        = (.ret (false, cmd2), w3)) :
    stitch__go_rebuild_urself (binary_path :: rest) source_path more_paths w
        = some (.exit 1, (stitch_rename (binary_path ++ ".old") binary_path w3).2) ∧
      (∃ added, (stitch_rename (binary_path ++ ".old") binary_path w3).2.trace
          = w3.trace ++ added ∧
        Effect.rename (binary_path ++ ".old") binary_path ∈ added ∧
        ∀ e ∈ added, e.isStderr = true ∨ e = .rename (binary_path ++ ".old") binary_path) ∧
      (stitch_rename (binary_path ++ ".old") binary_path w3).2.fork_results = w3.fork_results ∧
      (stitch_rename (binary_path ++ ".old") binary_path w3).2.children = w3.children ∧
      ((stitch_rename (binary_path ++ ".old") binary_path w3).1 = true →
        (stitch_rename (binary_path ++ ".old") binary_path w3).2.stat binary_path
            = w.stat binary_path ∧
          (stitch_rename (binary_path ++ ".old") binary_path w3).2.inode binary_path
            = w.inode binary_path) ∧
      (∃ t0, w.stat binary_path = .ok t0 ∧
        w2.stat binary_path = .fail ENOENT ∧
        w2.stat (binary_path ++ ".old") = .ok t0 ∧
        w2.inode (binary_path ++ ".old") = w.inode binary_path ∧
        (∀ p, p ≠ binary_path → p ≠ binary_path ++ ".old" →
          w2.stat p = w.stat p ∧ w2.inode p = w.inode p) ∧
        w3.stat = w2.stat ∧ w3.inode = w2.inode ∧
        ∃ added1, w2.trace
            = (stitch_needs_rebuild binary_path (source_path :: more_paths) w).2.trace ++ added1 ∧
          Effect.rename binary_path (binary_path ++ ".old") ∈ added1) ∧
      ((stitch_rename (binary_path ++ ".old") binary_path w3).1 = true →
        (stitch_rename (binary_path ++ ".old") binary_path w3).2.stat (binary_path ++ ".old")
            = .fail ENOENT ∧
          ∀ p, p ≠ binary_path → p ≠ binary_path ++ ".old" →
            (stitch_rename (binary_path ++ ".old") binary_path w3).2.stat p = w.stat p ∧
            (stitch_rename (binary_path ++ ".old") binary_path w3).2.inode p = w.inode p) ∧
      ((stitch_rename (binary_path ++ ".old") binary_path w3).1 = false →
        (stitch_rename (binary_path ++ ".old") binary_path w3).2.stat = w2.stat ∧
          (stitch_rename (binary_path ++ ".old") binary_path w3).2.inode = w2.inode) := by
  obtain ⟨htr, hfk, hch, _, hfail, hok⟩ :=
    stitch_rename_spec (binary_path ++ ".old") binary_path w3
  have hfirstspec := stitch_rename_spec binary_path (binary_path ++ ".old")
    (stitch_needs_rebuild binary_path (source_path :: more_paths) w).2
  rw [hren] at hfirstspec
  obtain ⟨htr1, _, _, _, _, hfirst⟩ := hfirstspec
  obtain ⟨t0, hs0, hst0, hin0⟩ := hfirst rfl (ne_append_old binary_path)
  have hq := sameFiles_needs_rebuild binary_path (source_path :: more_paths) w
  have hc := (run_sync_and_reset_spec (compileCmd binary_path source_path) w2).1
  rw [hcomp] at hc
  simp only at hst0 hin0 htr1
  have hne : binary_path ++ ".old" ≠ binary_path := Ne.symm (ne_append_old binary_path)
  have hw3 : w3.stat (binary_path ++ ".old") = .ok t0 := by
    rw [hc.1, hst0]
    simp
  have hother : ∀ p, p ≠ binary_path → p ≠ binary_path ++ ".old" →
      w2.stat p = w.stat p ∧ w2.inode p = w.inode p := by
    intro p hp1 hp2
    rw [hst0, hin0, hq.1, hq.2.1]
    simp [hp1, hp2]
  refine ⟨?_, htr, hfk, hch, fun hback => ?_, ?_, fun hback => ?_, fun hback => ?_⟩
  · have h1 : ¬ (stitch_needs_rebuild binary_path (source_path :: more_paths) w).1 < 0 := by
      rw [hstale]; decide
    have h2 : ¬ (stitch_needs_rebuild binary_path (source_path :: more_paths) w).1 = 0 := by
      rw [hstale]; decide
    simp only [stitch__go_rebuild_urself, stitch_shift, h1, h2, if_false,
      stitch__go_rebuild_urself_rebuild, hren, cmd_append_rebuild, hcomp,
      stitch__go_rebuild_urself_compiled]
    simp
  · obtain ⟨t1, hs1, hst1, hin1⟩ := hok hback hne
    rw [hw3] at hs1
    cases hs1
    constructor
    · rw [hst1, ← hq.1, hs0]
      simp
    · rw [hin1, hc.2.1, hin0, hq.2.1]
      simp
  · refine ⟨t0, by rw [← hq.1]; exact hs0, ?_, ?_, ?_, hother, hc.1, hc.2.1, ?_⟩
    · rw [hst0]
      simp [ne_append_old binary_path]
    · rw [hst0]
      simp
    · rw [hin0, hq.2.1]
      simp
    · obtain ⟨added1, h1, h2, _⟩ := htr1
      exact ⟨added1, h1, h2⟩
  · obtain ⟨t1, hs1, hst1, hin1⟩ := hok hback hne
    constructor
    · rw [hst1]
      simp [hne]
    · intro p hp1 hp2
      obtain ⟨ho1, ho2⟩ := hother p hp1 hp2
      rw [hst1, hin1, hc.1, hc.2.1, ← ho1, ← ho2]
      simp [hp1, hp2]
  · have hsf := hfail hback
    exact ⟨hsf.1.trans hc.1, hsf.2.1.trans hc.2.1⟩

theorem bootstrap_compile_fails_witness :
    (stitch_needs_rebuild "./stitch" ("stitch.c" :: ["foo.c"]) worldCompileFails).1 = 1 ∧
      (stitch__go_rebuild_urself ("./stitch" :: ["-v"]) "stitch.c" ["foo.c"]
        worldCompileFails).map (fun r => r.1) = some (.exit 1) ∧
      (stitch__go_rebuild_urself ("./stitch" :: ["-v"]) "stitch.c" ["foo.c"]
        worldCompileFails).map (fun r => (r.2.stat "./stitch", r.2.inode "./stitch"))
        = some (worldCompileFails.stat "./stitch", worldCompileFails.inode "./stitch") ∧
      (staleAfterRename worldCompileFails).stat "./stitch" = .fail ENOENT ∧
      (staleAfterRename worldCompileFails).stat "./stitch.old" = .ok 100 ∧
      (staleAfterRename worldCompileFails).inode "./stitch.old" = 1 ∧
      (stitch__go_rebuild_urself ("./stitch" :: ["-v"]) "stitch.c" ["foo.c"]
        worldCompileFails).map (fun r => r.2.stat "./stitch.old") = some (.fail ENOENT) :=
  ⟨by decide,
    by
      rw [(bootstrap_compile_fails "./stitch" ["-v"] "stitch.c" ["foo.c"] worldCompileFails
        (stitch_rename "./stitch" ("./stitch" ++ ".old")
          (stitch_needs_rebuild "./stitch" ("stitch.c" :: ["foo.c"]) worldCompileFails).2).2
        (stitch_cmd_run_sync_and_reset (compileCmd "./stitch" "stitch.c")
          (stitch_rename "./stitch" ("./stitch" ++ ".old")
            (stitch_needs_rebuild "./stitch" ("stitch.c" :: ["foo.c"]) worldCompileFails).2).2).2
        { compileCmd "./stitch" "stitch.c" with count := 0 }
        (by decide) (Prod.ext (by decide) rfl) (Prod.ext (by decide) rfl)).1]
      rfl,
    by decide, by decide, by decide, by decide, by decide⟩

/-- C17: `stitch__go_rebuild_urself`, called with an `argv` that an `int`
counts, always has an outcome, and it returns to its caller exactly when the
staleness query returned 0.  When the query returned anything else the outcome
is `exit(0)`, `exit(1)` or, on the child side of a `fork`, the load of another
program: the caller's code does not run. -/
theorem bootstrap_returns_iff_fresh (binary_path : String) (rest : List String)
    (source_path : String) (more_paths : List String) (w : World)
    (hargc : (binary_path :: rest).length < 2147483648) :
    ∃ o w1, stitch__go_rebuild_urself (binary_path :: rest) source_path more_paths w
        = some (o, w1) ∧
      (o = .ret () ↔
        (stitch_needs_rebuild binary_path (source_path :: more_paths) w).1 = 0) ∧
      ((stitch_needs_rebuild binary_path (source_path :: more_paths) w).1 ≠ 0 →
        o = .exit 0 ∨ o = .exit 1 ∨ o = .exec) := by
  simp only [stitch__go_rebuild_urself, stitch_shift]
  by_cases hneg : (stitch_needs_rebuild binary_path (source_path :: more_paths) w).1 < 0
  · have hne : (stitch_needs_rebuild binary_path (source_path :: more_paths) w).1 ≠ 0 := by
      omega
    refine ⟨.exit 1, (stitch_needs_rebuild binary_path (source_path :: more_paths) w).2,
      by simp [hneg], ?_, fun _ => Or.inr (Or.inl rfl)⟩
    constructor
    · intro h; cases h
    · intro h; exact absurd h hne
  · by_cases h0 : (stitch_needs_rebuild binary_path (source_path :: more_paths) w).1 = 0
    · refine ⟨.ret (), (stitch_needs_rebuild binary_path (source_path :: more_paths) w).2,
        by simp [h0], ?_, fun h => absurd h0 h⟩
      exact ⟨fun _ => h0, fun _ => rfl⟩
    · obtain ⟨o, w1, hr, ho⟩ := rebuild_never_returns binary_path source_path rest
        (stitch_needs_rebuild binary_path (source_path :: more_paths) w).2 hargc
      refine ⟨o, w1, by simp [hneg, h0, hr], ?_, fun _ => ho⟩
      constructor
      · intro h
        rcases ho with ho | ho | ho <;> rw [ho] at h <;> cases h
      · intro h; exact absurd h h0

theorem bootstrap_returns_iff_fresh_witness :
    ("./stitch" :: ["-v"]).length < 2147483648 ∧
      (stitch_needs_rebuild "./stitch" ("stitch.c" :: ["foo.c"]) worldRebuildOk).1 ≠ 0 ∧
      (stitch__go_rebuild_urself ("./stitch" :: ["-v"]) "stitch.c" ["foo.c"]
        worldRebuildOk).map (fun r => r.1) = some (.exit 0) ∧
      ∃ o w1, stitch__go_rebuild_urself ("./stitch" :: ["-v"]) "stitch.c" ["foo.c"]
          worldRebuildOk = some (o, w1) ∧
        (o = .ret () ↔
          (stitch_needs_rebuild "./stitch" ("stitch.c" :: ["foo.c"]) worldRebuildOk).1 = 0) ∧
        ((stitch_needs_rebuild "./stitch" ("stitch.c" :: ["foo.c"]) worldRebuildOk).1 ≠ 0 →
          o = .exit 0 ∨ o = .exit 1 ∨ o = .exec) :=
  ⟨by decide, by decide, by decide,
    bootstrap_returns_iff_fresh "./stitch" ["-v"] "stitch.c" ["foo.c"] worldRebuildOk
      (by decide)⟩

/-- C18: when the query says stale, the rename succeeds and the compile command
returns success, the command `stitch__go_rebuild_urself` then runs
synchronously has as arguments the executable path followed by `argv[1]`, ...,
`argv[argc-1]` in order, and the process exits with status 0 when that run
returns true and with status 1 when it returns false. -/
theorem bootstrap_relaunch (binary_path : String) (rest : List String)
    (source_path : String) (more_paths : List String) (w w2 w3 : World) (cmd2 : Stitch_Cmd)
    (hargc : (binary_path :: rest).length < 2147483648)
    (hstale : (stitch_needs_rebuild binary_path (source_path :: more_paths) w).1 = 1)
    (hren : stitch_rename binary_path (binary_path ++ ".old")
        (stitch_needs_rebuild binary_path (source_path :: more_paths) w).2 = (true, w2))
    (hcomp : stitch_cmd_run_sync_and_reset (compileCmd binary_path source_path) w2
        = (.ret (true, cmd2), w3)) :
    ∃ cmd, cmd.args = some binary_path :: rest.map some ∧
      stitch__go_rebuild_urself (binary_path :: rest) source_path more_paths w
        = some (stitch__go_rebuild_urself_relaunched (stitch_cmd_run_sync_and_reset cmd w3)) ∧
      (∀ w4, stitch_cmd_run_sync cmd w3 = (.ret true, w4) →
        stitch__go_rebuild_urself (binary_path :: rest) source_path more_paths w
          = some (.exit 0, w4)) ∧
      (∀ w4, stitch_cmd_run_sync cmd w3 = (.ret false, w4) →
        stitch__go_rebuild_urself (binary_path :: rest) source_path more_paths w
          = some (.exit 1, w4)) := by
  have hc0 : cmd2.count = 0 := by
    rcases (run_sync_and_reset_spec (compileCmd binary_path source_path) w2).2 with
      ⟨ok, _, h⟩ | h | h
    · rw [hcomp] at h
      injection h with h _
      injection h with h
      injection h with _ h
      rw [h]
    · rw [hcomp] at h; cases h
    · rw [hcomp] at h; cases h
  obtain ⟨cmd, hargs, hrel⟩ := relaunch_spec cmd2 binary_path rest w3 hc0 hargc
  have h1 : ¬ (stitch_needs_rebuild binary_path (source_path :: more_paths) w).1 < 0 := by
    rw [hstale]; decide
  have h2 : ¬ (stitch_needs_rebuild binary_path (source_path :: more_paths) w).1 = 0 := by
    rw [hstale]; decide
  have hmain : stitch__go_rebuild_urself (binary_path :: rest) source_path more_paths w
      = some (stitch__go_rebuild_urself_relaunched (stitch_cmd_run_sync_and_reset cmd w3)) := by
    simp only [stitch__go_rebuild_urself, stitch_shift, h1, h2, if_false,
      stitch__go_rebuild_urself_rebuild, hren, cmd_append_rebuild, hcomp,
      stitch__go_rebuild_urself_compiled]
    simpa using hrel
  refine ⟨cmd, hargs, hmain, fun w4 h => ?_, fun w4 h => ?_⟩
  · rw [hmain]
    simp [stitch_cmd_run_sync_and_reset, h, stitch__go_rebuild_urself_relaunched]
  · rw [hmain]
    simp [stitch_cmd_run_sync_and_reset, h, stitch__go_rebuild_urself_relaunched]

theorem bootstrap_relaunch_witness :
    (stitch_needs_rebuild "./stitch" ("stitch.c" :: ["foo.c"]) worldRelaunchFails).1 = 1 ∧
      (stitch__go_rebuild_urself ("./stitch" :: ["-v", "x y"]) "stitch.c" ["foo.c"]
        worldRelaunchFails).map (fun r => r.1) = some (.exit 1) ∧
      (stitch__go_rebuild_urself ("./stitch" :: ["-v", "x y"]) "stitch.c" ["foo.c"]
        worldRebuildOk).map (fun r => r.1) = some (.exit 0) ∧
      ∃ cmd, cmd.args = some "./stitch" :: ["-v", "x y"].map some ∧
        stitch__go_rebuild_urself ("./stitch" :: ["-v", "x y"]) "stitch.c" ["foo.c"]
            worldRelaunchFails
          = some (stitch__go_rebuild_urself_relaunched
              (stitch_cmd_run_sync_and_reset cmd (staleAfterCompile worldRelaunchFails))) ∧
        (∀ w4, stitch_cmd_run_sync cmd (staleAfterCompile worldRelaunchFails) = (.ret true, w4) →
          stitch__go_rebuild_urself ("./stitch" :: ["-v", "x y"]) "stitch.c" ["foo.c"]
              worldRelaunchFails
            = some (.exit 0, w4)) ∧
        (∀ w4, stitch_cmd_run_sync cmd (staleAfterCompile worldRelaunchFails)
            = (.ret false, w4) →
          stitch__go_rebuild_urself ("./stitch" :: ["-v", "x y"]) "stitch.c" ["foo.c"]
              worldRelaunchFails
            = some (.exit 1, w4)) :=
  ⟨by decide, by decide, by decide,
    bootstrap_relaunch "./stitch" ["-v", "x y"] "stitch.c" ["foo.c"] worldRelaunchFails
      (staleAfterRename worldRelaunchFails) (staleAfterCompile worldRelaunchFails)
      { compileCmd "./stitch" "stitch.c" with count := 0 }
      (by decide) (by decide) (Prod.ext (by decide) rfl) (Prod.ext (by decide) rfl)⟩

/-- C19: when the query says stale and the rename of the executable to the
backup path, the original path followed by `.old`, fails,
`stitch__go_rebuild_urself` ends in `exit(1)`; from the start of the call the
trace gains only `stat` calls, log lines and that one `rename` call (no
`fork`, no `execvp`, no `waitpid`), and the file system, the pending `fork`
answers and the children are unchanged. -/
theorem bootstrap_rename_fails (binary_path : String) (rest : List String)
    (source_path : String) (more_paths : List String) (w : World)
    (hstale : (stitch_needs_rebuild binary_path (source_path :: more_paths) w).1 = 1)
    (hren : (stitch_rename binary_path (binary_path ++ ".old")
        (stitch_needs_rebuild binary_path (source_path :: more_paths) w).2).1 = false) :
    ∃ w1 added, stitch__go_rebuild_urself (binary_path :: rest) source_path more_paths w
        = some (.exit 1, w1) ∧
      w1.trace = w.trace ++ added ∧
      Effect.rename binary_path (binary_path ++ ".old") ∈ added ∧
      (∀ e ∈ added, (e.isStat = true ∨ e.isStderr = true ∨
          e = .rename binary_path (binary_path ++ ".old")) ∧
        e.isProcessCreation = false ∧ e.isWait = false) ∧
      sameFiles w w1 ∧ w1.fork_results = w.fork_results ∧ w1.children = w.children := by
  obtain ⟨a1, hw1, ha1⟩ := needs_rebuild_world binary_path (source_path :: more_paths) w
  obtain ⟨⟨a2, htr, hmem, ha2⟩, hfk, hch, _, hfalse, _⟩ :=
    stitch_rename_spec binary_path (binary_path ++ ".old")
      (stitch_needs_rebuild binary_path (source_path :: more_paths) w).2
  have h1 : ¬ (stitch_needs_rebuild binary_path (source_path :: more_paths) w).1 < 0 := by
    rw [hstale]; decide
  have h2 : ¬ (stitch_needs_rebuild binary_path (source_path :: more_paths) w).1 = 0 := by
    rw [hstale]; decide
  refine ⟨(stitch_rename binary_path (binary_path ++ ".old")
      (stitch_needs_rebuild binary_path (source_path :: more_paths) w).2).2, a1 ++ a2,
    ?_, ?_, List.mem_append_right _ hmem, ?_, ?_, ?_, ?_⟩
  · simp only [stitch__go_rebuild_urself, stitch_shift, h1, h2, if_false,
      stitch__go_rebuild_urself_rebuild]
    rcases hr : stitch_rename binary_path (binary_path ++ ".old")
      (stitch_needs_rebuild binary_path (source_path :: more_paths) w).2 with ⟨ok, w1⟩
    rw [hr] at hren
    simp only at hren
    subst hren
    rfl
  · rw [htr, hw1, List.append_assoc]
  · intro e he
    rcases List.mem_append.mp he with he | he
    · rcases ha1 e he with h | h
      · cases e <;> simp_all [Effect.isStat, Effect.isProcessCreation, Effect.isWait]
      · cases e <;> simp_all [Effect.isStderr, Effect.isProcessCreation, Effect.isWait]
    · rcases ha2 e he with h | h
      · cases e <;> simp_all [Effect.isStderr, Effect.isProcessCreation, Effect.isWait]
      · subst h
        exact ⟨Or.inr (Or.inr rfl), rfl, rfl⟩
  · exact sameFiles_trans (sameFiles_needs_rebuild _ _ _) (hfalse hren)
  · rw [hfk, hw1]
  · rw [hch, hw1]

theorem bootstrap_rename_fails_witness :
    (stitch_needs_rebuild "./stitch" ("stitch.c" :: ["foo.c"]) worldRenameRefused).1 = 1 ∧
      (stitch_rename "./stitch" ("./stitch" ++ ".old")
        (stitch_needs_rebuild "./stitch" ("stitch.c" :: ["foo.c"]) worldRenameRefused).2).1
        = false ∧
      ∃ w1 added, stitch__go_rebuild_urself ("./stitch" :: ["-v"]) "stitch.c" ["foo.c"]
          worldRenameRefused = some (.exit 1, w1) ∧
        w1.trace = worldRenameRefused.trace ++ added ∧
        Effect.rename "./stitch" ("./stitch" ++ ".old") ∈ added ∧
        (∀ e ∈ added, (e.isStat = true ∨ e.isStderr = true ∨
            e = .rename "./stitch" ("./stitch" ++ ".old")) ∧
          e.isProcessCreation = false ∧ e.isWait = false) ∧
        sameFiles worldRenameRefused w1 ∧
        w1.fork_results = worldRenameRefused.fork_results ∧
        w1.children = worldRenameRefused.children :=
  ⟨by decide, by decide,
    bootstrap_rename_fails "./stitch" ["-v"] "stitch.c" ["foo.c"] worldRenameRefused
      (by decide) (by decide)⟩

/-- C20 (counterexample): the bootstrap is given the source `stitch.c` and the
additional path `foo.c`; seen from the child side of the `fork`, the program
loaded is `cc` with the arguments `cc -o ./stitch stitch.c`, and `foo.c` is not
among them. -/
theorem bootstrap_compile_omits_extra_path :
    (stitch__go_rebuild_urself ("./stitch" :: ["-v"]) "stitch.c" ["foo.c"]
        worldChildSide).map (fun r => (r.1, r.2.trace))
      = some (.exec,
          [.stat "./stitch", .stat "stitch.c",
            .stderr "[INFO] renaming ./stitch -> ./stitch.old\n",
            .rename "./stitch" "./stitch.old",
            .stderr "[INFO] CMD: cc -o ./stitch stitch.c\n", .fork,
            .execvp (some "cc")
              [some "cc", some "-o", some "./stitch", some "stitch.c", none]]) ∧
      some "foo.c" ∉ [some "cc", some "-o", some "./stitch", some "stitch.c", none] := by
  decide

/-- C20 (amended): when the query says stale and the rename succeeds, the
command `stitch__go_rebuild_urself` runs next has exactly the arguments `cc`,
`-o`, the original executable path and the first source path (the program's
own file), and the call continues from the result of that run; the additional
paths do not enter the command. -/
theorem bootstrap_compile_command (binary_path : String) (rest : List String)
    (source_path : String) (more_paths : List String) (w w2 : World)
    (hstale : (stitch_needs_rebuild binary_path (source_path :: more_paths) w).1 = 1)
    (hren : stitch_rename binary_path (binary_path ++ ".old")
        (stitch_needs_rebuild binary_path (source_path :: more_paths) w).2 = (true, w2)) :
    (compileCmd binary_path source_path).args
        = [some "cc", some "-o", some binary_path, some source_path] ∧
      stitch__go_rebuild_urself (binary_path :: rest) source_path more_paths w
        = stitch__go_rebuild_urself_compiled binary_path rest
            (stitch_cmd_run_sync_and_reset (compileCmd binary_path source_path) w2) := by
  have h1 : ¬ (stitch_needs_rebuild binary_path (source_path :: more_paths) w).1 < 0 := by
    rw [hstale]; decide
  have h2 : ¬ (stitch_needs_rebuild binary_path (source_path :: more_paths) w).1 = 0 := by
    rw [hstale]; decide
  refine ⟨rfl, ?_⟩
  simp only [stitch__go_rebuild_urself, stitch_shift, h1, h2, if_false,
    stitch__go_rebuild_urself_rebuild, hren, cmd_append_rebuild]

theorem bootstrap_compile_command_witness :
    (stitch_needs_rebuild "./stitch" ("stitch.c" :: ["foo.c"]) worldRebuildOk).1 = 1 ∧
      (compileCmd "./stitch" "stitch.c").args
        = [some "cc", some "-o", some "./stitch", some "stitch.c"] ∧
      stitch__go_rebuild_urself ("./stitch" :: ["-v"]) "stitch.c" ["foo.c"] worldRebuildOk
        = stitch__go_rebuild_urself_compiled "./stitch" ["-v"]
            (stitch_cmd_run_sync_and_reset (compileCmd "./stitch" "stitch.c")
              (staleAfterRename worldRebuildOk)) :=
  ⟨by decide,
    bootstrap_compile_command "./stitch" ["-v"] "stitch.c" ["foo.c"] worldRebuildOk
      (staleAfterRename worldRebuildOk) (by decide) (Prod.ext (by decide) rfl)⟩

/-! ## Logging: lemmas and claims -/

theorem stitch_log_error_default (msg : String) (w : World)
    (h : w.stitch_minimal_log_level = .STITCH_INFO) :
    stitch_log .STITCH_ERROR msg w = w.emit (.stderr ("[ERROR] " ++ msg ++ "\n")) := by
  simp [stitch_log, h, Stitch_Log_Level.toNat]

theorem stitch_log_info_default (msg : String) (w : World)
    (h : w.stitch_minimal_log_level = .STITCH_INFO) :
    stitch_log .STITCH_INFO msg w = w.emit (.stderr ("[INFO] " ++ msg ++ "\n")) := by
  simp [stitch_log, h, Stitch_Log_Level.toNat]

theorem isErrorLine_error (msg : String) :
    (Effect.stderr ("[ERROR] " ++ msg ++ "\n")).isErrorLine = true := by
  simp [Effect.isErrorLine, String.append_assoc]

theorem isErrorLine_info (msg : String) :
    (Effect.stderr ("[INFO] " ++ msg ++ "\n")).isErrorLine = false := by
  simp [Effect.isErrorLine, String.append_assoc, List.isPrefixOf]

/-- With the default threshold, a `stitch_log(STITCH_ERROR, ...)` call after
actions that hold no error line leaves exactly one error line. -/
theorem one_error_line (msg : String) (w w1 : World) (pre : List Effect)
    (hlevel : w1.stitch_minimal_log_level = .STITCH_INFO)
    (htrace : w1.trace = w.trace ++ pre) (hpre : pre.countP Effect.isErrorLine = 0) :
    ∃ added, (stitch_log .STITCH_ERROR msg w1).trace = w.trace ++ added ∧
      added.countP Effect.isErrorLine = 1 := by
  refine ⟨pre ++ [.stderr ("[ERROR] " ++ msg ++ "\n")], ?_, ?_⟩
  · rw [stitch_log_error_default msg w1 hlevel]
    simp [World.emit, htrace]
  · rw [List.countP_append, hpre]
    simp [List.countP_cons, isErrorLine_error]

/-- A call of the loop of `stitch_needs_rebuild` that answers -1 under the
default threshold has logged exactly one error line. -/
theorem needs_rebuild_loop_error_line (o : Int) (l : List String) :
    ∀ (w w1 : World) (pre : List Effect), w1.stitch_minimal_log_level = .STITCH_INFO →
      w1.trace = w.trace ++ pre → pre.countP Effect.isErrorLine = 0 →
      (stitch_needs_rebuild_loop o l w1).1 = -1 →
      ∃ added, (stitch_needs_rebuild_loop o l w1).2.trace = w.trace ++ added ∧
        added.countP Effect.isErrorLine = 1 := by
  induction l with
  | nil => intro w w1 pre _ _ _ h; simp [stitch_needs_rebuild_loop] at h
  | cons p ps ih =>
    intro w w1 pre hlevel htrace hpre h
    simp only [stitch_needs_rebuild_loop] at h ⊢
    cases hp : w1.stat p with
    | fail e =>
      simp only [hp]
      exact one_error_line _ w (w1.emit (.stat p)) (pre ++ [.stat p]) hlevel
        (by simp [World.emit, htrace])
        (by rw [List.countP_append, hpre]; simp [List.countP_cons, Effect.isErrorLine])
    | ok t =>
      simp only [hp] at h ⊢
      by_cases hn : toInt32 t > o
      · simp [hn] at h
      · simp only [hn, if_false] at h ⊢
        exact ih w (w1.emit (.stat p)) (pre ++ [.stat p]) hlevel
          (by simp [World.emit, htrace])
          (by rw [List.countP_append, hpre]; simp [List.countP_cons, Effect.isErrorLine]) h

/-- A call of the loop of `stitch_proc_wait` that answers false under the
default threshold has logged exactly one error line. -/
theorem proc_wait_loop_error_line (proc : Int) (l : List (SysResult Nat)) :
    ∀ (w w1 : World) (pre : List Effect), w1.stitch_minimal_log_level = .STITCH_INFO →
      w1.trace = w.trace ++ pre → pre.countP Effect.isErrorLine = 0 →
      (stitch_proc_wait_loop proc l w1).1 = false →
      ∃ added, (stitch_proc_wait_loop proc l w1).2.trace = w.trace ++ added ∧
        added.countP Effect.isErrorLine = 1 := by
  induction l with
  | nil =>
    intro w w1 pre hlevel htrace hpre _
    simp only [stitch_proc_wait_loop]
    exact one_error_line _ w (w1.emit (.waitpid proc)) (pre ++ [.waitpid proc]) hlevel
      (by simp [World.emit, htrace])
      (by rw [List.countP_append, hpre]; simp [List.countP_cons, Effect.isErrorLine])
  | cons r rs ih =>
    intro w w1 pre hlevel htrace hpre h
    have hw : ∀ msg, ∃ added,
        (stitch_log .STITCH_ERROR msg
          { w1.emit (.waitpid proc) with children := Function.update w1.children proc rs }).trace
          = w.trace ++ added ∧ added.countP Effect.isErrorLine = 1 := fun msg =>
      one_error_line msg w _ (pre ++ [.waitpid proc]) hlevel
        (by simp [World.emit, htrace])
        (by rw [List.countP_append, hpre]; simp [List.countP_cons, Effect.isErrorLine])
    simp only [stitch_proc_wait_loop] at h ⊢
    cases r with
    | fail e => exact hw _
    | ok s =>
      simp only at h ⊢
      by_cases hx : WIFEXITED s = true
      · simp only [hx, if_true] at h ⊢
        by_cases h0 : WEXITSTATUS s = 0
        · simp [h0] at h
        · simp only [ne_eq, h0, not_false_eq_true, if_true]
          exact hw _
      · simp only [hx] at h ⊢
        by_cases hs : WIFSIGNALED s = true
        · simp only [hs, if_true]
          exact hw _
        · simp only [hs] at h ⊢
          exact ih w _ (pre ++ [.waitpid proc]) hlevel
            (by simp [World.emit, htrace])
            (by rw [List.countP_append, hpre]; simp [List.countP_cons, Effect.isErrorLine]) h

/-- C21 (counterexample): `stitch_proc_wait` on `STITCH_INVALID_PROC` returns
false, its failure result, under the default threshold and logs nothing: the
trace is unchanged, with no error line. -/
theorem proc_wait_invalid_logs_nothing :
    worldWaitCases.stitch_minimal_log_level = .STITCH_INFO ∧
      (stitch_proc_wait STITCH_INVALID_PROC worldWaitCases).1 = false ∧
      (stitch_proc_wait STITCH_INVALID_PROC worldWaitCases).2.trace = worldWaitCases.trace ∧
      ((stitch_proc_wait STITCH_INVALID_PROC worldWaitCases).2.trace).countP
        Effect.isErrorLine = 0 := by
  decide

/-- A call of `stitch_cmd_run_sync` that returns false under the default
threshold has logged exactly one error line in the calling process. -/
theorem run_sync_false_error_line (w : World)
    (hlevel : w.stitch_minimal_log_level = .STITCH_INFO) (cmd : Stitch_Cmd)
    (h : (stitch_cmd_run_sync cmd w).1 = .ret false) :
    ∃ added, (stitch_cmd_run_sync cmd w).2.trace = w.trace ++ added ∧
      added.countP Effect.isErrorLine = 1 := by
  simp only [stitch_cmd_run_sync, stitch_cmd_run_async, stitch_cmd_run_async_redirect] at h ⊢
  by_cases hc : cmd.count < 1
  · simp only [hc, if_true]
    exact one_error_line _ w w [] hlevel (by simp) rfl
  · simp only [hc, if_false] at h ⊢
    rw [stitch_log_info_default _ w hlevel] at h ⊢
    have hinfo : ([Effect.stderr ("[INFO] " ++ ("CMD: " ++ stitch_cmd_render cmd "") ++ "\n"),
        Effect.fork] : List Effect).countP Effect.isErrorLine = 0 := by
      simp [List.countP_cons, isErrorLine_info, Effect.isErrorLine]
    unfold fork at h ⊢
    cases hf : w.fork_results with
    | nil =>
      simp only [World.emit, hf]
      exact one_error_line _ w _ _ hlevel (by simp) hinfo
    | cons r rs =>
      cases r with
      | fail e =>
        simp only [World.emit, hf]
        exact one_error_line _ w _ _ hlevel (by simp) hinfo
      | ok cpid =>
        simp only [World.emit, hf] at h ⊢
        by_cases h0 : cpid = 0
        · simp only [h0, if_true] at h
          rcases (async_child_spec cmd ⟨none, none, none⟩
            { w with
              trace := w.trace
                ++ [Effect.stderr ("[INFO] " ++ ("CMD: " ++ stitch_cmd_render cmd "") ++ "\n")]
                ++ [Effect.fork]
              fork_results := rs }).2 with hx | hx
          · rcases hch : stitch_cmd_run_async_redirect_child cmd ⟨none, none, none⟩
              { w with
                trace := w.trace
                  ++ [Effect.stderr
                    ("[INFO] " ++ ("CMD: " ++ stitch_cmd_render cmd "") ++ "\n")]
                  ++ [Effect.fork]
                fork_results := rs } with ⟨o, w2⟩
            rw [hch] at h hx
            simp only at hx
            subst hx
            simp at h
          · rcases hch : stitch_cmd_run_async_redirect_child cmd ⟨none, none, none⟩
              { w with
                trace := w.trace
                  ++ [Effect.stderr
                    ("[INFO] " ++ ("CMD: " ++ stitch_cmd_render cmd "") ++ "\n")]
                  ++ [Effect.fork]
                fork_results := rs } with ⟨o, w2⟩
            rw [hch] at h hx
            simp only at hx
            subst hx
            simp at h
        · have hne : (Int.ofNat cpid) ≠ STITCH_INVALID_PROC := by
            unfold STITCH_INVALID_PROC
            intro hh
            have hnn : (0 : Int) ≤ Int.ofNat cpid := Int.ofNat_nonneg cpid
            rw [hh] at hnn
            exact absurd hnn (by decide)
          simp only [h0, if_false, hne, stitch_proc_wait] at h ⊢
          refine proc_wait_loop_error_line (Int.ofNat cpid) _ w _ _ hlevel (by simp) hinfo ?_
          simpa using h

/-- The child of a synchronous run, under the default threshold and with a
`fork` that answers a child pid to the caller: when `execvp` fails the child
logs one error line and exits with status 1, otherwise it loads the program. -/
theorem forked_child_spec (w : World) (hlevel : w.stitch_minimal_log_level = .STITCH_INFO)
    (cmd : Stitch_Cmd) (cpid : Nat) (rs : List (SysResult Nat)) (hc : ¬ cmd.count < 1)
    (hf : w.fork_results = .ok cpid :: rs) (h0 : cpid ≠ 0) :
    (∀ e, w.execvp (cmd.items.headD none) = .fail e →
        run_sync_forked_child cmd w
          = some (.exit 1,
              [.execvp (cmd.items.headD none) (cmd.args ++ [none]),
               .stderr ("[ERROR] " ++ ("Could not exec child process: " ++ w.strerror e)
                 ++ "\n")])) ∧
      (w.execvp (cmd.items.headD none) = .ok () →
        run_sync_forked_child cmd w
          = some (.exec, [.execvp (cmd.items.headD none) (cmd.args ++ [none])])) := by
  constructor
  · intro e he
    unfold run_sync_forked_child
    simp only [hc, if_false]
    rw [stitch_log_info_default _ w hlevel]
    unfold fork
    simp only [World.emit, hf, h0, if_false]
    unfold stitch_cmd_run_async_redirect_child child_dup2
    simp only [he]
    simp [stitch_log, Stitch_Log_Level.toNat, hlevel, World.emit]
  · intro he
    unfold run_sync_forked_child
    simp only [hc, if_false]
    rw [stitch_log_info_default _ w hlevel]
    unfold fork
    simp only [World.emit, hf, h0, if_false]
    unfold stitch_cmd_run_async_redirect_child child_dup2
    simp only [he]
    simp [World.emit]

/-- A synchronous run that creates no child. -/
theorem forked_child_none (w : World) (hlevel : w.stitch_minimal_log_level = .STITCH_INFO)
    (cmd : Stitch_Cmd)
    (h : cmd.count < 1 ∨ w.fork_results = [] ∨ (∃ e rs, w.fork_results = .fail e :: rs) ∨
      ∃ rs, w.fork_results = .ok 0 :: rs) :
    run_sync_forked_child cmd w = none := by
  unfold run_sync_forked_child
  by_cases hc : cmd.count < 1
  · simp [hc]
  · simp only [hc, if_false]
    rw [stitch_log_info_default _ w hlevel]
    unfold fork
    rcases h with h | h | ⟨e, rs, h⟩ | ⟨rs, h⟩
    · exact absurd h hc
    · simp [World.emit, h]
    · simp [World.emit, h]
    · simp [World.emit, h]

/-- The error lines of a failed synchronous run, the child included: one, or
two when the child could not load the program. -/
theorem run_sync_error_lines_spec (w : World)
    (hlevel : w.stitch_minimal_log_level = .STITCH_INFO) (cmd : Stitch_Cmd)
    (h : (stitch_cmd_run_sync cmd w).1 = .ret false) :
    (run_sync_error_lines cmd w = 1 ∧
        ∀ acts, run_sync_forked_child cmd w ≠ some (.exit 1, acts)) ∨
      (run_sync_error_lines cmd w = 2 ∧
        ∃ e, w.execvp (cmd.items.headD none) = .fail e ∧
          run_sync_forked_child cmd w
            = some (.exit 1,
                [.execvp (cmd.items.headD none) (cmd.args ++ [none]),
                 .stderr ("[ERROR] " ++ ("Could not exec child process: " ++ w.strerror e)
                   ++ "\n")])) := by
  obtain ⟨added, htrace, hcount⟩ := run_sync_false_error_line w hlevel cmd h
  have hown : ((stitch_cmd_run_sync cmd w).2.trace.drop w.trace.length).countP
      Effect.isErrorLine = 1 := by
    rw [htrace, List.drop_left]
    exact hcount
  have hnone : run_sync_forked_child cmd w = none →
      (run_sync_error_lines cmd w = 1 ∧
        ∀ acts, run_sync_forked_child cmd w ≠ some (.exit 1, acts)) := by
    intro hn
    unfold run_sync_error_lines
    rw [hown, hn]
    exact ⟨rfl, fun acts hh => by cases hh⟩
  by_cases hc : cmd.count < 1
  · exact Or.inl (hnone (forked_child_none w hlevel cmd (Or.inl hc)))
  · cases hf : w.fork_results with
    | nil => exact Or.inl (hnone (forked_child_none w hlevel cmd (Or.inr (Or.inl hf))))
    | cons r rs =>
      cases r with
      | fail e =>
        exact Or.inl (hnone (forked_child_none w hlevel cmd (Or.inr (Or.inr (Or.inl ⟨e, rs, hf⟩)))))
      | ok cpid =>
        by_cases h0 : cpid = 0
        · subst h0
          exact Or.inl (hnone (forked_child_none w hlevel cmd (Or.inr (Or.inr (Or.inr ⟨rs, hf⟩)))))
        · obtain ⟨hfail, hexec⟩ := forked_child_spec w hlevel cmd cpid rs hc hf h0
          cases he : w.execvp (cmd.items.headD none) with
          | fail e =>
            refine Or.inr ⟨?_, e, rfl, hfail e he⟩
            unfold run_sync_error_lines
            rw [hown, hfail e he]
            simp [List.countP_cons, isErrorLine_error, Effect.isErrorLine]
          | ok u =>
            refine Or.inl ⟨?_, fun acts hh => ?_⟩
            · unfold run_sync_error_lines
              rw [hown, hexec he]
              simp [List.countP_cons, Effect.isErrorLine]
            · rw [hexec he] at hh
              cases hh

/-- C21 (amended): with the log threshold at its default, a call of
`stitch_proc_wait` on a handle other than `STITCH_INVALID_PROC` that returns
false and a call of `stitch_needs_rebuild` that returns -1 each add exactly one
error line to the trace, and a call of `stitch_cmd_run_sync` that returns false
adds exactly one error line in the calling process.  With the child of that
call counted as well, on the `stderr` it has from the caller, the call puts two
error lines on `stderr` when the child could not load the program (`execvp`
failed: the child logs its error and exits with status 1) and one error line in
every other case.  `stitch_proc_wait` on `STITCH_INVALID_PROC` returns false and
does nothing else. -/
theorem failure_logs_one_error_line (w : World)
    (hlevel : w.stitch_minimal_log_level = .STITCH_INFO) :
    (∀ proc, proc ≠ STITCH_INVALID_PROC → (stitch_proc_wait proc w).1 = false →
        ∃ added, (stitch_proc_wait proc w).2.trace = w.trace ++ added ∧
          added.countP Effect.isErrorLine = 1) ∧
      (∀ cmd, (stitch_cmd_run_sync cmd w).1 = .ret false →
        ∃ added, (stitch_cmd_run_sync cmd w).2.trace = w.trace ++ added ∧
          added.countP Effect.isErrorLine = 1) ∧
      (∀ output_path input_paths, (stitch_needs_rebuild output_path input_paths w).1 = -1 →
        ∃ added, (stitch_needs_rebuild output_path input_paths w).2.trace = w.trace ++ added ∧
          added.countP Effect.isErrorLine = 1) ∧
      stitch_proc_wait STITCH_INVALID_PROC w = (false, w) ∧
      (∀ cmd, (stitch_cmd_run_sync cmd w).1 = .ret false →
        (run_sync_error_lines cmd w = 1 ∧
            ∀ acts, run_sync_forked_child cmd w ≠ some (.exit 1, acts)) ∨
          (run_sync_error_lines cmd w = 2 ∧
            ∃ e, w.execvp (cmd.items.headD none) = .fail e ∧
              run_sync_forked_child cmd w
                = some (.exit 1,
                    [.execvp (cmd.items.headD none) (cmd.args ++ [none]),
                     .stderr ("[ERROR] " ++ ("Could not exec child process: " ++ w.strerror e)
                       ++ "\n")]))) ∧
      (∀ cmd cpid rs e, ¬ cmd.count < 1 → w.fork_results = .ok cpid :: rs → cpid ≠ 0 →
        w.execvp (cmd.items.headD none) = .fail e →
        (stitch_cmd_run_sync cmd w).1 = .ret false → run_sync_error_lines cmd w = 2) := by
  refine ⟨fun proc hp h => ?_, fun cmd h => run_sync_false_error_line w hlevel cmd h,
    fun output_path input_paths h => ?_, ?_,
    fun cmd h => run_sync_error_lines_spec w hlevel cmd h,
    fun cmd cpid rs e hc hf h0 he h => ?_⟩
  · simp only [stitch_proc_wait, hp, if_false] at h ⊢
    exact proc_wait_loop_error_line proc _ w w [] hlevel (by simp) rfl h
  · simp only [stitch_needs_rebuild] at h ⊢
    cases ho : w.stat output_path with
    | fail e =>
      simp only [ho] at h ⊢
      by_cases he : e = ENOENT
      · simp [he] at h
      · simp only [he, if_false]
        exact one_error_line _ w (w.emit (.stat output_path)) [.stat output_path] hlevel
          (by simp [World.emit]) (by simp [List.countP_cons, Effect.isErrorLine])
    | ok t =>
      simp only [ho] at h ⊢
      exact needs_rebuild_loop_error_line _ _ w (w.emit (.stat output_path))
        [.stat output_path] hlevel (by simp [World.emit])
        (by simp [List.countP_cons, Effect.isErrorLine]) h
  · simp [stitch_proc_wait]
  · rcases run_sync_error_lines_spec w hlevel cmd h with ⟨_, hno⟩ | ⟨h2, _⟩
    · exact absurd ((forked_child_spec w hlevel cmd cpid rs hc hf h0).1 e he) (hno _)
    · exact h2

theorem failure_logs_one_error_line_witness :
    worldExecFails.stitch_minimal_log_level = .STITCH_INFO ∧
      (stitch_cmd_run_sync ccCmd worldExecFails).1 = .ret false ∧
      (∃ added, (stitch_cmd_run_sync ccCmd worldExecFails).2.trace
          = worldExecFails.trace ++ added ∧ added.countP Effect.isErrorLine = 1) ∧
      run_sync_error_lines ccCmd worldExecFails = 2 :=
  ⟨by decide, by decide,
    (failure_logs_one_error_line worldExecFails (by decide)).2.1 ccCmd (by decide),
    (failure_logs_one_error_line worldExecFails (by decide)).2.2.2.2.2 ccCmd 70 [] ENOENT
      (by decide) (by decide) (by decide) (by decide) (by decide)⟩

/-- C22: `stitch_log` writes the message, as one line that starts with the tag
of its level, exactly when the level is not below `stitch_minimal_log_level`
and is not `STITCH_NO_LOGS`; otherwise it does nothing.  So a message at level
`STITCH_NO_LOGS` is never written and the threshold `STITCH_NO_LOGS` silences
every level.  The four rounds of the test print three, two, one and no lines. -/
theorem stitch_log_emits_iff (level : Stitch_Log_Level) (msg : String) (w : World) :
    (stitch_log level msg w = w.emit (.stderr (level.tag ++ msg ++ "\n")) ↔
        w.stitch_minimal_log_level.toNat ≤ level.toNat ∧ level ≠ .STITCH_NO_LOGS) ∧
      (¬ (w.stitch_minimal_log_level.toNat ≤ level.toNat ∧ level ≠ .STITCH_NO_LOGS) →
        stitch_log level msg w = w) ∧
      stitch_log .STITCH_NO_LOGS msg w = w ∧
      (w.stitch_minimal_log_level = .STITCH_NO_LOGS → stitch_log level msg w = w) ∧
      (log_test_messages worldEmpty).trace
        = [.stderr "[INFO] Info Test Message\n", .stderr "[WARNING] Warning Test Message\n",
            .stderr "[ERROR] Error Test Message\n"] ∧
      (log_test_messages { worldEmpty with stitch_minimal_log_level := .STITCH_WARNING }).trace
        = [.stderr "[WARNING] Warning Test Message\n", .stderr "[ERROR] Error Test Message\n"] ∧
      (log_test_messages { worldEmpty with stitch_minimal_log_level := .STITCH_ERROR }).trace
        = [.stderr "[ERROR] Error Test Message\n"] ∧
      (log_test_messages { worldEmpty with stitch_minimal_log_level := .STITCH_NO_LOGS }).trace
        = [] := by
  have hne : ∀ (x : Effect), w ≠ w.emit x := by
    intro x h
    have := congrArg (fun v => v.trace.length) h
    simp [World.emit] at this
  have hoff : ¬ (w.stitch_minimal_log_level.toNat ≤ level.toNat ∧ level ≠ .STITCH_NO_LOGS) →
      stitch_log level msg w = w := by
    intro h
    unfold stitch_log
    by_cases hlt : level.toNat < w.stitch_minimal_log_level.toNat
    · simp [hlt]
    · have hl : level = .STITCH_NO_LOGS := by
        by_contra hh
        exact h ⟨by omega, hh⟩
      subst hl
      simp
  have hon : w.stitch_minimal_log_level.toNat ≤ level.toNat ∧ level ≠ .STITCH_NO_LOGS →
      stitch_log level msg w = w.emit (.stderr (level.tag ++ msg ++ "\n")) := by
    rintro ⟨hle, hl⟩
    unfold stitch_log
    have hlt : ¬ level.toNat < w.stitch_minimal_log_level.toNat := by omega
    cases level <;> simp_all [Stitch_Log_Level.tag]
  refine ⟨⟨fun h => ?_, hon⟩, hoff, ?_, ?_, by decide, by decide, by decide, by decide⟩
  · by_contra hc
    rw [hoff hc] at h
    exact hne _ h
  · unfold stitch_log
    split
    · rfl
    · rfl
  · intro h
    apply hoff
    rintro ⟨hle, hl⟩
    rw [h] at hle
    cases level <;> simp_all [Stitch_Log_Level.toNat]

/-! ## Staleness scan: lemmas and claims -/

theorem filter_isStat_log (level : Stitch_Log_Level) (msg : String) (w : World) :
    (stitch_log level msg w).trace.filter Effect.isStat = w.trace.filter Effect.isStat := by
  rcases stitch_log_cases level msg w with h | ⟨t, h⟩
  · rw [h]
  · rw [h]
    simp [World.emit, Effect.isStat]

/-- The loop of `stitch_needs_rebuild` is the left-to-right scan over the
inputs as the code compares them, and it stats the inputs up to the deciding
one and no other. -/
theorem needs_rebuild_loop_scan (o : Int) (l : List String) :
    ∀ w : World,
      (stitch_needs_rebuild_loop o l w).1 = spec_scan (l.map (kindAsCompared w o)) ∧
      (stitch_needs_rebuild_loop o l w).2.trace.filter Effect.isStat
        = w.trace.filter Effect.isStat
          ++ (l.take (spec_scan_examined (l.map (kindAsCompared w o)))).map .stat := by
  induction l with
  | nil => intro w; simp [stitch_needs_rebuild_loop, spec_scan, spec_scan_examined]
  | cons p ps ih =>
    intro w
    simp only [stitch_needs_rebuild_loop, List.map_cons]
    cases hp : w.stat p with
    | fail e =>
      have hk : kindAsCompared w o p = .unstatable := by simp [kindAsCompared, hp]
      simp only [hk, spec_scan, spec_scan_examined, true_and]
      rw [filter_isStat_log]
      simp [World.emit, Effect.isStat]
    | ok t =>
      by_cases hn : toInt32 t > o
      · have hk : kindAsCompared w o p = .newer := by simp [kindAsCompared, hp, hn]
        simp [hk, hn, spec_scan, spec_scan_examined, World.emit, Effect.isStat]
      · have hk : kindAsCompared w o p = .older := by simp [kindAsCompared, hp, hn]
        simp only [hk, hn, if_false, spec_scan, spec_scan_examined]
        have hsame : kindAsCompared (w.emit (.stat p)) o = kindAsCompared w o := rfl
        obtain ⟨h1, h2⟩ := ih (w.emit (.stat p))
        rw [hsame] at h1 h2
        refine ⟨h1, ?_⟩
        rw [h2]
        simp [World.emit, Effect.isStat]

theorem spec_scan_range (l : List InputKind) :
    spec_scan l = -1 ∨ spec_scan l = 0 ∨ spec_scan l = 1 := by
  induction l with
  | nil => exact Or.inr (Or.inl rfl)
  | cons k ks ih =>
    cases k
    · exact Or.inl rfl
    · exact Or.inr (Or.inr rfl)
    · exact ih

/-- For an existing output, `stitch_needs_rebuild` is the left-to-right scan
over the inputs as the code compares them (each `st_mtime` stored in an `int`):
the first input that cannot be stat-ed or compares greater decides, the inputs
after it are not stat-ed, and the result is -1, 0 or 1. -/
theorem needs_rebuild_scan_as_compared (output_path : String) (input_paths : List String)
    (w : World) (t_o : Int) (hout : w.stat output_path = .ok t_o) :
    (stitch_needs_rebuild output_path input_paths w).1
        = spec_scan (input_paths.map (kindAsCompared w (toInt32 t_o))) ∧
      (stitch_needs_rebuild output_path input_paths w).2.trace.filter Effect.isStat
        = w.trace.filter Effect.isStat ++ .stat output_path ::
          (input_paths.take (spec_scan_examined
            (input_paths.map (kindAsCompared w (toInt32 t_o))))).map .stat ∧
      ((stitch_needs_rebuild output_path input_paths w).1 = -1 ∨
        (stitch_needs_rebuild output_path input_paths w).1 = 0 ∨
        (stitch_needs_rebuild output_path input_paths w).1 = 1) := by
  have hsame : kindAsCompared (w.emit (.stat output_path)) (toInt32 t_o)
      = kindAsCompared w (toInt32 t_o) := rfl
  obtain ⟨h1, h2⟩ := needs_rebuild_loop_scan (toInt32 t_o) input_paths
    (w.emit (.stat output_path))
  rw [hsame] at h1 h2
  have hres : (stitch_needs_rebuild output_path input_paths w).1
      = spec_scan (input_paths.map (kindAsCompared w (toInt32 t_o))) := by
    simp only [stitch_needs_rebuild, hout]
    exact h1
  refine ⟨hres, ?_, ?_⟩
  · simp only [stitch_needs_rebuild, hout]
    rw [h2]
    simp [World.emit, Effect.isStat]
  · rw [hres]
    exact spec_scan_range _

/-- Within the range of `int` the scan as the code compares is the scan by
modification time. -/
theorem needs_rebuild_scan_of_inInt32 (output_path : String) (input_paths : List String)
    (w : World) (t_o : Int) (hout : w.stat output_path = .ok t_o) (hto : inInt32 t_o)
    (hin : ∀ p ∈ input_paths, ∀ t, w.stat p = .ok t → inInt32 t) :
    (stitch_needs_rebuild output_path input_paths w).1
        = spec_scan (input_paths.map (kindByTime w t_o)) := by
  rw [(needs_rebuild_scan_as_compared output_path input_paths w t_o hout).1]
  congr 1
  apply List.map_congr_left
  intro p hp
  unfold kindAsCompared kindByTime
  cases hs : w.stat p with
  | fail e => rfl
  | ok t => simp only [toInt32_of_inInt32 t (hin p hp t hs), toInt32_of_inInt32 t_o hto]

/-- C28 (failing input): the output exists with modification time 1700000000,
the first input `in` exists and is strictly newer (2200000000), the second
input `gone` does not exist.  The scan by modification time is decided by `in`
and gives 1; `stitch_needs_rebuild` returns -1 and has stat-ed `gone`: stored
in an `int` the time of `in` is negative, so `in` does not decide. -/
theorem needs_rebuild_scan_passes_newer_input :
    world2039.stat "out" = .ok 1700000000 ∧
      ["in", "gone"].map (kindByTime world2039 1700000000) = [.newer, .unstatable] ∧
      spec_scan (["in", "gone"].map (kindByTime world2039 1700000000)) = 1 ∧
      spec_scan_examined (["in", "gone"].map (kindByTime world2039 1700000000)) = 1 ∧
      (stitch_needs_rebuild "out" ["in", "gone"] world2039).1 = -1 ∧
      (stitch_needs_rebuild "out" ["in", "gone"] world2039).2.trace.filter Effect.isStat
        = [.stat "out", .stat "in", .stat "gone"] := by
  decide

/-! ## Dynamic arrays of any item type: lemmas and claims -/

/-- C29 (failing input): with `expected_capacity = 2^63 + 1`, a value below
`SIZE_MAX`, and the capacity `STITCH_DA_INIT_CAP = 256`, the doubling loop is
still running after any number of tests of its condition: after 56 doublings
the `size_t` capacity is 0 and stays 0. -/
theorem reserve_loop_diverges :
    9223372036854775809 < SIZE_T_MOD ∧ 0 < STITCH_DA_INIT_CAP ∧
      (∀ fuel, stitch_da_reserve_loop 9223372036854775809 fuel STITCH_DA_INIT_CAP = none) ∧
      double_capacity^[55] STITCH_DA_INIT_CAP = 9223372036854775808 ∧
      double_capacity^[56] STITCH_DA_INIT_CAP = 0 ∧
      double_capacity 0 = 0 ∧
      stitch_da_reserve_capacity STITCH_DA_INIT_CAP 9223372036854775809 0 = none := by
  refine ⟨by decide, by decide, ?_, by decide, by decide, by decide, by decide⟩
  exact reserve_loop_never_ends 9223372036854775809 STITCH_DA_INIT_CAP (by decide)

/-- The slots written by `items[count++] = item` and by `memcpy` follow the old
items, for any item type. -/
theorem take_written_any {α : Type} (items new_items : List α) (count : Nat) :
    (items.take count ++ new_items ++ items.drop (count + new_items.length)).take
        (count + new_items.length)
      = items.take count ++ new_items := by
  by_cases h : count ≤ items.length
  · have hl : (items.take count ++ new_items).length = count + new_items.length := by
      simp [List.length_take, h]
    rw [List.take_append_of_le_length (by omega), List.take_of_length_le (by omega)]
  · have hd : items.drop (count + new_items.length) = [] :=
      List.drop_of_length_le (by omega)
    rw [hd, List.append_nil, List.take_of_length_le]
    simp only [List.length_append, List.length_take]
    omega

/-- One doubling is enough when the expected capacity is above the capacity
and at most twice the capacity, without overflow. -/
theorem reserve_loop_one_doubling (expected c : Nat) (h1 : c < expected)
    (h2 : expected ≤ c * 2) (h3 : c * 2 < SIZE_T_MOD) :
    stitch_da_reserve_loop expected 65 c = some (c * 2) := by
  have hmod : c * 2 % SIZE_T_MOD = c * 2 := Nat.mod_eq_of_lt h3
  rw [stitch_da_reserve_loop]
  simp only [gt_iff_lt, h1, if_true, hmod]
  rw [stitch_da_reserve_loop]
  have : ¬ c * 2 < expected := by omega
  simp [this]

/-- One `stitch_da_append` on an array that holds at least one item and whose
capacity is the least one for its count: the item is added behind the old ones
and the capacity is the least one for the new count. -/
theorem da_append_step {α : Type} (init_cap : Nat) (da : Stitch_Da α) (x : α)
    (hcount : 0 < da.count)
    (hsz : da.count + 1 ≤ 9223372036854775808)
    (hinv : isLeastCapacity init_cap da.count da.capacity) :
    ∃ d, da.stitch_da_append init_cap x = some d ∧ d.count = da.count + 1 ∧
      d.items.take d.count = da.items.take da.count ++ [x] ∧
      isLeastCapacity init_cap d.count d.capacity := by
  obtain ⟨k, hk, hle, hleast⟩ := hinv
  have hlt : da.count + 1 < SIZE_T_MOD := by unfold SIZE_T_MOD; omega
  have hmod : (da.count + 1) % SIZE_T_MOD = da.count + 1 := Nat.mod_eq_of_lt hlt
  have htake := take_written_any da.items [x] da.count
  simp only [List.length_singleton] at htake
  by_cases hfit : da.count + 1 ≤ da.capacity
  · refine ⟨{ items := da.items.take da.count ++ [x] ++ da.items.drop (da.count + 1),
              count := da.count + 1, capacity := da.capacity }, ?_, rfl, htake, ?_⟩
    · have hn : ¬ da.count + 1 > da.capacity := by omega
      simp [Stitch_Da.stitch_da_append, Stitch_Da.stitch_da_reserve,
        stitch_da_reserve_capacity, hmod, hn]
    · exact ⟨k, hk, hfit, fun j hj => hleast j (Nat.le_of_succ_le hj)⟩
  · have hcap : da.capacity = da.count := by omega
    have hne : da.capacity ≠ 0 := by omega
    have hloop := reserve_loop_one_doubling (da.count + 1) da.capacity (by omega) (by omega)
      (by unfold SIZE_T_MOD; omega)
    refine ⟨{ items := da.items.take da.count ++ [x] ++ da.items.drop (da.count + 1),
              count := da.count + 1, capacity := da.capacity * 2 }, ?_, rfl, htake, ?_⟩
    · have hgt : da.count + 1 > da.capacity := by omega
      simp [Stitch_Da.stitch_da_append, Stitch_Da.stitch_da_reserve,
        stitch_da_reserve_capacity, hmod, hgt, hne, hloop]
    · refine ⟨k + 1, by rw [hk, pow_succ, Nat.mul_assoc], by simp only; omega, fun j hj => ?_⟩
      by_contra hjk
      have hjle : j ≤ k := by omega
      have hpow : init_cap * 2 ^ j ≤ init_cap * 2 ^ k :=
        Nat.mul_le_mul_left _ (Nat.pow_le_pow_right (by decide) hjle)
      simp only at hj
      omega

/-- Successive appends on an array that holds at least one item and whose
capacity is the least one for its count. -/
theorem da_append_all_step {α : Type} (init_cap : Nat) (xs : List α) :
    ∀ da : Stitch_Da α, 0 < da.count → da.count + xs.length ≤ 9223372036854775808 →
      isLeastCapacity init_cap da.count da.capacity →
      ∃ d, da_append_all init_cap xs da = some d ∧ d.count = da.count + xs.length ∧
        d.items.take d.count = da.items.take da.count ++ xs ∧
        isLeastCapacity init_cap d.count d.capacity := by
  induction xs with
  | nil => intro da _ _ hinv; exact ⟨da, rfl, by simp, by simp, hinv⟩
  | cons x rest ih =>
    intro da hcount hsz hinv
    simp only [List.length_cons] at hsz
    obtain ⟨d1, h1, hc1, hi1, hinv1⟩ := da_append_step init_cap da x hcount (by omega) hinv
    obtain ⟨d, h2, hc2, hi2, hinv2⟩ := ih d1 (by omega) (by omega) hinv1
    refine ⟨d, by simp [da_append_all, h1, h2], by simp only [List.length_cons]; omega, ?_,
      hinv2⟩
    rw [hi2, hi1]
    simp

/-- C24: starting from the empty array, `n >= 1` calls of `stitch_da_append`
with the items `x1..xn` (a count that fits in memory, `STITCH_DA_INIT_CAP`
above 0) give an array with count `n`, the items `x1..xn` in order in its
first `n` slots, and as capacity the least value of the form
`STITCH_DA_INIT_CAP * 2^k` that is at least `n`; so the count is at most the
capacity. -/
theorem da_append_all_spec {α : Type} (init_cap : Nat) (xs : List α) (h0 : 0 < init_cap)
    (_hinit : init_cap < SIZE_T_MOD) (hne : xs ≠ [])
    (hlen : xs.length ≤ 9223372036854775808) :
    ∃ da, da_append_all init_cap xs { items := [], count := 0, capacity := 0 } = some da ∧
      da.count = xs.length ∧ da.items.take da.count = xs ∧
      isLeastCapacity init_cap xs.length da.capacity ∧ da.count ≤ da.capacity := by
  cases xs with
  | nil => exact absurd rfl hne
  | cons x rest =>
    simp only [List.length_cons] at hlen
    have hfirst : (Stitch_Da.stitch_da_append init_cap
        ({ items := [], count := 0, capacity := 0 } : Stitch_Da α) x)
        = some { items := [x], count := 1, capacity := init_cap } := by
      have h1 : 1 % SIZE_T_MOD = 1 := by decide
      have h2 : ¬ 1 > init_cap := by omega
      simp only [Stitch_Da.stitch_da_append, Stitch_Da.stitch_da_reserve,
        stitch_da_reserve_capacity, Nat.zero_add, h1]
      rw [stitch_da_reserve_loop]
      simp [h2, h1]
    obtain ⟨d, h2, hc2, hi2, hinv2⟩ := da_append_all_step init_cap rest
      { items := [x], count := 1, capacity := init_cap } Nat.one_pos
      (by simp only; omega)
      ⟨0, by simp, by simp only; omega, fun j _ => Nat.zero_le j⟩
    simp only at hc2 hi2
    have hcount : d.count = (x :: rest).length := by
      simp only [List.length_cons]; omega
    refine ⟨d, by simp [da_append_all, hfirst, h2], hcount, by simpa using hi2, ?_, ?_⟩
    · rw [← hcount]; exact hinv2
    · obtain ⟨k, _, hle, _⟩ := hinv2
      exact hle

theorem da_append_all_spec_witness :
    da_append_capacities 4 [0, 1, 2, 3, 4, 5, 6, 7, 8, 9]
        ({ items := [], count := 0, capacity := 0 } : Stitch_Da Nat)
      = [4, 4, 4, 4, 8, 8, 8, 8, 16, 16] ∧
    da_append_all 4 [0, 1, 2, 3, 4, 5, 6, 7, 8, 9]
        ({ items := [], count := 0, capacity := 0 } : Stitch_Da Nat)
      = some { items := [0, 1, 2, 3, 4, 5, 6, 7, 8, 9], count := 10, capacity := 16 } ∧
    ∃ da, da_append_all 4 [0, 1, 2, 3, 4, 5, 6, 7, 8, 9]
        ({ items := [], count := 0, capacity := 0 } : Stitch_Da Nat) = some da ∧
      da.count = [0, 1, 2, 3, 4, 5, 6, 7, 8, 9].length ∧
      da.items.take da.count = [0, 1, 2, 3, 4, 5, 6, 7, 8, 9] ∧
      isLeastCapacity 4 [0, 1, 2, 3, 4, 5, 6, 7, 8, 9].length da.capacity ∧
      da.count ≤ da.capacity :=
  ⟨by decide, by decide,
    da_append_all_spec 4 [0, 1, 2, 3, 4, 5, 6, 7, 8, 9] (by decide) (by decide) (by decide)
      (by decide)⟩

/-- Up to `new_size = 2^63` (and with `STITCH_DA_INIT_CAP` above 0)
`stitch_da_resize` ends, sets the count to `new_size`, does not decrease the
capacity, leaves it unchanged when `new_size` is at most the capacity and makes
it at least `new_size` otherwise, and leaves the stored items where they are,
so the first `min(old count, new_size)` items are preserved. -/
theorem da_resize_spec {α : Type} (init_cap : Nat) (da : Stitch_Da α) (new_size : Nat)
    (h0 : 0 < init_cap) (hsz : new_size ≤ 9223372036854775808) :
    ∃ d, da.stitch_da_resize init_cap new_size = some d ∧ d.count = new_size ∧
      da.capacity ≤ d.capacity ∧ new_size ≤ d.capacity ∧
      (new_size ≤ da.capacity → d.capacity = da.capacity) ∧
      d.items = da.items ∧
      d.items.take (min da.count new_size) = da.items.take (min da.count new_size) := by
  obtain ⟨c1, h1, h2, h3⟩ := reserve_capacity_ok init_cap new_size da.capacity h0 hsz
  refine ⟨{ items := da.items, count := new_size, capacity := c1 }, ?_, rfl, h3, h2, ?_,
    rfl, rfl⟩
  · simp [Stitch_Da.stitch_da_resize, Stitch_Da.stitch_da_reserve, h1]
  · intro hle
    have hn : ¬ new_size > da.capacity := by omega
    simp only [stitch_da_reserve_capacity, hn, if_false] at h1
    injection h1 with h1
    exact h1.symm

theorem da_resize_spec_witness :
    da_append_all 4 [69, 420, 1337] ({ items := [], count := 0, capacity := 0 } : Stitch_Da Nat)
      = some { items := [69, 420, 1337], count := 3, capacity := 4 } ∧
    Stitch_Da.stitch_da_resize 4
        ({ items := [69, 420, 1337], count := 3, capacity := 4 } : Stitch_Da Nat) 1
      = some { items := [69, 420, 1337], count := 1, capacity := 4 } ∧
    Stitch_Da.stitch_da_resize 4
        ({ items := [69, 420, 1337], count := 1, capacity := 4 } : Stitch_Da Nat) 10
      = some { items := [69, 420, 1337], count := 10, capacity := 16 } ∧
    ∃ d, Stitch_Da.stitch_da_resize 4
        ({ items := [69, 420, 1337], count := 1, capacity := 4 } : Stitch_Da Nat) 10 = some d ∧
      d.count = 10 ∧ 4 ≤ d.capacity ∧ 10 ≤ d.capacity ∧ (10 ≤ 4 → d.capacity = 4) ∧
      d.items = [69, 420, 1337] ∧
      d.items.take (min 1 10) = [69, 420, 1337].take (min 1 10) :=
  ⟨by decide, by decide, by decide,
    da_resize_spec 4 ({ items := [69, 420, 1337], count := 1, capacity := 4 } : Stitch_Da Nat)
      10 (by decide) (by decide)⟩

/-- C25 (failing input): with `STITCH_DA_INIT_CAP = 4`, the array of the test
after its three appends (count 3, capacity 4) and `new_size = 2^63 + 1`, a
value below `SIZE_MAX`: `stitch_da_resize` has no result, because its doubling
loop is still running after any number of tests of its condition; the capacity
goes 4, 8, ..., `2^63`, wraps to 0 and stays 0.  The count is never set. -/
theorem da_resize_never_returns :
    da_append_all 4 [69, 420, 1337] ({ items := [], count := 0, capacity := 0 } : Stitch_Da Nat)
      = some { items := [69, 420, 1337], count := 3, capacity := 4 } ∧
    9223372036854775809 < SIZE_T_MOD ∧
    Stitch_Da.stitch_da_resize 4
        ({ items := [69, 420, 1337], count := 3, capacity := 4 } : Stitch_Da Nat)
        9223372036854775809 = none ∧
    (∀ fuel, stitch_da_reserve_loop 9223372036854775809 fuel 4 = none) ∧
    double_capacity^[61] 4 = 9223372036854775808 ∧
    double_capacity^[62] 4 = 0 ∧
    double_capacity 0 = 0 := by
  refine ⟨by decide, by decide, by decide, ?_, by decide, by decide, by decide⟩
  exact reserve_loop_never_ends 9223372036854775809 4 (by decide)

/-! ## Temporary allocator: lemmas and claims -/

/-- A call of `stitch_temp_alloc` that returns `NULL` leaves `stitch_temp_size`
unchanged. -/
theorem temp_alloc_null (size t : Nat) (h : (stitch_temp_alloc size t).1 = none) :
    (stitch_temp_alloc size t).2 = t := by
  unfold stitch_temp_alloc at h ⊢
  split
  · rfl
  · rename_i hn
    simp [hn] at h

/-- Without overflow of the `size_t` sum (every size at most `2^63`), starting
from `stitch_temp_size <= STITCH_TEMP_CAPACITY`: every region returned lies
inside the buffer and starts at or after the starting size, the regions are
pairwise disjoint, and the final size is within the capacity. -/
theorem temp_alloc_all_safe (sizes : List Nat) :
    ∀ t : Nat, t ≤ STITCH_TEMP_CAPACITY → (∀ size ∈ sizes, size ≤ 9223372036854775808) →
      (∀ r ∈ (temp_alloc_all sizes t).1, regionInside r ∧ t ≤ r.1) ∧
      (temp_alloc_all sizes t).1.Pairwise regionsDisjoint ∧
      (temp_alloc_all sizes t).2 ≤ STITCH_TEMP_CAPACITY := by
  induction sizes with
  | nil => intro t ht _; simp [temp_alloc_all, ht]
  | cons size rest ih =>
    intro t ht hs
    have hsize : size ≤ 9223372036854775808 := hs size (List.mem_cons_self _ _)
    have hrest : ∀ x ∈ rest, x ≤ 9223372036854775808 :=
      fun x hx => hs x (List.mem_cons_of_mem _ hx)
    have hcap : STITCH_TEMP_CAPACITY = 8388608 := by decide
    have hmod : (t + size) % SIZE_T_MOD = t + size :=
      Nat.mod_eq_of_lt (by unfold SIZE_T_MOD; omega)
    by_cases hgt : t + size > STITCH_TEMP_CAPACITY
    · have hr : temp_alloc_all (size :: rest) t = temp_alloc_all rest t := by
        simp [temp_alloc_all, stitch_temp_alloc, hmod, hgt]
      rw [hr]
      exact ih t ht hrest
    · have hr : temp_alloc_all (size :: rest) t
          = ((t, size) :: (temp_alloc_all rest (t + size)).1,
              (temp_alloc_all rest (t + size)).2) := by
        simp [temp_alloc_all, stitch_temp_alloc, hmod, hgt]
      rw [hr]
      obtain ⟨h1, h2, h3⟩ := ih (t + size) (by omega) hrest
      refine ⟨?_, ?_, h3⟩
      · intro r hr1
        rcases List.mem_cons.mp hr1 with rfl | hr1
        · exact ⟨by unfold regionInside; simp only; omega, le_refl t⟩
        · obtain ⟨hin, hle⟩ := h1 r hr1
          exact ⟨hin, by omega⟩
      · refine List.pairwise_cons.mpr ⟨fun r hr1 => ?_, h2⟩
        obtain ⟨_, hle⟩ := h1 r hr1
        exact Or.inl hle

/-- C27 (failing input): from `stitch_temp_size = 0`, the calls
`stitch_temp_alloc(16)`, `stitch_temp_alloc(2^64 - 8)`, `stitch_temp_alloc(16)`
all return non-`NULL`.  The `size_t` sum `16 + (2^64 - 8)` wraps to 8 and
passes the capacity test, so the second call returns offset 16 for a region
that does not lie inside the buffer and sets `stitch_temp_size` to 8; the third
call returns offset 8, a region that overlaps the first one. -/
theorem temp_alloc_overflow :
    temp_alloc_all [16, 18446744073709551608, 16] 0
        = ([(0, 16), (16, 18446744073709551608), (8, 16)], 24) ∧
      0 ≤ STITCH_TEMP_CAPACITY ∧ 18446744073709551608 < SIZE_T_MOD ∧
      stitch_temp_alloc 18446744073709551608 16 = (some 16, 8) ∧
      ¬ regionInside (16, 18446744073709551608) ∧
      ¬ regionsDisjoint (8, 16) (0, 16) := by
  decide

/-! ## String views and paths: lemmas and claims -/

theorem take_length_takeWhile {α : Type} (p : α → Bool) (l : List α) :
    l.take (l.takeWhile p).length = l.takeWhile p := by
  induction l with
  | nil => rfl
  | cons x xs ih =>
    by_cases h : p x = true
    · simp [List.takeWhile_cons, h, ih]
    · simp [List.takeWhile_cons, h]

/-- C23: for a string view whose `count` bytes exist and a C string,
`stitch_sv_end_with` is true exactly when the bytes of the C string are a
suffix of the bytes of the view; so it is true for the empty C string, true
for a C string equal to the view, and false for a C string longer than the
view. -/
theorem sv_end_with_iff_suffix (sv : Stitch_String_View) (cstr : List Char)
    (hwf : sv.count ≤ sv.data.length) :
    (stitch_sv_end_with sv cstr = true ↔ cstr_bytes cstr <:+ sv.bytes) ∧
      (cstr_bytes cstr = [] → stitch_sv_end_with sv cstr = true) ∧
      (cstr_bytes cstr = sv.bytes → stitch_sv_end_with sv cstr = true) ∧
      (sv.count < strlen cstr → stitch_sv_end_with sv cstr = false) := by
  have hlen : sv.bytes.length = sv.count := by
    simp [Stitch_String_View.bytes, List.length_take, hwf]
  have hiff : stitch_sv_end_with sv cstr = true ↔ cstr_bytes cstr <:+ sv.bytes := by
    unfold stitch_sv_end_with
    by_cases hge : sv.count ≥ strlen cstr
    · have htake : cstr.take (strlen cstr) = cstr_bytes cstr := by
        unfold strlen cstr_bytes
        exact take_length_takeWhile _ _
      have hdrop : (sv.data.drop (sv.count - strlen cstr)).take (strlen cstr)
          = sv.bytes.drop (sv.bytes.length - (cstr_bytes cstr).length) := by
        rw [hlen]
        unfold Stitch_String_View.bytes
        rw [List.drop_take]
        congr 1
        unfold strlen at hge ⊢
        omega
      simp only [hge, if_true, stitch_sv_eq, stitch_sv_from_parts, stitch_sv_from_cstr,
        ne_eq, not_true_eq_false, if_false, memcmp_eq, htake, hdrop, beq_iff_eq]
      rw [List.suffix_iff_eq_drop]
      exact eq_comm
    · simp only [hge, if_false]
      constructor
      · intro h; cases h
      · intro h
        have := h.length_le
        rw [hlen] at this
        unfold strlen at hge
        omega
  refine ⟨hiff, fun h => ?_, fun h => ?_, fun h => ?_⟩
  · rw [hiff, h]
    exact List.nil_suffix
  · rw [hiff, h]
  · cases hb : stitch_sv_end_with sv cstr
    · rfl
    · have := (hiff.mp hb).length_le
      rw [hlen] at this
      unfold strlen at h
      omega

theorem sv_end_with_iff_suffix_witness :
    (stitch_sv_from_cstr "./example.exe".data).count
        ≤ (stitch_sv_from_cstr "./example.exe".data).data.length ∧
      stitch_sv_end_with (stitch_sv_from_cstr "./example.exe".data) ".exe".data = true ∧
      stitch_sv_end_with (stitch_sv_from_cstr "./example.exe".data) "./example.exe".data
        = true ∧
      stitch_sv_end_with (stitch_sv_from_cstr "./example.exe".data) "e".data = true ∧
      stitch_sv_end_with (stitch_sv_from_cstr "./example.exe".data) "".data = true ∧
      stitch_sv_end_with (stitch_sv_from_cstr "".data) "".data = true ∧
      stitch_sv_end_with (stitch_sv_from_cstr "./example.exe".data) ".png".data = false ∧
      stitch_sv_end_with (stitch_sv_from_cstr "./example.exe".data)
        "/path/to/example.exe".data = false ∧
      stitch_sv_end_with (stitch_sv_from_cstr "".data) ".obj".data = false :=
  ⟨by decide,
    (sv_end_with_iff_suffix (stitch_sv_from_cstr "./example.exe".data) ".exe".data
      (by decide)).1.mpr (by decide),
    by decide, by decide, by decide, by decide, by decide, by decide, by decide⟩

theorem strrchr_none (s : List Char) (c : Char) : strrchr s c = none ↔ c ∉ s := by
  induction s with
  | nil => simp [strrchr]
  | cons x xs ih =>
    rw [strrchr]
    cases h : strrchr xs c with
    | some i =>
      have hin : c ∈ xs := by
        by_contra hc
        rw [ih.mpr hc] at h
        cases h
      simp [hin]
    | none =>
      have hnot : c ∉ xs := ih.mp h
      by_cases hx : x = c
      · simp [hx]
      · simp [hx, hnot, Ne.symm hx]

/-- What `strrchr` finds: the character stands at the index and does not occur
after it. -/
theorem strrchr_some (s : List Char) (c : Char) :
    ∀ i, strrchr s c = some i → s = s.take i ++ c :: s.drop (i + 1) ∧ c ∉ s.drop (i + 1) := by
  induction s with
  | nil => intro i h; simp [strrchr] at h
  | cons x xs ih =>
    intro i h
    rw [strrchr] at h
    cases hx : strrchr xs c with
    | some j =>
      rw [hx] at h
      simp only [Option.some.injEq] at h
      subst h
      obtain ⟨h1, h2⟩ := ih j hx
      refine ⟨?_, by simpa using h2⟩
      simp only [List.take_succ_cons, List.drop_succ_cons, List.cons_append]
      rw [← h1]
    | none =>
      rw [hx] at h
      by_cases hc : x = c
      · simp only [hc, if_true, Option.some.injEq] at h
        subst h
        subst hc
        exact ⟨by simp, by simpa using (strrchr_none xs x).mp hx⟩
      · simp [hc] at h

/-- C26: `stitch_path_name` returns the part of the path after its last `/`,
and the whole path when it holds no `/`: the result holds no `/`, is a suffix
of the path, and when the path holds a `/` the result is what follows one. -/
theorem path_name_spec (path : List Char) :
    '/' ∉ stitch_path_name path ∧
      stitch_path_name path <:+ cstr_bytes path ∧
      ('/' ∉ cstr_bytes path → stitch_path_name path = cstr_bytes path) ∧
      ('/' ∈ cstr_bytes path →
        ∃ pre, cstr_bytes path = pre ++ '/' :: stitch_path_name path) ∧
      stitch_path_name "/path/to/a/file.c".data = "file.c".data ∧
      stitch_path_name "/path/to/a/directory".data = "directory".data ∧
      stitch_path_name "file.c".data = "file.c".data := by
  refine ⟨?_, ?_, ?_, ?_, by decide, by decide, by decide⟩
  · unfold stitch_path_name
    cases h : strrchr (cstr_bytes path) '/' with
    | none => exact (strrchr_none _ _).mp h
    | some i => exact (strrchr_some _ _ i h).2
  · unfold stitch_path_name
    cases h : strrchr (cstr_bytes path) '/' with
    | none => exact List.suffix_refl _
    | some i => exact List.drop_suffix _ _
  · intro hn
    unfold stitch_path_name
    rw [(strrchr_none _ _).mpr hn]
  · intro hin
    unfold stitch_path_name
    cases h : strrchr (cstr_bytes path) '/' with
    | none => exact absurd hin ((strrchr_none _ _).mp h)
    | some i => exact ⟨(cstr_bytes path).take i, (strrchr_some _ _ i h).1⟩

/-- The loop of `stitch_sv_chop_by_delim` stops after the bytes of the view
that stand before the first `delim`. -/
theorem chop_loop_eq (delim : Char) (data : List Char) :
    ∀ n, stitch_sv_chop_by_delim_loop delim data n
      = ((data.take n).takeWhile (fun c => c != delim)).length := by
  induction data with
  | nil => intro n; simp [stitch_sv_chop_by_delim_loop]
  | cons c cs ih =>
    intro n
    cases n with
    | zero => simp [stitch_sv_chop_by_delim_loop]
    | succ m =>
      by_cases hc : c = delim
      · simp [stitch_sv_chop_by_delim_loop, hc, List.takeWhile_cons]
      · simp [stitch_sv_chop_by_delim_loop, hc, List.takeWhile_cons, ih m]

/-- C30: for a string view whose `count` bytes exist and a delimiter `d`,
`stitch_sv_chop_by_delim` returns the longest prefix of the view without `d`
(a prefix without `d`, and no prefix without `d` is longer).  When `d` occurs
in the view, the result, then `d`, then the view left behind make up the
original view; when `d` does not occur, the result is the whole view and the
view left behind is empty. -/
theorem sv_chop_by_delim_spec (sv : Stitch_String_View) (d : Char)
    (hwf : sv.count ≤ sv.data.length) :
    (stitch_sv_chop_by_delim sv d).1.bytes = sv.bytes.takeWhile (fun c => c != d) ∧
      (stitch_sv_chop_by_delim sv d).1.bytes <+: sv.bytes ∧
      d ∉ (stitch_sv_chop_by_delim sv d).1.bytes ∧
      (∀ p, p <+: sv.bytes → d ∉ p →
        p.length ≤ (stitch_sv_chop_by_delim sv d).1.bytes.length) ∧
      (d ∈ sv.bytes →
        (stitch_sv_chop_by_delim sv d).1.bytes ++ d :: (stitch_sv_chop_by_delim sv d).2.bytes
          = sv.bytes) ∧
      (d ∉ sv.bytes →
        (stitch_sv_chop_by_delim sv d).1.bytes = sv.bytes ∧
          (stitch_sv_chop_by_delim sv d).2.bytes = [] ∧
          (stitch_sv_chop_by_delim sv d).2.count = 0) := by
  have hlen : sv.bytes.length = sv.count := by
    simp [Stitch_String_View.bytes, List.length_take, hwf]
  have hsplit := List.takeWhile_append_dropWhile (fun c => c != d) sv.bytes
  have hi : stitch_sv_chop_by_delim_loop d sv.data sv.count
      = (sv.bytes.takeWhile (fun c => c != d)).length := chop_loop_eq d sv.data sv.count
  have hile : (sv.bytes.takeWhile (fun c => c != d)).length ≤ sv.count := by
    rw [← hlen]
    exact (List.takeWhile_prefix _).length_le
  have hres : (stitch_sv_chop_by_delim sv d).1.bytes = sv.bytes.takeWhile (fun c => c != d) := by
    have h1 : (stitch_sv_chop_by_delim sv d).1
        = stitch_sv_from_parts sv.data (stitch_sv_chop_by_delim_loop d sv.data sv.count) := by
      unfold stitch_sv_chop_by_delim
      simp only
      split <;> rfl
    rw [h1, hi]
    simp only [Stitch_String_View.bytes, stitch_sv_from_parts]
    have h2 : sv.data.take (List.takeWhile (fun c => c != d) (sv.data.take sv.count)).length
        = (sv.data.take sv.count).take
            (List.takeWhile (fun c => c != d) (sv.data.take sv.count)).length := by
      rw [List.take_take]
      congr 1
      simp only [Stitch_String_View.bytes] at hile
      omega
    rw [h2]
    exact take_length_takeWhile _ _
  have hnot : d ∉ sv.bytes.takeWhile (fun c => c != d) := by
    intro hmem
    have := List.mem_takeWhile_imp hmem
    simp at this
  refine ⟨hres, ?_, ?_, ?_, ?_, ?_⟩
  · rw [hres]
    exact List.takeWhile_prefix _
  · rw [hres]
    exact hnot
  · intro p hp hdp
    rw [hres]
    by_contra hlt
    have hlt1 : (sv.bytes.takeWhile (fun c => c != d)).length < p.length := by omega
    have hpre : sv.bytes.takeWhile (fun c => c != d) <+: p := by
      refine (List.prefix_of_prefix_length_le (List.takeWhile_prefix _) hp ?_)
      omega
    obtain ⟨t, ht⟩ := hpre
    obtain ⟨u, hu⟩ := hp
    have hdw : sv.bytes.dropWhile (fun c => c != d) = t ++ u := by
      have : sv.bytes.takeWhile (fun c => c != d) ++ (t ++ u)
          = sv.bytes.takeWhile (fun c => c != d) ++ sv.bytes.dropWhile (fun c => c != d) := by
        rw [hsplit, ← List.append_assoc, ht, hu]
      exact (List.append_cancel_left this).symm
    cases t with
    | nil =>
      rw [List.append_nil] at ht
      rw [ht] at hlt1
      omega
    | cons x xs =>
      have hhead : (sv.bytes.dropWhile (fun c => c != d)).head? = some x := by
        rw [hdw]; rfl
      have hx := List.head?_dropWhile_not (fun c => c != d) sv.bytes
      rw [hhead] at hx
      simp only [Option.all_some, bne_iff_ne, ne_eq, Bool.not_eq_true', decide_eq_false_iff_not,
        not_not, Bool.not_eq_eq_eq_not, Bool.not_true, bne_eq_false_iff_eq] at hx
      apply hdp
      rw [← ht, ← hx]
      simp
  · intro hin
    have hdne : sv.bytes.dropWhile (fun c => c != d) ≠ [] := by
      intro he
      rw [he, List.append_nil] at hsplit
      rw [← hsplit] at hin
      exact hnot hin
    obtain ⟨x, tail, hxt⟩ := List.exists_cons_of_ne_nil hdne
    have hx := List.head?_dropWhile_not (fun c => c != d) sv.bytes
    rw [hxt] at hx
    simp only [List.head?_cons, Option.all_some, bne_iff_ne, ne_eq, Bool.not_eq_true',
      decide_eq_false_iff_not, not_not, Bool.not_eq_eq_eq_not, Bool.not_true,
      bne_eq_false_iff_eq] at hx
    subst hx
    have hlt : (sv.bytes.takeWhile (fun c => c != x)).length < sv.count := by
      have := congrArg List.length hsplit
      rw [List.length_append, hxt, List.length_cons, hlen] at this
      omega
    have hrest : (stitch_sv_chop_by_delim sv x).2.bytes = tail := by
      have hcase : stitch_sv_chop_by_delim sv x
          = (stitch_sv_from_parts sv.data (sv.bytes.takeWhile (fun c => c != x)).length,
              { count := sv.count - ((sv.bytes.takeWhile (fun c => c != x)).length + 1),
                data := sv.data.drop ((sv.bytes.takeWhile (fun c => c != x)).length + 1) }) := by
        unfold stitch_sv_chop_by_delim
        simp only [hi, hlt, if_true]
      rw [hcase]
      simp only [Stitch_String_View.bytes]
      have h3 : (sv.data.drop ((sv.bytes.takeWhile (fun c => c != x)).length + 1)).take
          (sv.count - ((sv.bytes.takeWhile (fun c => c != x)).length + 1))
          = sv.bytes.drop ((sv.bytes.takeWhile (fun c => c != x)).length + 1) := by
        unfold Stitch_String_View.bytes
        rw [List.drop_take]
      simp only [Stitch_String_View.bytes] at h3
      rw [h3]
      have h4 := congrArg (List.drop
        ((List.takeWhile (fun c => c != x) (sv.data.take sv.count)).length + 1)) hsplit
      simp only [Stitch_String_View.bytes] at h4 hxt
      rw [← h4, hxt]
      simp [List.drop_append]
    rw [hres, hrest, ← hxt]
    exact hsplit
  · intro hnin
    have hall : sv.bytes.takeWhile (fun c => c != d) = sv.bytes := by
      rw [List.takeWhile_eq_self_iff]
      intro c hc
      simp only [bne_iff_ne, ne_eq]
      intro hcd
      exact hnin (hcd ▸ hc)
    have hnlt : ¬ (sv.bytes.takeWhile (fun c => c != d)).length < sv.count := by
      rw [hall, hlen]
      omega
    have hcase : stitch_sv_chop_by_delim sv d
        = (stitch_sv_from_parts sv.data (sv.bytes.takeWhile (fun c => c != d)).length,
            { count := sv.count - (sv.bytes.takeWhile (fun c => c != d)).length,
              data := sv.data.drop (sv.bytes.takeWhile (fun c => c != d)).length }) := by
      unfold stitch_sv_chop_by_delim
      simp only [hi, hnlt, if_false]
    have hzero : sv.count - (sv.bytes.takeWhile (fun c => c != d)).length = 0 := by
      rw [hall, hlen]
      omega
    refine ⟨by rw [hres, hall], ?_, ?_⟩
    · rw [hcase]
      simp only [Stitch_String_View.bytes]
      simp only [Stitch_String_View.bytes] at hzero
      rw [hzero]
      rfl
    · rw [hcase]
      exact hzero

theorem sv_chop_by_delim_spec_witness :
    (stitch_sv_from_cstr "a,b,c".data).count ≤ (stitch_sv_from_cstr "a,b,c".data).data.length ∧
      stitch_sv_chop_by_delim (stitch_sv_from_cstr "a,b,c".data) ','
        = ({ count := 1, data := "a,b,c".data }, { count := 3, data := "b,c".data }) ∧
      stitch_sv_chop_by_delim (stitch_sv_from_cstr "abc".data) ','
        = ({ count := 3, data := "abc".data }, { count := 0, data := [] }) ∧
      (stitch_sv_chop_by_delim (stitch_sv_from_cstr "a,b,c".data) ',').1.bytes
        = (stitch_sv_from_cstr "a,b,c".data).bytes.takeWhile (fun c => c != ',') :=
  ⟨by decide, by decide, by decide,
    (sv_chop_by_delim_spec (stitch_sv_from_cstr "a,b,c".data) ',' (by decide)).1⟩

end Stitch
